import Mathlib

/-!
Procedural mesh generation (`mesh.cpp`)

A shallow embedding of the cylinder and sphere generators of `mesh.cpp`, of
the cube literal and of the attribute layout shared by all meshes, together
with the image flip of `texture.cpp` and the two mouse callbacks of `main.cpp`.

* A `std::vector<GLfloat>` is a `List α` of scalars, a `std::vector<GLuint>` a
  `List Nat`; `push_back` appends at the end.
* The C++ `for` loops are left folds over `List.range`, threading the vector
  that is being filled.
* `segments` / `numSegments`, the loop counters and the index values of the
  generators are natural numbers.  The shipped tessellations (36 and 16) keep
  every index far below the 32-bit range, so no machine wrap-around is modelled
  there.  Only a whole run of the cylinder generator (`UCreateCylinder.run`)
  takes `segments` as an integer, negative values included, as the source
  declares it `const int`.
* The `int` arithmetic of `flipImageVertically` is 32-bit: every `int` result is
  reduced by `wrapInt32` (two's-complement wrap-around), and an access outside
  the image buffer makes the call fail.
* `float` arithmetic is arithmetic in a field `α`; the math-library calls
  (`cos`, `sin`, `glm::pi`, the square root behind `glm::normalize`) are taken
  from a `FloatOps α` record, instantiated over `ℝ` with the real functions.
-/

namespace Mesh

/-! ## Scalars and vertices -/

/-- Math-library operations that the generators call on `float`s. -/
structure FloatOps (α : Type) where
  /-- The constant `glm::pi<float>()`. -/
  pi : α
  /-- The function `cos`. -/
  cos : α → α
  /-- The function `sin`. -/
  sin : α → α
  /-- The function `sqrt`, used by `glm::normalize`. -/
  sqrt : α → α

/-- Degrees to radians, `glm::radians`, as the exact conversion. -/
def radians {α : Type} [Field α] (ops : FloatOps α) (degrees : α) : α :=
  degrees * (ops.pi / 180)

/-- Unit vector of `v`, `glm::normalize(v) = v * inversesqrt(dot(v, v))`. -/
def normalize {α : Type} [Field α] (ops : FloatOps α) (v : α × α × α) : α × α × α :=
  let inv := 1 / ops.sqrt (v.1 * v.1 + v.2.1 * v.2.1 + v.2.2 * v.2.2)
  (v.1 * inv, v.2.1 * inv, v.2.2 * inv)

/-- One vertex record as the attribute layout reads it: position, normal, UV. -/
structure Vertex (α : Type) where
  /-- Attribute 0, three floats. -/
  position : α × α × α
  /-- Attribute 1, three floats. -/
  normal : α × α × α
  /-- Attribute 2, two floats. -/
  uv : α × α
deriving DecidableEq, Repr

/-- Number of floats of the position attribute (`floatsPerVertex`). -/
def floatsPerVertex : Nat := 3

/-- Number of floats of the normal attribute (`floatsPerNormal`). -/
def floatsPerNormal : Nat := 3

/-- Number of floats of the texture attribute (`floatsPerUV`). -/
def floatsPerUV : Nat := 2

/-- Stride of one vertex, in floats. -/
def strideFloats : Nat := floatsPerVertex + floatsPerNormal + floatsPerUV

/-- Number of whole vertices held by a float buffer. -/
def vertexCount {α : Type} (buf : List α) : Nat := buf.length / strideFloats

/-- Vertex `k` of a float buffer: the floats at `8k .. 8k+7`, read with the
attribute offsets 0, 3 and 6. -/
def vertexAt {α : Type} (buf : List α) (k : Nat) : Option (Vertex α) := do
  let px ← buf[strideFloats * k + 0]?
  let py ← buf[strideFloats * k + 1]?
  let pz ← buf[strideFloats * k + 2]?
  let nx ← buf[strideFloats * k + floatsPerVertex + 0]?
  let ny ← buf[strideFloats * k + floatsPerVertex + 1]?
  let nz ← buf[strideFloats * k + floatsPerVertex + 2]?
  let u ← buf[strideFloats * k + (floatsPerVertex + floatsPerNormal) + 0]?
  let v ← buf[strideFloats * k + (floatsPerVertex + floatsPerNormal) + 1]?
  pure ⟨(px, py, pz), (nx, ny, nz), (u, v)⟩

/-! ## Cylinder generator (`UCreateCylinder`) -/

namespace UCreateCylinder

/-- Shipped tessellation, `const int segments = 36`. -/
def segments : Nat := 36

/-- The sixteen floats pushed by iteration `i` of the rim loop: the top-rim
vertex followed by the bottom-rim vertex. -/
def rimFloats {α : Type} [Field α] (ops : FloatOps α) (segments : Nat)
    (radius height : α) (i : Nat) : List α :=
  let angleStep := 2 * ops.pi / (segments : α)
  let angle := (i : α) * angleStep
  let x := radius * ops.cos angle
  let z := radius * ops.sin angle
  let u := (i : α) / (segments : α)
  [x, height / 2, z, x, 0, z, u, 1,
   x, -height / 2, z, x, 0, z, u, 0]

/-- The eight floats of the top cap-centre vertex. -/
def centerTopFloats {α : Type} [Field α] (height : α) : List α :=
  [0, height / 2, 0, 0, 1, 0, 1 / 2, 1 / 2]

/-- The eight floats of the bottom cap-centre vertex. -/
def centerBottomFloats {α : Type} [Field α] (height : α) : List α :=
  [0, -height / 2, 0, 0, -1, 0, 1 / 2, 1 / 2]

/-- The vector `vertices` at the end of the generator: the rim loop
`for (i = 0; i <= segments; ++i)` followed by the two cap-centre vertices. -/
def vertices {α : Type} [Field α] (ops : FloatOps α) (segments : Nat)
    (radius height : α) : List α :=
  let rim := (List.range (segments + 1)).foldl
    (fun vertices i => vertices ++ rimFloats ops segments radius height i) []
  (rim ++ centerTopFloats height) ++ centerBottomFloats height

/-- The six indices pushed by iteration `i` of the side-wall loop. -/
def sideIndices (i : Nat) : List Nat :=
  let top1 := i * 2
  let top2 := (i + 1) * 2
  let bottom1 := i * 2 + 1
  let bottom2 := (i + 1) * 2 + 1
  [top1, bottom1, bottom2, top1, bottom2, top2]

/-- The index `centerTopIndex`. -/
def centerTopIndex (segments : Nat) : Nat := (segments + 1) * 2

/-- The index `centerBottomIndex`. -/
def centerBottomIndex (segments : Nat) : Nat := centerTopIndex segments + 1

/-- The six indices pushed by iteration `i` of the cap loop. -/
def capIndices (segments : Nat) (i : Nat) : List Nat :=
  let top1 := i * 2
  let top2 := (i + 1) * 2
  let bottom1 := i * 2 + 1
  let bottom2 := (i + 1) * 2 + 1
  [top1, top2, centerTopIndex segments, bottom1, centerBottomIndex segments, bottom2]

/-- The vector `indices` after the side-wall loop. -/
def sideLoop (segments : Nat) : List Nat :=
  (List.range segments).foldl (fun indices i => indices ++ sideIndices i) []

/-- The vector `indices` at the end of the generator: side-wall loop, then cap
loop, both `for (i = 0; i < segments; ++i)`. -/
def indices (segments : Nat) : List Nat :=
  (List.range segments).foldl (fun indices i => indices ++ capIndices segments i)
    (sideLoop segments)

end UCreateCylinder

/-! ## Sphere generator (`UCreateSphere`) -/

namespace UCreateSphere

/-- Shipped tessellation, `unsigned int numSegments = 16`. -/
def numSegments : Nat := 16

/-- The eight floats pushed for latitude index `i` and longitude index `j`. -/
def vertexFloats {α : Type} [Field α] (ops : FloatOps α) (numSegments : Nat)
    (radius : α) (i j : Nat) : List α :=
  let y := ops.cos (radians ops (180 - ((i : α) * 180 / (numSegments : α))))
  let x := ops.cos (radians ops ((j : α) * 360 / (numSegments : α)))
    * ops.sin (radians ops (180 - ((i : α) * 180 / (numSegments : α))))
  let z := ops.sin (radians ops ((j : α) * 360 / (numSegments : α)))
    * ops.sin (radians ops (180 - ((i : α) * 180 / (numSegments : α))))
  let normal := normalize ops (x, y, z)
  [radius * x, radius * y, radius * z,
   normal.1, normal.2.1, normal.2.2,
   (j : α) / (numSegments : α), (i : α) / (numSegments : α)]

/-- The vector `verts` at the end of the nested vertex loops
`for (i = 0; i <= numSegments; ++i) for (j = 0; j <= numSegments; ++j)`. -/
def verts {α : Type} [Field α] (ops : FloatOps α) (numSegments : Nat)
    (radius : α) : List α :=
  (List.range (numSegments + 1)).foldl
    (fun verts i => (List.range (numSegments + 1)).foldl
      (fun verts j => verts ++ vertexFloats ops numSegments radius i j) verts) []

/-- The six indices pushed for cell `(i, j)` of the index loops. -/
def cellIndices (numSegments : Nat) (i j : Nat) : List Nat :=
  let first := (i * (numSegments + 1)) + j
  let second := first + numSegments + 1
  [first, second, first + 1, second, second + 1, first + 1]

/-- The vector `indices` at the end of the nested index loops
`for (i = 0; i < numSegments; ++i) for (j = 0; j < numSegments; ++j)`. -/
def indices (numSegments : Nat) : List Nat :=
  (List.range numSegments).foldl
    (fun indices i => (List.range numSegments).foldl
      (fun indices j => indices ++ cellIndices numSegments i j) indices) []

end UCreateSphere

/-! ## Draw calls (`URender`) -/

namespace URender

/-- Count passed to `glDrawElements` for both cylinders. -/
def cylinderDrawCount : Nat := 12 * 36

/-- Count passed to `glDrawElements` for the sphere. -/
def sphereDrawCount : Nat := 6 * 16 * 16

end URender

/-! ## Shipped shape parameters -/

/-- Shipped cylinder radius, `const float radius = 1.0f`. -/
def UCreateCylinder.radius {α : Type} [Field α] : α := 1

/-- Shipped cylinder height, `const float height = 2.0f`. -/
def UCreateCylinder.height {α : Type} [Field α] : α := 2

/-- Shipped sphere radius, `float radius = 0.5f`. -/
def UCreateSphere.radius {α : Type} [Field α] : α := 1 / 2

/-! ## Vectors and triangles -/

/-- Componentwise difference `a - b` of two positions. -/
def vsub {α : Type} [Field α] (a b : α × α × α) : α × α × α :=
  (a.1 - b.1, a.2.1 - b.2.1, a.2.2 - b.2.2)

/-- Cross product `a × b`. -/
def cross {α : Type} [Field α] (a b : α × α × α) : α × α × α :=
  (a.2.1 * b.2.2 - a.2.2 * b.2.1, a.2.2 * b.1 - a.1 * b.2.2, a.1 * b.2.1 - a.2.1 * b.1)

/-- Dot product `a · b`. -/
def dot {α : Type} [Field α] (a b : α × α × α) : α :=
  a.1 * b.1 + a.2.1 * b.2.1 + a.2.2 * b.2.2

/-- Euclidean length `sqrt(v · v)`. -/
def length3 {α : Type} [Field α] (ops : FloatOps α) (v : α × α × α) : α :=
  ops.sqrt (dot v v)

/-- Right-hand-rule normal `(v1 - v0) × (v2 - v0)` of the triangle `v0 v1 v2`. -/
def faceNormal {α : Type} [Field α] (v0 v1 v2 : α × α × α) : α × α × α :=
  cross (vsub v1 v0) (vsub v2 v0)

/-- Triangle `t` of an indexed draw with `GL_TRIANGLES`: the vertices fetched
through index-buffer entries `3t`, `3t+1`, `3t+2`, in that order. -/
def triangleAt {α : Type} (verts : List α) (indices : List Nat) (t : Nat) :
    Option (Vertex α × Vertex α × Vertex α) := do
  let i0 ← indices[3 * t + 0]?
  let i1 ← indices[3 * t + 1]?
  let i2 ← indices[3 * t + 2]?
  let v0 ← vertexAt verts i0
  let v1 ← vertexAt verts i1
  let v2 ← vertexAt verts i2
  pure (v0, v1, v2)

/-- The positions of all whole vertices of a float buffer, in buffer order. -/
def positions {α : Type} (buf : List α) : List (α × α × α) :=
  (List.range (vertexCount buf)).filterMap (fun k => (vertexAt buf k).map Vertex.position)

/-- Least entry of a list of coordinates. -/
def axisMin {α : Type} [LinearOrder α] : List α → Option α
  | [] => none
  | x :: rest => some (rest.foldl min x)

/-- Greatest entry of a list of coordinates. -/
def axisMax {α : Type} [LinearOrder α] : List α → Option α
  | [] => none
  | x :: rest => some (rest.foldl max x)

/-! ## Generator results -/

/-- The two vectors a generator hands to `glBufferData`. -/
structure GeometryBuffer (α : Type) where
  /-- The float vector bound to `GL_ARRAY_BUFFER`. -/
  vertices : List α
  /-- The index vector bound to `GL_ELEMENT_ARRAY_BUFFER`. -/
  indices : List Nat

/-- Error results named by the specification.  The source declares no error
type; the constructor exists only so that an error result can be spoken of. -/
inductive GeneratorError where
  /-- A shape parameter outside its documented range. -/
  | InvalidParameter
deriving DecidableEq, Repr

/-- A whole run of the cylinder generator, with the local constant
`const int segments` taken as a parameter.  The rim loop
`for (int i = 0; i <= segments; ++i)` makes `segments + 1` passes when that
number is positive and none otherwise; the two index loops
`for (int i = 0; i < segments; ++i)` make `segments` passes when that number is
positive and none otherwise.  A loop body runs only with `0 <= i <= segments`,
where `segments.toNat` is `segments` itself.  The two cap-centre vertices are
pushed between the loops whatever the value of `segments`.  The body has no
guard, no early return and no throw before the buffers are built, and the
function returns `void`: every run ends with the two vectors. -/
def UCreateCylinder.run {α : Type} [Field α] (ops : FloatOps α) (segments : Int)
    (radius height : α) : Except GeneratorError (GeometryBuffer α) :=
  let rim := (List.range (segments + 1).toNat).foldl
    (fun vertices i =>
      vertices ++ UCreateCylinder.rimFloats ops segments.toNat radius height i) []
  let vertices :=
    (rim ++ UCreateCylinder.centerTopFloats height) ++ UCreateCylinder.centerBottomFloats height
  let side := (List.range segments.toNat).foldl
    (fun indices i => indices ++ UCreateCylinder.sideIndices i) []
  let indices := (List.range segments.toNat).foldl
    (fun indices i => indices ++ UCreateCylinder.capIndices segments.toNat i) side
  Except.ok ⟨vertices, indices⟩

/-- A whole run of the sphere generator, with the local `unsigned int
numSegments` taken as a parameter.  The body has no guard, no early return and
no throw before the buffers are built, and the function returns `void`: every
run ends with the two vectors. -/
def UCreateSphere.run {α : Type} [Field α] (ops : FloatOps α) (numSegments : Nat)
    (radius : α) : Except GeneratorError (GeometryBuffer α) :=
  Except.ok ⟨UCreateSphere.verts ops numSegments radius,
    UCreateSphere.indices numSegments⟩

/-! ## Attribute layout -/

/-- The size `sizeof(float)` of a `GLfloat`, in bytes. -/
def sizeofFloat : Nat := 4

/-- One `glVertexAttribPointer` call: attribute index, component count, stride
in bytes and byte offset of the first component. -/
structure AttribPointer where
  /-- The attribute index. -/
  index : Nat
  /-- The number of floats of the attribute. -/
  size : Nat
  /-- The byte distance between consecutive vertices. -/
  stride : Nat
  /-- The byte offset of the attribute inside a vertex. -/
  offset : Nat
deriving DecidableEq, Repr

/-- The value `GLint stride = sizeof(float) * (floatsPerVertex + floatsPerNormal
+ floatsPerUV)`. -/
def stride : Nat := sizeofFloat * (floatsPerVertex + floatsPerNormal + floatsPerUV)

/-- The three `glVertexAttribPointer` calls, identical in every generator. -/
def attribPointers : List AttribPointer :=
  [⟨0, floatsPerVertex, stride, 0⟩,
   ⟨1, floatsPerNormal, stride, sizeofFloat * floatsPerVertex⟩,
   ⟨2, floatsPerUV, stride, sizeofFloat * (floatsPerVertex + floatsPerNormal)⟩]

/-- What a `glVertexAttribPointer(index, size, GL_FLOAT, GL_FALSE, stride,
offset)` call makes the vertex fetch read for vertex `k` of the bound array
buffer: `size` consecutive floats, the first of them `stride * k + offset`
bytes into the buffer. -/
def fetchAttrib {α : Type} (buf : List α) (p : AttribPointer) (k : Nat) : List α :=
  (buf.drop ((p.stride * k + p.offset) / sizeofFloat)).take p.size

/-! ## Cube (`UCreateCube`) -/

/-- The literal array `GLfloat verts[]` of the cube: 36 vertices of 8 floats. -/
def UCreateCube.verts {α : Type} [Field α] : List α :=
  [
   0.5, -0.5, 0.0, 0.0, -1.0, 0.0, 1.0, 1.0,
   -0.5, -0.5, 0.0, 0.0, -1.0, 0.0, 0.0, 1.0,
   -0.5, -0.5, -1.0, 0.0, -1.0, 0.0, 0.0, 0.0,
   0.5, -0.5, 0.0, 0.0, -1.0, 0.0, 1.0, 1.0,
   0.5, -0.5, -1.0, 0.0, -1.0, 0.0, 1.0, 0.0,
   -0.5, -0.5, -1.0, 0.0, -1.0, 0.0, 0.0, 0.0,
   -0.5, 0.5, 0.0, -1.0, 0.0, 0.0, 1.0, 1.0,
   -0.5, 0.5, -1.0, -1.0, 0.0, 0.0, 0.0, 1.0,
   -0.5, -0.5, -1.0, -1.0, 0.0, 0.0, 0.0, 0.0,
   -0.5, 0.5, 0.0, -1.0, 0.0, 0.0, 1.0, 1.0,
   -0.5, -0.5, 0.0, -1.0, 0.0, 0.0, 1.0, 0.0,
   -0.5, -0.5, -1.0, -1.0, 0.0, 0.0, 0.0, 0.0,
   0.5, 0.5, -1.0, 1.0, 0.0, 0.0, 1.0, 1.0,
   0.5, 0.5, 0.0, 1.0, 0.0, 0.0, 0.0, 1.0,
   0.5, -0.5, 0.0, 1.0, 0.0, 0.0, 0.0, 0.0,
   0.5, 0.5, -1.0, 1.0, 0.0, 0.0, 1.0, 1.0,
   0.5, -0.5, -1.0, 1.0, 0.0, 0.0, 1.0, 0.0,
   0.5, -0.5, 0.0, 1.0, 0.0, 0.0, 0.0, 0.0,
   0.5, 0.5, 0.0, 0.0, 1.0, 0.0, 1.0, 4.0,
   -0.5, 0.5, 0.0, 0.0, 1.0, 0.0, 0.0, 4.0,
   -0.5, 0.5, -1.0, 0.0, 1.0, 0.0, 0.0, 0.0,
   0.5, 0.5, 0.0, 0.0, 1.0, 0.0, 1.0, 4.0,
   0.5, 0.5, -1.0, 0.0, 1.0, 0.0, 1.0, 0.0,
   -0.5, 0.5, -1.0, 0.0, 1.0, 0.0, 0.0, 0.0,
   0.5, 0.5, -1.0, 0.0, 0.0, -1.0, 1.0, 3.0,
   -0.5, 0.5, -1.0, 0.0, 0.0, -1.0, 0.0, 3.0,
   -0.5, -0.5, -1.0, 0.0, 0.0, -1.0, 0.0, 0.0,
   0.5, 0.5, -1.0, 0.0, 0.0, -1.0, 1.0, 3.0,
   0.5, -0.5, -1.0, 0.0, 0.0, -1.0, 1.0, 0.0,
   -0.5, -0.5, -1.0, 0.0, 0.0, -1.0, 0.0, 0.0,
   0.5, 0.5, 0.0, 0.0, 0.0, 1.0, 1.0, 3.0,
   -0.5, 0.5, 0.0, 0.0, 0.0, 1.0, 0.0, 3.0,
   -0.5, -0.5, 0.0, 0.0, 0.0, 1.0, 0.0, 0.0,
   0.5, 0.5, 0.0, 0.0, 0.0, 1.0, 1.0, 3.0,
   0.5, -0.5, 0.0, 0.0, 0.0, 1.0, 1.0, 0.0,
   -0.5, -0.5, 0.0, 0.0, 0.0, 1.0, 0.0, 0.0
  ]

/-! ## Image flip (`texture.cpp`) -/

/-- The value of a 32-bit `int` after an arithmetic operation whose exact
result is `x`: `x` reduced modulo `2^32` into `-2^31 .. 2^31 - 1`. -/
def wrapInt32 (x : Int) : Int := (x + 2147483648) % 4294967296 - 2147483648

/-- The read `image[index]` with an `int` index: `none` when the index is
negative or past the end of the buffer. -/
def readAt {β : Type} (image : List β) (index : Int) : Option β :=
  if 0 ≤ index then image[index.toNat]? else none

/-- The inner loop of `flipImageVertically`,
`for (int i = width * channels; i > 0; --i)`, given its number of passes: each
pass reads `image[index1]` and `image[index2]`, stores them exchanged and
increments both `int` indices.  A read outside the buffer gives `none`. -/
def flipRow {β : Type} (image : List β) (index1 index2 : Int) : Nat → Option (List β)
  | 0 => some image
  | i + 1 =>
    match readAt image index1, readAt image index2 with
    | some tmp, some other =>
      flipRow ((image.set index1.toNat other).set index2.toNat tmp)
        (wrapInt32 (index1 + 1)) (wrapInt32 (index2 + 1)) i
    | _, _ => none

/-- The function `flipImageVertically(image, width, height, channels)` with its
three `int` parameters: the outer loop `for (int j = 0; j < height / 2; ++j)`
computes `index1 = j * width * channels` and
`index2 = (height - 1 - j) * width * channels` in 32-bit arithmetic and runs
the inner loop `width * channels` times (not at all when that `int` is not
positive).  The result is the buffer after the call, or `none` when an access
falls outside it. -/
def flipImageVertically {β : Type} (image : List β) (width height channels : Int) :
    Option (List β) :=
  (List.range (Int.tdiv height 2).toNat).foldlM
    (fun image (j : Nat) =>
      let index1 := wrapInt32 (wrapInt32 ((j : Int) * width) * channels)
      let index2 :=
        wrapInt32 (wrapInt32 (wrapInt32 (wrapInt32 (height - 1) - (j : Int)) * width) * channels)
      flipRow image index1 index2 (wrapInt32 (width * channels)).toNat)
    image

/-! ## Camera callbacks (`main.cpp`) -/

/-- The function `UMouseScrollCallback`: the new value of the global
`cameraSpeed` after a scroll by `yoffset`. -/
def UMouseScrollCallback {α : Type} [LinearOrderedField α] (cameraSpeed yoffset : α) : α :=
  let cameraSpeed := cameraSpeed + yoffset
  let cameraSpeed := if cameraSpeed < 1 then 1 else cameraSpeed
  if cameraSpeed > 10 then 10 else cameraSpeed

/-- The globals read and written by `UMousePositionCallback`. -/
structure MouseState (α : Type) where
  /-- The flag `firstMouse`. -/
  firstMouse : Bool
  /-- The last mouse x-coordinate `lastX`. -/
  lastX : α
  /-- The last mouse y-coordinate `lastY`. -/
  lastY : α
  /-- The angle `yaw`, in degrees. -/
  yaw : α
  /-- The angle `pitch`, in degrees. -/
  pitch : α
  /-- The vector `cameraFront`. -/
  cameraFront : α × α × α

/-- The function `UMousePositionCallback`: the globals after a mouse move to
`(xpos, ypos)`. -/
def UMousePositionCallback {α : Type} [LinearOrderedField α] (ops : FloatOps α)
    (s : MouseState α) (xpos ypos : α) : MouseState α :=
  let lastX := if s.firstMouse then xpos else s.lastX
  let lastY := if s.firstMouse then ypos else s.lastY
  let firstMouse := if s.firstMouse then false else s.firstMouse
  let xoffset := xpos - lastX
  let yoffset := lastY - ypos
  let lastX := xpos
  let lastY := ypos
  let sensitivity : α := 0.2
  let xoffset := xoffset * sensitivity
  let yoffset := yoffset * sensitivity
  let yaw := s.yaw + xoffset
  let pitch := s.pitch + yoffset
  let pitch := if pitch > 89 then 89 else pitch
  let pitch := if pitch < -89 then -89 else pitch
  let front : α × α × α :=
    (ops.cos (radians ops yaw) * ops.cos (radians ops pitch),
     ops.sin (radians ops pitch),
     ops.sin (radians ops yaw) * ops.cos (radians ops pitch))
  { firstMouse := firstMouse, lastX := lastX, lastY := lastY, yaw := yaw, pitch := pitch,
    cameraFront := normalize ops front }

/-! ## Loops that append fixed-size chunks -/

/-- A loop that appends `f b` for each `b` of `l` yields the initial vector
followed by the chunks in order. -/
theorem foldl_append_chunks {β γ : Type} (f : β → List γ) (l : List β) (init : List γ) :
    l.foldl (fun acc b => acc ++ f b) init = init ++ (l.map f).flatten := by
  induction l generalizing init with
  | nil => simp
  | cons b l ih => simp [ih, List.append_assoc]

/-- Chunks of common length `k` flatten to `k * l.length` entries. -/
theorem length_flatten_chunks {β γ : Type} (f : β → List γ) (k : Nat)
    (hk : ∀ b, (f b).length = k) (l : List β) :
    ((l.map f).flatten).length = k * l.length := by
  induction l with
  | nil => simp
  | cons b l ih =>
    simp only [List.map_cons, List.flatten_cons, List.length_append, List.length_cons, ih, hk]
    ring

/-- Entry `k * i + r` of the flattened chunks is entry `r` of chunk `i`. -/
theorem getElem?_flatten_chunks {β γ : Type} (f : β → List γ) (k : Nat)
    (hk : ∀ b, (f b).length = k) (l : List β) (i r : Nat) (hr : r < k) :
    ((l.map f).flatten)[k * i + r]? = (l[i]?).bind (fun b => (f b)[r]?) := by
  induction l generalizing i with
  | nil => simp
  | cons b l ih =>
    cases i with
    | zero =>
      simp only [List.map_cons, List.flatten_cons, Nat.mul_zero, Nat.zero_add,
        List.getElem?_cons_zero, Option.some_bind]
      exact List.getElem?_append_left (by rw [hk]; exact hr)
    | succ i =>
      have hle : (f b).length ≤ k * (i + 1) + r := by rw [hk, Nat.mul_succ]; omega
      have hsub : k * (i + 1) + r - (f b).length = k * i + r := by
        rw [hk, Nat.mul_succ]; omega
      simp only [List.map_cons, List.flatten_cons, List.getElem?_cons_succ]
      rw [List.getElem?_append_right hle, hsub]
      exact ih i

/-- Entry `k * i + r` of the chunks of `List.range n`. -/
theorem getElem?_range_chunks {γ : Type} (f : Nat → List γ) (k : Nat)
    (hk : ∀ b, (f b).length = k) (n i r : Nat) (hi : i < n) (hr : r < k) :
    (((List.range n).map f).flatten)[k * i + r]? = (f i)[r]? := by
  rw [getElem?_flatten_chunks f k hk _ i r hr, List.getElem?_range hi]
  rfl

/-- Membership in the flattened chunks. -/
theorem mem_range_chunks {γ : Type} (f : Nat → List γ) (n : Nat) (x : γ) :
    x ∈ ((List.range n).map f).flatten ↔ ∃ i, i < n ∧ x ∈ f i := by
  simp only [List.mem_flatten, List.mem_map, List.mem_range]
  constructor
  · rintro ⟨c, ⟨i, hi, rfl⟩, hx⟩
    exact ⟨i, hi, hx⟩
  · rintro ⟨i, hi, hx⟩
    exact ⟨f i, ⟨i, hi, rfl⟩, hx⟩

/-- The slice `k * i .. k * i + k - 1` of the chunks of `List.range n` is chunk `i`. -/
theorem slice_range_chunks {γ : Type} (f : Nat → List γ) (k : Nat)
    (hk : ∀ b, (f b).length = k) (n i : Nat) (hi : i < n) (rest : List γ) :
    ((((List.range n).map f).flatten ++ rest).drop (k * i)).take k = f i := by
  apply List.ext_getElem?
  intro r
  by_cases hr : r < k
  · rw [List.getElem?_take_of_lt hr, List.getElem?_drop]
    have hlen : k * i + r < (((List.range n).map f).flatten).length := by
      rw [length_flatten_chunks f k hk, List.length_range]
      calc k * i + r < k * i + k := by omega
        _ = k * (i + 1) := by ring
        _ ≤ k * n := Nat.mul_le_mul_left k hi
    rw [List.getElem?_append_left hlen]
    exact getElem?_range_chunks f k hk n i r hi hr
  · have h1 : k ≤ r := Nat.le_of_not_lt hr
    have hright : (f i)[r]? = none := List.getElem?_eq_none (by rw [hk]; exact h1)
    rw [hright]
    apply List.getElem?_eq_none
    rw [List.length_take]
    exact Nat.le_trans (Nat.min_le_left _ _) h1

/-- Two nested loops over `List.range m` that append `f a b` yield the chunks
in row-major order. -/
theorem foldl_nested_chunks {γ : Type} (f : Nat → Nat → List γ) (m : Nat) :
    (List.range m).foldl
        (fun acc a => (List.range m).foldl (fun acc b => acc ++ f a b) acc) [] =
      ((List.range m).map (fun a => ((List.range m).map (f a)).flatten)).flatten := by
  simp only [foldl_append_chunks, List.nil_append]

/-- Row-major chunks of common length `k` flatten to `k * (m * m)` entries. -/
theorem length_nested_chunks {γ : Type} (f : Nat → Nat → List γ) (k : Nat)
    (hk : ∀ a b, (f a b).length = k) (m : Nat) :
    (((List.range m).map (fun a => ((List.range m).map (f a)).flatten)).flatten).length =
      k * (m * m) := by
  rw [length_flatten_chunks (fun a => ((List.range m).map (f a)).flatten) (k * m)
    (fun a => by rw [length_flatten_chunks (f a) k (hk a), List.length_range]),
    List.length_range, Nat.mul_assoc]

/-- Entry `k * (i * m + j) + r` of the row-major chunks is entry `r` of chunk
`(i, j)`. -/
theorem getElem?_nested_chunks {γ : Type} (f : Nat → Nat → List γ) (k : Nat)
    (hk : ∀ a b, (f a b).length = k) (m i j r : Nat) (hi : i < m) (hj : j < m)
    (hr : r < k) :
    (((List.range m).map (fun a => ((List.range m).map (f a)).flatten)).flatten)[
        k * (i * m + j) + r]? = (f i j)[r]? := by
  have hrow : ∀ a, (((List.range m).map (f a)).flatten).length = k * m := fun a => by
    rw [length_flatten_chunks (f a) k (hk a), List.length_range]
  have hidx : k * (i * m + j) + r = k * m * i + (k * j + r) := by ring
  have hlt : k * j + r < k * m := by
    calc k * j + r < k * j + k := by omega
      _ = k * (j + 1) := by ring
      _ ≤ k * m := Nat.mul_le_mul_left k hj
  rw [hidx, getElem?_range_chunks (fun a => ((List.range m).map (f a)).flatten) (k * m)
    hrow m i (k * j + r) hi hlt]
  exact getElem?_range_chunks (f i) k (hk i) m j r hj hr

/-- The slice of length `k` at `k * (i * m + j)` of the row-major chunks is
chunk `(i, j)`. -/
theorem slice_nested_chunks {γ : Type} (f : Nat → Nat → List γ) (k : Nat)
    (hk : ∀ a b, (f a b).length = k) (m i j : Nat) (hi : i < m) (hj : j < m) :
    ((((List.range m).map (fun a => ((List.range m).map (f a)).flatten)).flatten).drop
        (k * (i * m + j))).take k = f i j := by
  apply List.ext_getElem?
  intro r
  by_cases hr : r < k
  · rw [List.getElem?_take_of_lt hr, List.getElem?_drop]
    exact getElem?_nested_chunks f k hk m i j r hi hj hr
  · have h1 : k ≤ r := Nat.le_of_not_lt hr
    have hright : (f i j)[r]? = none := List.getElem?_eq_none (by rw [hk]; exact h1)
    rw [hright]
    apply List.getElem?_eq_none
    rw [List.length_take]
    exact Nat.le_trans (Nat.min_le_left _ _) h1

/-- Membership in the row-major chunks. -/
theorem mem_nested_chunks {γ : Type} (f : Nat → Nat → List γ) (m : Nat) (x : γ) :
    x ∈ ((List.range m).map (fun a => ((List.range m).map (f a)).flatten)).flatten ↔
      ∃ i j, i < m ∧ j < m ∧ x ∈ f i j := by
  rw [mem_range_chunks]
  constructor
  · rintro ⟨i, hi, hx⟩
    obtain ⟨j, hj, hxj⟩ := (mem_range_chunks (f i) m x).mp hx
    exact ⟨i, j, hi, hj, hxj⟩
  · rintro ⟨i, j, hi, hj, hx⟩
    exact ⟨i, hi, (mem_range_chunks (f i) m x).mpr ⟨j, hj, hx⟩⟩

/-! ## Closed forms of the cylinder buffers -/

/-- Every iteration of the rim loop pushes sixteen floats. -/
theorem cylinder_length_rimFloats {α : Type} [Field α] (ops : FloatOps α)
    (segments : Nat) (radius height : α) (i : Nat) :
    (UCreateCylinder.rimFloats ops segments radius height i).length = 16 := rfl

/-- The vertex vector is the rim chunks followed by the two cap centres. -/
theorem cylinder_vertices_eq {α : Type} [Field α] (ops : FloatOps α)
    (segments : Nat) (radius height : α) :
    UCreateCylinder.vertices ops segments radius height =
      ((List.range (segments + 1)).map
          (UCreateCylinder.rimFloats ops segments radius height)).flatten ++
        (UCreateCylinder.centerTopFloats height ++
          UCreateCylinder.centerBottomFloats height) := by
  simp only [UCreateCylinder.vertices, foldl_append_chunks, List.nil_append,
    List.append_assoc]

/-- The rim loop leaves `16 * (segments + 1)` floats. -/
theorem cylinder_length_rim {α : Type} [Field α] (ops : FloatOps α)
    (segments : Nat) (radius height : α) :
    (((List.range (segments + 1)).map
        (UCreateCylinder.rimFloats ops segments radius height)).flatten).length =
      16 * (segments + 1) := by
  rw [length_flatten_chunks _ 16 (cylinder_length_rimFloats ops segments radius height),
    List.length_range]

/-- Number of floats in the cylinder vertex vector. -/
theorem cylinder_length_vertices {α : Type} [Field α] (ops : FloatOps α)
    (segments : Nat) (radius height : α) :
    (UCreateCylinder.vertices ops segments radius height).length =
      8 * (2 * (segments + 1) + 2) := by
  rw [cylinder_vertices_eq, List.length_append, cylinder_length_rim]
  simp only [UCreateCylinder.centerTopFloats, UCreateCylinder.centerBottomFloats,
    List.length_append, List.length_cons, List.length_nil]
  omega

/-- Number of vertices in the cylinder vertex vector. -/
theorem cylinder_vertexCount_vertices {α : Type} [Field α] (ops : FloatOps α)
    (segments : Nat) (radius height : α) :
    vertexCount (UCreateCylinder.vertices ops segments radius height) =
      2 * (segments + 1) + 2 := by
  unfold vertexCount
  rw [cylinder_length_vertices]
  exact Nat.mul_div_cancel_left _ (by decide)

/-- The index vector is the side-wall chunks followed by the cap chunks. -/
theorem cylinder_indices_eq (segments : Nat) :
    UCreateCylinder.indices segments =
      ((List.range segments).map UCreateCylinder.sideIndices).flatten ++
        ((List.range segments).map (UCreateCylinder.capIndices segments)).flatten := by
  simp only [UCreateCylinder.indices, UCreateCylinder.sideLoop, foldl_append_chunks,
    List.nil_append]

/-- Membership in the cylinder index vector. -/
theorem cylinder_mem_indices (segments idx : Nat) :
    idx ∈ UCreateCylinder.indices segments ↔
      (∃ i, i < segments ∧ idx ∈ UCreateCylinder.sideIndices i) ∨
      (∃ i, i < segments ∧ idx ∈ UCreateCylinder.capIndices segments i) := by
  rw [cylinder_indices_eq, List.mem_append, mem_range_chunks, mem_range_chunks]

/-- Every cylinder index is at most `centerBottomIndex`. -/
theorem cylinder_le_centerBottomIndex (segments idx : Nat)
    (hidx : idx ∈ UCreateCylinder.indices segments) :
    idx ≤ UCreateCylinder.centerBottomIndex segments := by
  rw [cylinder_mem_indices] at hidx
  rcases hidx with ⟨i, hi, hmem⟩ | ⟨i, hi, hmem⟩
  · simp only [UCreateCylinder.sideIndices, List.mem_cons, List.mem_singleton,
      List.not_mem_nil, or_false] at hmem
    simp only [UCreateCylinder.centerBottomIndex, UCreateCylinder.centerTopIndex]
    omega
  · simp only [UCreateCylinder.capIndices, UCreateCylinder.centerBottomIndex,
      UCreateCylinder.centerTopIndex, List.mem_cons, List.mem_singleton,
      List.not_mem_nil, or_false] at hmem
    simp only [UCreateCylinder.centerBottomIndex, UCreateCylinder.centerTopIndex]
    omega

/-- A vertex is determined by the eight floats at `8k .. 8k+7`. -/
theorem vertexAt_of_floats {α : Type} (buf : List α) (k : Nat) (fs : List α)
    (hfs : ∀ r, r < 8 → buf[8 * k + r]? = fs[r]?)
    (px py pz nx ny nz u v : α) (hlist : fs = [px, py, pz, nx, ny, nz, u, v]) :
    vertexAt buf k = some ⟨(px, py, pz), (nx, ny, nz), (u, v)⟩ := by
  subst hlist
  have h0 := hfs 0 (by decide)
  have h1 := hfs 1 (by decide)
  have h2 := hfs 2 (by decide)
  have h3 := hfs 3 (by decide)
  have h4 := hfs 4 (by decide)
  have h5 := hfs 5 (by decide)
  have h6 := hfs 6 (by decide)
  have h7 := hfs 7 (by decide)
  simp only [List.getElem?_cons_zero, List.getElem?_cons_succ] at h0 h1 h2 h3 h4 h5 h6 h7
  simp only [vertexAt, strideFloats, floatsPerVertex, floatsPerNormal, floatsPerUV,
    Nat.reduceAdd, Nat.add_assoc, h0, h1, h2, h3, h4, h5, h6, h7, Option.bind_eq_bind,
    Option.some_bind, Option.pure_def]

/-- Float `16 * i + r` of the cylinder vertex vector is float `r` of rim
iteration `i`. -/
theorem cylinder_getElem?_rim {α : Type} [Field α] (ops : FloatOps α)
    (segments : Nat) (radius height : α) (i r : Nat) (hi : i ≤ segments) (hr : r < 16) :
    (UCreateCylinder.vertices ops segments radius height)[16 * i + r]? =
      (UCreateCylinder.rimFloats ops segments radius height i)[r]? := by
  have hlen : 16 * i + r <
      (((List.range (segments + 1)).map
        (UCreateCylinder.rimFloats ops segments radius height)).flatten).length := by
    rw [cylinder_length_rim]
    omega
  rw [cylinder_vertices_eq, List.getElem?_append_left hlen]
  exact getElem?_range_chunks _ 16 (cylinder_length_rimFloats ops segments radius height)
    (segments + 1) i r (by omega) hr

/-- Float `16 * (segments + 1) + r` of the cylinder vertex vector is float `r`
of the two appended cap-centre vertices. -/
theorem cylinder_getElem?_caps {α : Type} [Field α] (ops : FloatOps α)
    (segments : Nat) (radius height : α) (r : Nat) :
    (UCreateCylinder.vertices ops segments radius height)[16 * (segments + 1) + r]? =
      (UCreateCylinder.centerTopFloats height ++
        UCreateCylinder.centerBottomFloats height)[r]? := by
  rw [cylinder_vertices_eq, List.getElem?_append_right (by rw [cylinder_length_rim]; omega),
    cylinder_length_rim]
  congr 1
  omega

/-- The top-rim vertex of rim iteration `i`. -/
theorem cylinder_vertexAt_top {α : Type} [Field α] (ops : FloatOps α)
    (segments : Nat) (radius height : α) (i : Nat) (hi : i ≤ segments) :
    vertexAt (UCreateCylinder.vertices ops segments radius height) (2 * i) =
      some ⟨(radius * ops.cos ((i : α) * (2 * ops.pi / (segments : α))), height / 2,
              radius * ops.sin ((i : α) * (2 * ops.pi / (segments : α)))),
            (radius * ops.cos ((i : α) * (2 * ops.pi / (segments : α))), 0,
              radius * ops.sin ((i : α) * (2 * ops.pi / (segments : α)))),
            ((i : α) / (segments : α), 1)⟩ := by
  apply vertexAt_of_floats _ _
    ((UCreateCylinder.rimFloats ops segments radius height i).take 8)
  · intro r hr
    rw [show 8 * (2 * i) + r = 16 * i + r by omega,
      cylinder_getElem?_rim ops segments radius height i r hi (by omega),
      List.getElem?_take_of_lt hr]
  · rfl

/-- The bottom-rim vertex of rim iteration `i`. -/
theorem cylinder_vertexAt_bottom {α : Type} [Field α] (ops : FloatOps α)
    (segments : Nat) (radius height : α) (i : Nat) (hi : i ≤ segments) :
    vertexAt (UCreateCylinder.vertices ops segments radius height) (2 * i + 1) =
      some ⟨(radius * ops.cos ((i : α) * (2 * ops.pi / (segments : α))), -height / 2,
              radius * ops.sin ((i : α) * (2 * ops.pi / (segments : α)))),
            (radius * ops.cos ((i : α) * (2 * ops.pi / (segments : α))), 0,
              radius * ops.sin ((i : α) * (2 * ops.pi / (segments : α)))),
            ((i : α) / (segments : α), 0)⟩ := by
  apply vertexAt_of_floats _ _
    ((UCreateCylinder.rimFloats ops segments radius height i).drop 8)
  · intro r hr
    rw [show 8 * (2 * i + 1) + r = 16 * i + (8 + r) by omega,
      cylinder_getElem?_rim ops segments radius height i (8 + r) hi (by omega),
      List.getElem?_drop]
  · rfl

/-- The vertex at `centerTopIndex` is the top cap centre. -/
theorem cylinder_vertexAt_centerTop {α : Type} [Field α] (ops : FloatOps α)
    (segments : Nat) (radius height : α) :
    vertexAt (UCreateCylinder.vertices ops segments radius height)
        (UCreateCylinder.centerTopIndex segments) =
      some ⟨(0, height / 2, 0), (0, 1, 0), (1 / 2, 1 / 2)⟩ := by
  apply vertexAt_of_floats _ _ (UCreateCylinder.centerTopFloats height)
  · intro r hr
    rw [show 8 * UCreateCylinder.centerTopIndex segments + r = 16 * (segments + 1) + r by
        simp only [UCreateCylinder.centerTopIndex]; omega,
      cylinder_getElem?_caps]
    exact List.getElem?_append_left (by simpa [UCreateCylinder.centerTopFloats] using hr)
  · rfl

/-- The vertex at `centerBottomIndex` is the bottom cap centre. -/
theorem cylinder_vertexAt_centerBottom {α : Type} [Field α] (ops : FloatOps α)
    (segments : Nat) (radius height : α) :
    vertexAt (UCreateCylinder.vertices ops segments radius height)
        (UCreateCylinder.centerBottomIndex segments) =
      some ⟨(0, -height / 2, 0), (0, -1, 0), (1 / 2, 1 / 2)⟩ := by
  apply vertexAt_of_floats _ _ (UCreateCylinder.centerBottomFloats height)
  · intro r hr
    rw [show 8 * UCreateCylinder.centerBottomIndex segments + r =
          16 * (segments + 1) + (8 + r) by
        simp only [UCreateCylinder.centerBottomIndex, UCreateCylinder.centerTopIndex]; omega,
      cylinder_getElem?_caps,
      List.getElem?_append_right (by simp [UCreateCylinder.centerTopFloats])]
    congr 1
    simp [UCreateCylinder.centerTopFloats]
  · rfl

/-! ## Cylinder: index bounds, counts and topology -/

/-- C1: for every `segments >= 3`, every index emitted by the cylinder
generator (side-wall loop, then cap loop) is strictly less than the number of
vertices emitted, `2*(segments+1)+2`; the largest index emitted is exactly
`centerBottomIndex = 2*(segments+1)+1`, the index of the last vertex. -/
theorem C1_cylinder_indices_in_bounds {α : Type} [Field α] (ops : FloatOps α)
    (radius height : α) (segments : Nat) (h : 3 ≤ segments) :
    vertexCount (UCreateCylinder.vertices ops segments radius height) =
        2 * (segments + 1) + 2 ∧
      (∀ idx ∈ UCreateCylinder.indices segments,
        idx < vertexCount (UCreateCylinder.vertices ops segments radius height)) ∧
      UCreateCylinder.centerBottomIndex segments ∈ UCreateCylinder.indices segments ∧
      (∀ idx ∈ UCreateCylinder.indices segments,
        idx ≤ UCreateCylinder.centerBottomIndex segments) ∧
      UCreateCylinder.centerBottomIndex segments = 2 * (segments + 1) + 1 ∧
      UCreateCylinder.centerBottomIndex segments + 1 =
        vertexCount (UCreateCylinder.vertices ops segments radius height) := by
  have hcb : UCreateCylinder.centerBottomIndex segments = 2 * (segments + 1) + 1 := by
    simp only [UCreateCylinder.centerBottomIndex, UCreateCylinder.centerTopIndex]
    omega
  rw [cylinder_vertexCount_vertices]
  refine ⟨rfl, ?_, ?_, cylinder_le_centerBottomIndex segments, hcb, by omega⟩
  · intro idx hidx
    have hle := cylinder_le_centerBottomIndex segments idx hidx
    omega
  · rw [cylinder_mem_indices]
    refine Or.inr ⟨0, by omega, ?_⟩
    simp [UCreateCylinder.capIndices]

/-- Witness of C1 at the shipped tessellation, over the reals. -/
theorem C1_cylinder_indices_in_bounds_witness :
    3 ≤ 36 ∧
      vertexCount (UCreateCylinder.vertices
        (FloatOps.mk Real.pi Real.cos Real.sin Real.sqrt) 36 (1 : ℝ) 2) = 2 * (36 + 1) + 2 ∧
      (∀ idx ∈ UCreateCylinder.indices 36,
        idx < vertexCount (UCreateCylinder.vertices
          (FloatOps.mk Real.pi Real.cos Real.sin Real.sqrt) 36 (1 : ℝ) 2)) ∧
      UCreateCylinder.centerBottomIndex 36 ∈ UCreateCylinder.indices 36 ∧
      (∀ idx ∈ UCreateCylinder.indices 36, idx ≤ UCreateCylinder.centerBottomIndex 36) ∧
      UCreateCylinder.centerBottomIndex 36 = 2 * (36 + 1) + 1 ∧
      UCreateCylinder.centerBottomIndex 36 + 1 =
        vertexCount (UCreateCylinder.vertices
          (FloatOps.mk Real.pi Real.cos Real.sin Real.sqrt) 36 (1 : ℝ) 2) :=
  ⟨by decide, C1_cylinder_indices_in_bounds _ 1 2 36 (by decide)⟩

/-- C3: for every `segments >= 3` the cylinder generator emits exactly
`2*(segments+1)+2` vertices of 8 floats each and exactly `12*segments` indices;
for the shipped `segments = 36` the index count is the `12 * 36` passed to the
cylinder draw calls. -/
theorem C3_cylinder_counts {α : Type} [Field α] (ops : FloatOps α)
    (radius height : α) (segments : Nat) (_h : 3 ≤ segments) :
    (UCreateCylinder.vertices ops segments radius height).length =
        8 * (2 * (segments + 1) + 2) ∧
      vertexCount (UCreateCylinder.vertices ops segments radius height) =
        2 * (segments + 1) + 2 ∧
      (UCreateCylinder.indices segments).length = 12 * segments ∧
      (UCreateCylinder.indices UCreateCylinder.segments).length =
        URender.cylinderDrawCount := by
  have hlen : ∀ n, (UCreateCylinder.indices n).length = 12 * n := by
    intro n
    rw [cylinder_indices_eq, List.length_append,
      length_flatten_chunks UCreateCylinder.sideIndices 6 (fun _ => rfl),
      length_flatten_chunks (UCreateCylinder.capIndices n) 6 (fun _ => rfl),
      List.length_range]
    omega
  exact ⟨cylinder_length_vertices ops segments radius height,
    cylinder_vertexCount_vertices ops segments radius height, hlen segments,
    hlen UCreateCylinder.segments⟩

/-- Witness of C3 at the shipped tessellation, over the reals. -/
theorem C3_cylinder_counts_witness :
    3 ≤ 36 ∧
      (UCreateCylinder.vertices
        (FloatOps.mk Real.pi Real.cos Real.sin Real.sqrt) 36 (1 : ℝ) 2).length =
          8 * (2 * (36 + 1) + 2) ∧
      vertexCount (UCreateCylinder.vertices
        (FloatOps.mk Real.pi Real.cos Real.sin Real.sqrt) 36 (1 : ℝ) 2) = 2 * (36 + 1) + 2 ∧
      (UCreateCylinder.indices 36).length = 12 * 36 ∧
      (UCreateCylinder.indices UCreateCylinder.segments).length =
        URender.cylinderDrawCount :=
  ⟨by decide, C3_cylinder_counts _ 1 2 36 (by decide)⟩

/-- C5: for every `segments >= 3` and `0 <= i < segments`, the six side-wall
indices at index-buffer positions `6i .. 6i+5` are, in order,
`(top1, bottom1, bottom2, top1, bottom2, top2)` with `top1 = 2i`,
`bottom1 = 2i+1`, `top2 = 2(i+1)`, `bottom2 = 2(i+1)+1`. -/
theorem C5_cylinder_side_indices (segments i : Nat) (_h : 3 ≤ segments)
    (hi : i < segments) :
    ((UCreateCylinder.indices segments).drop (6 * i)).take 6 =
      [2 * i, 2 * i + 1, 2 * (i + 1) + 1, 2 * i, 2 * (i + 1) + 1, 2 * (i + 1)] := by
  rw [cylinder_indices_eq,
    slice_range_chunks UCreateCylinder.sideIndices 6 (fun _ => rfl) segments i hi]
  simp only [UCreateCylinder.sideIndices, Nat.mul_comm]

/-- Witness of C5: the second segment of the smallest admissible cylinder. -/
theorem C5_cylinder_side_indices_witness :
    3 ≤ 3 ∧ 1 < 3 ∧
      ((UCreateCylinder.indices 3).drop (6 * 1)).take 6 =
        [2 * 1, 2 * 1 + 1, 2 * (1 + 1) + 1, 2 * 1, 2 * (1 + 1) + 1, 2 * (1 + 1)] :=
  ⟨by decide, by decide, C5_cylinder_side_indices 3 1 (by decide) (by decide)⟩

/-- C6: for every `segments >= 3` and `0 <= i < segments`, the cap indices for
segment `i` are the top-cap triangle `(2i, 2(i+1), centerTopIndex)` followed by
the bottom-cap triangle `(2i+1, centerBottomIndex, 2(i+1)+1)`, where
`centerTopIndex = 2*(segments+1)` and `centerBottomIndex = 2*(segments+1)+1`
are the buffer positions of the two appended cap-centre vertices. -/
theorem C6_cylinder_cap_indices {α : Type} [Field α] (ops : FloatOps α)
    (radius height : α) (segments i : Nat) (_h : 3 ≤ segments) (hi : i < segments) :
    ((UCreateCylinder.indices segments).drop (6 * segments + 6 * i)).take 6 =
        [2 * i, 2 * (i + 1), UCreateCylinder.centerTopIndex segments,
         2 * i + 1, UCreateCylinder.centerBottomIndex segments, 2 * (i + 1) + 1] ∧
      UCreateCylinder.centerTopIndex segments = 2 * (segments + 1) ∧
      UCreateCylinder.centerBottomIndex segments = 2 * (segments + 1) + 1 ∧
      (UCreateCylinder.vertices ops segments radius height).drop
          (8 * UCreateCylinder.centerTopIndex segments) =
        UCreateCylinder.centerTopFloats height ++
          UCreateCylinder.centerBottomFloats height ∧
      vertexAt (UCreateCylinder.vertices ops segments radius height)
          (UCreateCylinder.centerTopIndex segments) =
        some ⟨(0, height / 2, 0), (0, 1, 0), (1 / 2, 1 / 2)⟩ ∧
      vertexAt (UCreateCylinder.vertices ops segments radius height)
          (UCreateCylinder.centerBottomIndex segments) =
        some ⟨(0, -height / 2, 0), (0, -1, 0), (1 / 2, 1 / 2)⟩ := by
  refine ⟨?_, ?_, ?_, ?_, cylinder_vertexAt_centerTop ops segments radius height,
    cylinder_vertexAt_centerBottom ops segments radius height⟩
  · have hside : (((List.range segments).map UCreateCylinder.sideIndices).flatten).length =
        6 * segments := by
      rw [length_flatten_chunks UCreateCylinder.sideIndices 6 (fun _ => rfl),
        List.length_range]
    have hslice := slice_range_chunks (UCreateCylinder.capIndices segments) 6
      (fun _ => rfl) segments i hi []
    rw [List.append_nil] at hslice
    rw [cylinder_indices_eq, ← hside, List.drop_append, hslice]
    simp only [UCreateCylinder.capIndices, Nat.mul_comm]
  · simp only [UCreateCylinder.centerTopIndex]
    omega
  · simp only [UCreateCylinder.centerBottomIndex, UCreateCylinder.centerTopIndex]
    omega
  · rw [cylinder_vertices_eq]
    apply List.drop_left'
    rw [cylinder_length_rim]
    simp only [UCreateCylinder.centerTopIndex]
    omega

/-- Witness of C6: the last segment of the smallest admissible cylinder. -/
theorem C6_cylinder_cap_indices_witness :
    3 ≤ 3 ∧ 2 < 3 ∧
      ((UCreateCylinder.indices 3).drop (6 * 3 + 6 * 2)).take 6 =
        [2 * 2, 2 * (2 + 1), UCreateCylinder.centerTopIndex 3,
         2 * 2 + 1, UCreateCylinder.centerBottomIndex 3, 2 * (2 + 1) + 1] ∧
      UCreateCylinder.centerTopIndex 3 = 2 * (3 + 1) ∧
      UCreateCylinder.centerBottomIndex 3 = 2 * (3 + 1) + 1 ∧
      (UCreateCylinder.vertices (FloatOps.mk Real.pi Real.cos Real.sin Real.sqrt)
          3 (1 : ℝ) 2).drop (8 * UCreateCylinder.centerTopIndex 3) =
        UCreateCylinder.centerTopFloats (2 : ℝ) ++
          UCreateCylinder.centerBottomFloats (2 : ℝ) ∧
      vertexAt (UCreateCylinder.vertices (FloatOps.mk Real.pi Real.cos Real.sin Real.sqrt)
          3 (1 : ℝ) 2) (UCreateCylinder.centerTopIndex 3) =
        some ⟨(0, (2 : ℝ) / 2, 0), (0, 1, 0), (1 / 2, 1 / 2)⟩ ∧
      vertexAt (UCreateCylinder.vertices (FloatOps.mk Real.pi Real.cos Real.sin Real.sqrt)
          3 (1 : ℝ) 2) (UCreateCylinder.centerBottomIndex 3) =
        some ⟨(0, -(2 : ℝ) / 2, 0), (0, -1, 0), (1 / 2, 1 / 2)⟩ :=
  ⟨by decide, by decide, C6_cylinder_cap_indices _ 1 2 3 2 (by decide) (by decide)⟩

/-- C8: for every `segments >= 3`, `radius > 0`, `height > 0`, over the reals:
for each `i` in `0..segments` inclusive, vertex `2i` is the top-rim vertex with
position `(radius*cos(i*2pi/segments), +height/2, radius*sin(i*2pi/segments))`
and UV `(i/segments, 1)`, and vertex `2i+1` is the bottom-rim vertex with the
same `x`, `z`, `y = -height/2` and UV `(i/segments, 0)`; they are followed by
exactly two cap-centre vertices, `(0, height/2, 0)` with normal `(0,1,0)` and
`(0, -height/2, 0)` with normal `(0,-1,0)`, both with UV `(0.5, 0.5)`. -/
theorem C8_cylinder_vertex_sequence (ops : FloatOps ℝ) (segments : Nat)
    (radius height : ℝ) (i : Nat) (_h : 3 ≤ segments) (_hr : 0 < radius)
    (_hh : 0 < height) (hi : i ≤ segments) :
    (∃ top, vertexAt (UCreateCylinder.vertices ops segments radius height) (2 * i) =
        some top ∧
      top.position =
        (radius * ops.cos ((i : ℝ) * (2 * ops.pi) / (segments : ℝ)), height / 2,
          radius * ops.sin ((i : ℝ) * (2 * ops.pi) / (segments : ℝ))) ∧
      top.uv = ((i : ℝ) / (segments : ℝ), 1)) ∧
    (∃ bottom,
      vertexAt (UCreateCylinder.vertices ops segments radius height) (2 * i + 1) =
        some bottom ∧
      bottom.position =
        (radius * ops.cos ((i : ℝ) * (2 * ops.pi) / (segments : ℝ)), -(height / 2),
          radius * ops.sin ((i : ℝ) * (2 * ops.pi) / (segments : ℝ))) ∧
      bottom.uv = ((i : ℝ) / (segments : ℝ), 0)) ∧
    vertexAt (UCreateCylinder.vertices ops segments radius height)
        (2 * (segments + 1)) =
      some ⟨(0, height / 2, 0), (0, 1, 0), (0.5, 0.5)⟩ ∧
    vertexAt (UCreateCylinder.vertices ops segments radius height)
        (2 * (segments + 1) + 1) =
      some ⟨(0, -(height / 2), 0), (0, -1, 0), (0.5, 0.5)⟩ ∧
    vertexCount (UCreateCylinder.vertices ops segments radius height) =
      2 * (segments + 1) + 2 := by
  have hhalf : (0.5 : ℝ) = 1 / 2 := by norm_num
  refine ⟨⟨_, cylinder_vertexAt_top ops segments radius height i hi, ?_, rfl⟩,
    ⟨_, cylinder_vertexAt_bottom ops segments radius height i hi, ?_, rfl⟩, ?_, ?_,
    cylinder_vertexCount_vertices ops segments radius height⟩
  · simp only [mul_div_assoc]
  · simp only [mul_div_assoc, neg_div]
  · have hct := cylinder_vertexAt_centerTop ops segments radius height
    rw [show UCreateCylinder.centerTopIndex segments = 2 * (segments + 1) by
      simp only [UCreateCylinder.centerTopIndex]; omega] at hct
    rw [hct, hhalf]
  · have hcb := cylinder_vertexAt_centerBottom ops segments radius height
    rw [show UCreateCylinder.centerBottomIndex segments = 2 * (segments + 1) + 1 by
      simp only [UCreateCylinder.centerBottomIndex, UCreateCylinder.centerTopIndex]
      omega] at hcb
    rw [hcb, hhalf, neg_div]

/-- Witness of C8: rim iteration 9 (a quarter turn) of the shipped cylinder,
with the real cosine, sine and `π`. -/
theorem C8_cylinder_vertex_sequence_witness :
    3 ≤ 36 ∧ (0 : ℝ) < 1 ∧ (0 : ℝ) < 2 ∧ 9 ≤ 36 ∧
    (∃ top, vertexAt (UCreateCylinder.vertices
          (FloatOps.mk Real.pi Real.cos Real.sin Real.sqrt) 36 1 2) (2 * 9) = some top ∧
      top.position =
        (1 * Real.cos (((9 : Nat) : ℝ) * (2 * Real.pi) / ((36 : Nat) : ℝ)), (2 : ℝ) / 2,
          1 * Real.sin (((9 : Nat) : ℝ) * (2 * Real.pi) / ((36 : Nat) : ℝ))) ∧
      top.uv = (((9 : Nat) : ℝ) / ((36 : Nat) : ℝ), 1)) ∧
    (∃ bottom, vertexAt (UCreateCylinder.vertices
          (FloatOps.mk Real.pi Real.cos Real.sin Real.sqrt) 36 1 2) (2 * 9 + 1) =
        some bottom ∧
      bottom.position =
        (1 * Real.cos (((9 : Nat) : ℝ) * (2 * Real.pi) / ((36 : Nat) : ℝ)), -((2 : ℝ) / 2),
          1 * Real.sin (((9 : Nat) : ℝ) * (2 * Real.pi) / ((36 : Nat) : ℝ))) ∧
      bottom.uv = (((9 : Nat) : ℝ) / ((36 : Nat) : ℝ), 0)) ∧
    vertexAt (UCreateCylinder.vertices
        (FloatOps.mk Real.pi Real.cos Real.sin Real.sqrt) 36 1 2) (2 * (36 + 1)) =
      some ⟨(0, (2 : ℝ) / 2, 0), (0, 1, 0), (0.5, 0.5)⟩ ∧
    vertexAt (UCreateCylinder.vertices
        (FloatOps.mk Real.pi Real.cos Real.sin Real.sqrt) 36 1 2) (2 * (36 + 1) + 1) =
      some ⟨(0, -((2 : ℝ) / 2), 0), (0, -1, 0), (0.5, 0.5)⟩ ∧
    vertexCount (UCreateCylinder.vertices
        (FloatOps.mk Real.pi Real.cos Real.sin Real.sqrt) 36 (1 : ℝ) 2) =
      2 * (36 + 1) + 2 :=
  ⟨by decide, by norm_num, by norm_num, by decide,
    C8_cylinder_vertex_sequence (FloatOps.mk Real.pi Real.cos Real.sin Real.sqrt)
      36 1 2 9 (by decide) (by norm_num) (by norm_num) (by decide)⟩

/-! ## Closed forms of the sphere buffers -/

/-- The sphere vertex vector is the row-major sequence of the per-vertex chunks. -/
theorem sphere_verts_eq {α : Type} [Field α] (ops : FloatOps α) (numSegments : Nat)
    (radius : α) :
    UCreateSphere.verts ops numSegments radius =
      ((List.range (numSegments + 1)).map (fun i =>
        ((List.range (numSegments + 1)).map
          (UCreateSphere.vertexFloats ops numSegments radius i)).flatten)).flatten :=
  foldl_nested_chunks (UCreateSphere.vertexFloats ops numSegments radius) (numSegments + 1)

/-- The sphere index vector is the row-major sequence of the per-cell chunks. -/
theorem sphere_indices_eq (numSegments : Nat) :
    UCreateSphere.indices numSegments =
      ((List.range numSegments).map (fun i =>
        ((List.range numSegments).map
          (UCreateSphere.cellIndices numSegments i)).flatten)).flatten :=
  foldl_nested_chunks (UCreateSphere.cellIndices numSegments) numSegments

/-- Number of floats in the sphere vertex vector. -/
theorem sphere_length_verts {α : Type} [Field α] (ops : FloatOps α) (numSegments : Nat)
    (radius : α) :
    (UCreateSphere.verts ops numSegments radius).length = 8 * (numSegments + 1) ^ 2 := by
  rw [sphere_verts_eq,
    length_nested_chunks (UCreateSphere.vertexFloats ops numSegments radius) 8
      (fun _ _ => rfl), Nat.pow_two]

/-- Number of vertices in the sphere vertex vector. -/
theorem sphere_vertexCount_verts {α : Type} [Field α] (ops : FloatOps α)
    (numSegments : Nat) (radius : α) :
    vertexCount (UCreateSphere.verts ops numSegments radius) = (numSegments + 1) ^ 2 := by
  unfold vertexCount
  rw [sphere_length_verts]
  exact Nat.mul_div_cancel_left _ (by decide)

/-- Number of indices in the sphere index vector. -/
theorem sphere_length_indices (numSegments : Nat) :
    (UCreateSphere.indices numSegments).length = 6 * numSegments ^ 2 := by
  rw [sphere_indices_eq,
    length_nested_chunks (UCreateSphere.cellIndices numSegments) 6 (fun _ _ => rfl),
    Nat.pow_two]

/-- The eight floats at vertex position `i * (numSegments + 1) + j` are those
pushed for latitude `i` and longitude `j`. -/
theorem sphere_slice_verts {α : Type} [Field α] (ops : FloatOps α) (numSegments : Nat)
    (radius : α) (i j : Nat) (hi : i ≤ numSegments) (hj : j ≤ numSegments) :
    ((UCreateSphere.verts ops numSegments radius).drop
        (8 * (i * (numSegments + 1) + j))).take 8 =
      UCreateSphere.vertexFloats ops numSegments radius i j := by
  rw [sphere_verts_eq]
  exact slice_nested_chunks (UCreateSphere.vertexFloats ops numSegments radius) 8
    (fun _ _ => rfl) (numSegments + 1) i j (by omega) (by omega)

/-- The vertex at position `i * (numSegments + 1) + j`. -/
theorem sphere_vertexAt {α : Type} [Field α] (ops : FloatOps α) (numSegments : Nat)
    (radius : α) (i j : Nat) (hi : i ≤ numSegments) (hj : j ≤ numSegments) :
    vertexAt (UCreateSphere.verts ops numSegments radius) (i * (numSegments + 1) + j) =
      some ⟨(radius * (ops.cos (radians ops ((j : α) * 360 / (numSegments : α)))
                * ops.sin (radians ops (180 - ((i : α) * 180 / (numSegments : α))))),
             radius * ops.cos (radians ops (180 - ((i : α) * 180 / (numSegments : α)))),
             radius * (ops.sin (radians ops ((j : α) * 360 / (numSegments : α)))
                * ops.sin (radians ops (180 - ((i : α) * 180 / (numSegments : α)))))),
            normalize ops
              (ops.cos (radians ops ((j : α) * 360 / (numSegments : α)))
                * ops.sin (radians ops (180 - ((i : α) * 180 / (numSegments : α)))),
               ops.cos (radians ops (180 - ((i : α) * 180 / (numSegments : α)))),
               ops.sin (radians ops ((j : α) * 360 / (numSegments : α)))
                * ops.sin (radians ops (180 - ((i : α) * 180 / (numSegments : α))))),
            ((j : α) / (numSegments : α), (i : α) / (numSegments : α))⟩ := by
  apply vertexAt_of_floats _ _ (UCreateSphere.vertexFloats ops numSegments radius i j)
  · intro r hr
    rw [sphere_verts_eq]
    exact getElem?_nested_chunks (UCreateSphere.vertexFloats ops numSegments radius) 8
      (fun _ _ => rfl) (numSegments + 1) i j r (by omega) (by omega) hr
  · rfl

/-- Membership in the sphere index vector. -/
theorem sphere_mem_indices (numSegments idx : Nat) :
    idx ∈ UCreateSphere.indices numSegments ↔
      ∃ i j, i < numSegments ∧ j < numSegments ∧
        idx ∈ UCreateSphere.cellIndices numSegments i j := by
  rw [sphere_indices_eq, mem_nested_chunks]

/-- Every sphere index is below `(numSegments + 1) ^ 2`. -/
theorem sphere_index_lt (numSegments idx : Nat)
    (hidx : idx ∈ UCreateSphere.indices numSegments) :
    idx < (numSegments + 1) ^ 2 := by
  obtain ⟨i, j, hi, hj, hmem⟩ := (sphere_mem_indices numSegments idx).mp hidx
  have hrow : (i + 1) * (numSegments + 1) ≤ numSegments * (numSegments + 1) :=
    Nat.mul_le_mul_right _ hi
  have hsq : (numSegments + 1) ^ 2 = numSegments * (numSegments + 1) + (numSegments + 1) := by
    ring
  rw [Nat.succ_mul] at hrow
  simp only [UCreateSphere.cellIndices, List.mem_cons, List.mem_singleton,
    List.not_mem_nil, or_false] at hmem
  rw [hsq]
  omega

/-! ## Sphere: index bounds, counts and topology -/

/-- C2: for every `segments >= 3`, every index emitted by the sphere generator
is strictly less than the number of vertices emitted, `(segments+1)^2`; the
largest index, `second + 1` at `i = j = segments-1`, equals
`(segments+1)^2 - 1`. -/
theorem C2_sphere_indices_in_bounds {α : Type} [Field α] (ops : FloatOps α)
    (radius : α) (segments : Nat) (h : 3 ≤ segments) :
    vertexCount (UCreateSphere.verts ops segments radius) = (segments + 1) ^ 2 ∧
      (∀ idx ∈ UCreateSphere.indices segments,
        idx < vertexCount (UCreateSphere.verts ops segments radius)) ∧
      (UCreateSphere.cellIndices segments (segments - 1) (segments - 1))[4]? =
        some ((segments + 1) ^ 2 - 1) ∧
      (segments + 1) ^ 2 - 1 ∈ UCreateSphere.indices segments ∧
      (∀ idx ∈ UCreateSphere.indices segments, idx ≤ (segments + 1) ^ 2 - 1) := by
  obtain ⟨m, rfl⟩ : ∃ m, segments = m + 1 := ⟨segments - 1, by omega⟩
  have hsq : (m + 1 + 1) ^ 2 = m * (m + 1 + 1) + m + (m + 1) + 1 + 1 + 1 := by ring
  have hlast : m * (m + 1 + 1) + m + (m + 1) + 1 + 1 = (m + 1 + 1) ^ 2 - 1 := by
    rw [hsq]; omega
  rw [sphere_vertexCount_verts]
  refine ⟨rfl, sphere_index_lt (m + 1), ?_, ?_, ?_⟩
  · simp only [UCreateSphere.cellIndices, Nat.add_sub_cancel, List.getElem?_cons_succ,
      List.getElem?_cons_zero, hlast]
  · rw [sphere_mem_indices]
    refine ⟨m, m, by omega, by omega, ?_⟩
    rw [← hlast]
    simp only [UCreateSphere.cellIndices, List.mem_cons, List.mem_singleton, true_or,
      or_true]
  · intro idx hidx
    exact Nat.le_sub_one_of_lt (sphere_index_lt (m + 1) idx hidx)

/-- Witness of C2 at the shipped tessellation, over the reals. -/
theorem C2_sphere_indices_in_bounds_witness :
    3 ≤ 16 ∧
      vertexCount (UCreateSphere.verts
        (FloatOps.mk Real.pi Real.cos Real.sin Real.sqrt) 16 (0.5 : ℝ)) = (16 + 1) ^ 2 ∧
      (∀ idx ∈ UCreateSphere.indices 16,
        idx < vertexCount (UCreateSphere.verts
          (FloatOps.mk Real.pi Real.cos Real.sin Real.sqrt) 16 (0.5 : ℝ))) ∧
      (UCreateSphere.cellIndices 16 (16 - 1) (16 - 1))[4]? = some ((16 + 1) ^ 2 - 1) ∧
      (16 + 1) ^ 2 - 1 ∈ UCreateSphere.indices 16 ∧
      (∀ idx ∈ UCreateSphere.indices 16, idx ≤ (16 + 1) ^ 2 - 1) :=
  ⟨by decide, C2_sphere_indices_in_bounds _ 0.5 16 (by decide)⟩

/-- C4: for every `segments >= 3` the sphere generator emits exactly
`(segments+1)^2` vertices of 8 floats each and exactly `6*segments^2` indices;
for the shipped `segments = 16` the index count is the `6 * 16 * 16` passed to
the sphere draw call. -/
theorem C4_sphere_counts {α : Type} [Field α] (ops : FloatOps α)
    (radius : α) (segments : Nat) (_h : 3 ≤ segments) :
    (UCreateSphere.verts ops segments radius).length = 8 * (segments + 1) ^ 2 ∧
      vertexCount (UCreateSphere.verts ops segments radius) = (segments + 1) ^ 2 ∧
      (UCreateSphere.indices segments).length = 6 * segments ^ 2 ∧
      (UCreateSphere.indices UCreateSphere.numSegments).length =
        URender.sphereDrawCount := by
  refine ⟨sphere_length_verts ops segments radius,
    sphere_vertexCount_verts ops segments radius, sphere_length_indices segments, ?_⟩
  rw [sphere_length_indices]
  rfl

/-- Witness of C4 at the shipped tessellation, over the reals. -/
theorem C4_sphere_counts_witness :
    3 ≤ 16 ∧
      (UCreateSphere.verts
        (FloatOps.mk Real.pi Real.cos Real.sin Real.sqrt) 16 (0.5 : ℝ)).length =
          8 * (16 + 1) ^ 2 ∧
      vertexCount (UCreateSphere.verts
        (FloatOps.mk Real.pi Real.cos Real.sin Real.sqrt) 16 (0.5 : ℝ)) = (16 + 1) ^ 2 ∧
      (UCreateSphere.indices 16).length = 6 * 16 ^ 2 ∧
      (UCreateSphere.indices UCreateSphere.numSegments).length =
        URender.sphereDrawCount :=
  ⟨by decide, C4_sphere_counts _ 0.5 16 (by decide)⟩

/-- C7: for every `segments >= 3` and `0 <= i, j < segments`, the six indices
at index-buffer positions `6*(i*segments+j) .. +5` are, in order,
`(first, second, first+1, second, second+1, first+1)` with
`first = i*(segments+1)+j` and `second = first+segments+1`; the vertices at
`first`, `first+1` are those generated in row `i` and the vertices at `second`,
`second+1` those generated in row `i+1`, at longitude columns `j` and `j+1`. -/
theorem C7_sphere_cell_indices {α : Type} [Field α] (ops : FloatOps α)
    (radius : α) (segments i j : Nat) (_h : 3 ≤ segments) (hi : i < segments)
    (hj : j < segments) :
    ((UCreateSphere.indices segments).drop (6 * (i * segments + j))).take 6 =
        [i * (segments + 1) + j, i * (segments + 1) + j + segments + 1,
         i * (segments + 1) + j + 1, i * (segments + 1) + j + segments + 1,
         i * (segments + 1) + j + segments + 1 + 1, i * (segments + 1) + j + 1] ∧
      ((UCreateSphere.verts ops segments radius).drop
          (8 * (i * (segments + 1) + j))).take 8 =
        UCreateSphere.vertexFloats ops segments radius i j ∧
      ((UCreateSphere.verts ops segments radius).drop
          (8 * (i * (segments + 1) + j + 1))).take 8 =
        UCreateSphere.vertexFloats ops segments radius i (j + 1) ∧
      ((UCreateSphere.verts ops segments radius).drop
          (8 * (i * (segments + 1) + j + segments + 1))).take 8 =
        UCreateSphere.vertexFloats ops segments radius (i + 1) j ∧
      ((UCreateSphere.verts ops segments radius).drop
          (8 * (i * (segments + 1) + j + segments + 1 + 1))).take 8 =
        UCreateSphere.vertexFloats ops segments radius (i + 1) (j + 1) := by
  have hrow : i * (segments + 1) + j + segments + 1 = (i + 1) * (segments + 1) + j := by
    ring
  refine ⟨?_, sphere_slice_verts ops segments radius i j (by omega) (by omega), ?_, ?_, ?_⟩
  · rw [sphere_indices_eq]
    exact slice_nested_chunks (UCreateSphere.cellIndices segments) 6 (fun _ _ => rfl)
      segments i j hi hj
  · exact sphere_slice_verts ops segments radius i (j + 1) (by omega) (by omega)
  · rw [hrow]
    exact sphere_slice_verts ops segments radius (i + 1) j (by omega) (by omega)
  · rw [hrow]
    exact sphere_slice_verts ops segments radius (i + 1) (j + 1) (by omega) (by omega)

/-- Witness of C7: cell `(1, 2)` of the smallest admissible sphere. -/
theorem C7_sphere_cell_indices_witness :
    3 ≤ 3 ∧ 1 < 3 ∧ 2 < 3 ∧
      ((UCreateSphere.indices 3).drop (6 * (1 * 3 + 2))).take 6 =
        [1 * (3 + 1) + 2, 1 * (3 + 1) + 2 + 3 + 1, 1 * (3 + 1) + 2 + 1,
         1 * (3 + 1) + 2 + 3 + 1, 1 * (3 + 1) + 2 + 3 + 1 + 1, 1 * (3 + 1) + 2 + 1] ∧
      ((UCreateSphere.verts (FloatOps.mk Real.pi Real.cos Real.sin Real.sqrt) 3
          (0.5 : ℝ)).drop (8 * (1 * (3 + 1) + 2))).take 8 =
        UCreateSphere.vertexFloats (FloatOps.mk Real.pi Real.cos Real.sin Real.sqrt)
          3 (0.5 : ℝ) 1 2 ∧
      ((UCreateSphere.verts (FloatOps.mk Real.pi Real.cos Real.sin Real.sqrt) 3
          (0.5 : ℝ)).drop (8 * (1 * (3 + 1) + 2 + 1))).take 8 =
        UCreateSphere.vertexFloats (FloatOps.mk Real.pi Real.cos Real.sin Real.sqrt)
          3 (0.5 : ℝ) 1 (2 + 1) ∧
      ((UCreateSphere.verts (FloatOps.mk Real.pi Real.cos Real.sin Real.sqrt) 3
          (0.5 : ℝ)).drop (8 * (1 * (3 + 1) + 2 + 3 + 1))).take 8 =
        UCreateSphere.vertexFloats (FloatOps.mk Real.pi Real.cos Real.sin Real.sqrt)
          3 (0.5 : ℝ) (1 + 1) 2 ∧
      ((UCreateSphere.verts (FloatOps.mk Real.pi Real.cos Real.sin Real.sqrt) 3
          (0.5 : ℝ)).drop (8 * (1 * (3 + 1) + 2 + 3 + 1 + 1))).take 8 =
        UCreateSphere.vertexFloats (FloatOps.mk Real.pi Real.cos Real.sin Real.sqrt)
          3 (0.5 : ℝ) (1 + 1) (2 + 1) :=
  ⟨by decide, by decide, by decide,
    C7_sphere_cell_indices _ 0.5 3 1 2 (by decide) (by decide) (by decide)⟩

/-! ## Sphere: vertex positions -/

/-- C9: for every `segments >= 3` and `radius > 0`, over the reals, the sphere
vertex at buffer position `i*(segments+1)+j`, `0 <= i, j <= segments`, has
position `radius*(x, y, z)` with `phi = 180deg - i*180deg/segments`,
`theta = j*360deg/segments`, `y = cos(phi)`, `x = cos(theta)*sin(phi)`,
`z = sin(theta)*sin(phi)`, and UV `(j/segments, i/segments)`. -/
theorem C9_sphere_vertex (ops : FloatOps ℝ) (segments : Nat) (radius : ℝ) (i j : Nat)
    (_h : 3 ≤ segments) (_hr : 0 < radius) (hi : i ≤ segments) (hj : j ≤ segments) :
    ∃ v, vertexAt (UCreateSphere.verts ops segments radius) (i * (segments + 1) + j) =
        some v ∧
      v.position =
        (radius * (ops.cos (radians ops ((j : ℝ) * 360 / (segments : ℝ)))
            * ops.sin (radians ops (180 - (i : ℝ) * 180 / (segments : ℝ)))),
          radius * ops.cos (radians ops (180 - (i : ℝ) * 180 / (segments : ℝ))),
          radius * (ops.sin (radians ops ((j : ℝ) * 360 / (segments : ℝ)))
            * ops.sin (radians ops (180 - (i : ℝ) * 180 / (segments : ℝ))))) ∧
      v.uv = ((j : ℝ) / (segments : ℝ), (i : ℝ) / (segments : ℝ)) :=
  ⟨_, sphere_vertexAt ops segments radius i j hi hj, rfl, rfl⟩

/-- Witness of C9: latitude 8 (the equator), longitude 4 of the shipped
sphere, with the real cosine, sine and `π`. -/
theorem C9_sphere_vertex_witness :
    3 ≤ 16 ∧ (0 : ℝ) < 0.5 ∧ 8 ≤ 16 ∧ 4 ≤ 16 ∧
    ∃ v, vertexAt (UCreateSphere.verts
          (FloatOps.mk Real.pi Real.cos Real.sin Real.sqrt) 16 0.5) (8 * (16 + 1) + 4) =
        some v ∧
      v.position =
        (0.5 * (Real.cos (radians (FloatOps.mk Real.pi Real.cos Real.sin Real.sqrt)
              (((4 : Nat) : ℝ) * 360 / ((16 : Nat) : ℝ)))
            * Real.sin (radians (FloatOps.mk Real.pi Real.cos Real.sin Real.sqrt)
              (180 - ((8 : Nat) : ℝ) * 180 / ((16 : Nat) : ℝ)))),
          0.5 * Real.cos (radians (FloatOps.mk Real.pi Real.cos Real.sin Real.sqrt)
              (180 - ((8 : Nat) : ℝ) * 180 / ((16 : Nat) : ℝ))),
          0.5 * (Real.sin (radians (FloatOps.mk Real.pi Real.cos Real.sin Real.sqrt)
              (((4 : Nat) : ℝ) * 360 / ((16 : Nat) : ℝ)))
            * Real.sin (radians (FloatOps.mk Real.pi Real.cos Real.sin Real.sqrt)
              (180 - ((8 : Nat) : ℝ) * 180 / ((16 : Nat) : ℝ))))) ∧
      v.uv = (((4 : Nat) : ℝ) / ((16 : Nat) : ℝ), ((8 : Nat) : ℝ) / ((16 : Nat) : ℝ)) :=
  ⟨by decide, by norm_num, by decide, by decide,
    C9_sphere_vertex (FloatOps.mk Real.pi Real.cos Real.sin Real.sqrt) 16 0.5 8 4
      (by decide) (by norm_num) (by decide) (by decide)⟩

/-- Latitude index `0` of the shipped sphere has polar angle `180°`, that is `π`. -/
theorem sphere_phi_first_row :
    radians (FloatOps.mk Real.pi Real.cos Real.sin Real.sqrt)
      (180 - ((0 : Nat) : ℝ) * 180 / ((16 : Nat) : ℝ)) = Real.pi := by
  simp only [radians, Nat.cast_zero, zero_mul, zero_div, sub_zero]
  ring

/-- Latitude index `16` of the shipped sphere has polar angle `0`. -/
theorem sphere_phi_last_row :
    radians (FloatOps.mk Real.pi Real.cos Real.sin Real.sqrt)
      (180 - ((16 : Nat) : ℝ) * 180 / ((16 : Nat) : ℝ)) = 0 := by
  simp only [radians, Nat.cast_ofNat]
  norm_num

/-- C10, as stated, fails: for `radius = 0.5`, `segments = 16` the vertex
generated at `i = 0`, `j = 0` has position `(0, -0.5, 0)`, not `(0, 0.5, 0)`. -/
theorem C10_sphere_first_row_counterexample :
    ∃ v, vertexAt (UCreateSphere.verts
          (FloatOps.mk Real.pi Real.cos Real.sin Real.sqrt) 16 0.5) (0 * (16 + 1) + 0) =
        some v ∧
      v.position = (0, -0.5, 0) ∧ v.position ≠ (0, 0.5, 0) := by
  refine ⟨_, sphere_vertexAt (FloatOps.mk Real.pi Real.cos Real.sin Real.sqrt) 16 0.5 0 0
    (by decide) (by decide), ?_, ?_⟩
  · simp only [sphere_phi_first_row, Real.cos_pi, Real.sin_pi, mul_zero, mul_neg, mul_one]
  · simp only [sphere_phi_first_row, Real.cos_pi, Real.sin_pi, mul_zero, mul_neg, mul_one,
      ne_eq, Prod.mk.injEq, true_and, and_true]
    norm_num

/-- C10, amended: for `radius = 0.5`, `segments = 16` and every longitude index
`j` in `0..16`, the vertex generated at latitude index `i = 0` has position
`(0, -0.5, 0)`, the south pole at `y = -radius`, and the vertex generated at
`i = 16` has position `(0, 0.5, 0)`, the north pole at `y = +radius`. -/
theorem C10_sphere_pole_rows (j : Nat) (hj : j ≤ 16) :
    (∃ v, vertexAt (UCreateSphere.verts
          (FloatOps.mk Real.pi Real.cos Real.sin Real.sqrt) 16 0.5) (0 * (16 + 1) + j) =
        some v ∧
      v.position = (0, -0.5, 0)) ∧
    (∃ v, vertexAt (UCreateSphere.verts
          (FloatOps.mk Real.pi Real.cos Real.sin Real.sqrt) 16 0.5) (16 * (16 + 1) + j) =
        some v ∧
      v.position = (0, 0.5, 0)) := by
  refine ⟨⟨_, sphere_vertexAt (FloatOps.mk Real.pi Real.cos Real.sin Real.sqrt) 16 0.5 0 j
      (by decide) hj, ?_⟩,
    ⟨_, sphere_vertexAt (FloatOps.mk Real.pi Real.cos Real.sin Real.sqrt) 16 0.5 16 j
      (by decide) hj, ?_⟩⟩
  · simp only [sphere_phi_first_row, Real.cos_pi, Real.sin_pi, mul_zero, mul_neg, mul_one]
  · simp only [sphere_phi_last_row, Real.cos_zero, Real.sin_zero, mul_zero, mul_one]

/-- Witness of the amended C10 at longitude index 5. -/
theorem C10_sphere_pole_rows_witness :
    5 ≤ 16 ∧
    (∃ v, vertexAt (UCreateSphere.verts
          (FloatOps.mk Real.pi Real.cos Real.sin Real.sqrt) 16 0.5) (0 * (16 + 1) + 5) =
        some v ∧
      v.position = (0, -0.5, 0)) ∧
    (∃ v, vertexAt (UCreateSphere.verts
          (FloatOps.mk Real.pi Real.cos Real.sin Real.sqrt) 16 0.5) (16 * (16 + 1) + 5) =
        some v ∧
      v.position = (0, 0.5, 0)) :=
  ⟨by decide, C10_sphere_pole_rows 5 (by decide)⟩

/-! ## Cylinder: shipped first vertex -/

/-- C11: for `radius = 1`, `height = 2`, `segments = 36` (the shipped
constants) the first vertex of the cylinder buffer (top rim, `i = 0`) has
position `(1, 1, 0)` and UV `(0, 1)`. -/
theorem C11_cylinder_first_vertex :
    ∃ v, vertexAt (UCreateCylinder.vertices
          (FloatOps.mk Real.pi Real.cos Real.sin Real.sqrt) UCreateCylinder.segments
          (UCreateCylinder.radius : ℝ) UCreateCylinder.height) 0 = some v ∧
      v.position = (1, 1, 0) ∧ v.uv = (0, 1) := by
  refine ⟨_, cylinder_vertexAt_top (FloatOps.mk Real.pi Real.cos Real.sin Real.sqrt)
    UCreateCylinder.segments (UCreateCylinder.radius : ℝ) UCreateCylinder.height 0
    (Nat.zero_le _), ?_, ?_⟩
  · simp only [UCreateCylinder.radius, UCreateCylinder.height, Nat.cast_zero, zero_mul,
      Real.cos_zero, Real.sin_zero, mul_one, mul_zero]
    norm_num
  · simp only [Nat.cast_zero, zero_div]

/-! ## Cylinder: triangles of the side wall -/

/-- Entry `6 * i + r` of the cylinder index vector lies in the side-wall part. -/
theorem cylinder_getElem?_side (segments i r : Nat) (hi : i < segments) (hr : r < 6) :
    (UCreateCylinder.indices segments)[6 * i + r]? =
      (UCreateCylinder.sideIndices i)[r]? := by
  have hlen : 6 * i + r <
      (((List.range segments).map UCreateCylinder.sideIndices).flatten).length := by
    rw [length_flatten_chunks UCreateCylinder.sideIndices 6 (fun _ => rfl),
      List.length_range]
    omega
  rw [cylinder_indices_eq, List.getElem?_append_left hlen]
  exact getElem?_range_chunks UCreateCylinder.sideIndices 6 (fun _ => rfl) segments i r hi hr

/-- A triangle is determined by its three index entries and their vertices. -/
theorem triangleAt_of_vertices {α : Type} (verts : List α) (indices : List Nat)
    (t i0 i1 i2 : Nat) (v0 v1 v2 : Vertex α)
    (h0 : indices[3 * t + 0]? = some i0) (h1 : indices[3 * t + 1]? = some i1)
    (h2 : indices[3 * t + 2]? = some i2) (hv0 : vertexAt verts i0 = some v0)
    (hv1 : vertexAt verts i1 = some v1) (hv2 : vertexAt verts i2 = some v2) :
    triangleAt verts indices t = some (v0, v1, v2) := by
  simp only [triangleAt, h0, h1, h2, hv0, hv1, hv2, Option.bind_eq_bind,
    Option.some_bind, Option.pure_def]

/-- The two side-wall triangles of segment `i` are `(top i, bottom i,
bottom (i+1))` and `(top i, bottom (i+1), top (i+1))`, with the rim positions
of iterations `i` and `i + 1`. -/
theorem cylinder_side_triangles {α : Type} [Field α] (ops : FloatOps α)
    (segments : Nat) (radius height : α) (i : Nat) (hi : i < segments) :
    ∃ t0 b0 b1 t1 : Vertex α,
      triangleAt (UCreateCylinder.vertices ops segments radius height)
          (UCreateCylinder.indices segments) (2 * i) = some (t0, b0, b1) ∧
      triangleAt (UCreateCylinder.vertices ops segments radius height)
          (UCreateCylinder.indices segments) (2 * i + 1) = some (t0, b1, t1) ∧
      t0.position =
        (radius * ops.cos ((i : α) * (2 * ops.pi / (segments : α))), height / 2,
          radius * ops.sin ((i : α) * (2 * ops.pi / (segments : α)))) ∧
      b0.position =
        (radius * ops.cos ((i : α) * (2 * ops.pi / (segments : α))), -height / 2,
          radius * ops.sin ((i : α) * (2 * ops.pi / (segments : α)))) ∧
      b1.position =
        (radius * ops.cos (((i + 1 : Nat) : α) * (2 * ops.pi / (segments : α))),
          -height / 2,
          radius * ops.sin (((i + 1 : Nat) : α) * (2 * ops.pi / (segments : α)))) ∧
      t1.position =
        (radius * ops.cos (((i + 1 : Nat) : α) * (2 * ops.pi / (segments : α))),
          height / 2,
          radius * ops.sin (((i + 1 : Nat) : α) * (2 * ops.pi / (segments : α)))) := by
  have ht0 := cylinder_vertexAt_top ops segments radius height i (by omega)
  have hb0 := cylinder_vertexAt_bottom ops segments radius height i (by omega)
  have hb1 := cylinder_vertexAt_bottom ops segments radius height (i + 1) (by omega)
  have ht1 := cylinder_vertexAt_top ops segments radius height (i + 1) (by omega)
  rw [Nat.mul_comm 2 i] at ht0 hb0
  rw [Nat.mul_comm 2 (i + 1)] at ht1 hb1
  have hidx : ∀ r, r < 6 → ∀ k, UCreateCylinder.sideIndices i = k →
      (UCreateCylinder.indices segments)[6 * i + r]? = k[r]? := fun r hr k hk =>
    hk ▸ cylinder_getElem?_side segments i r hi hr
  have tri1 := triangleAt_of_vertices (UCreateCylinder.vertices ops segments radius height)
    (UCreateCylinder.indices segments) (2 * i) (i * 2) (i * 2 + 1) ((i + 1) * 2 + 1) _ _ _
    (by rw [show 3 * (2 * i) + 0 = 6 * i + 0 by omega, hidx 0 (by decide) _ rfl]; rfl)
    (by rw [show 3 * (2 * i) + 1 = 6 * i + 1 by omega, hidx 1 (by decide) _ rfl]; rfl)
    (by rw [show 3 * (2 * i) + 2 = 6 * i + 2 by omega, hidx 2 (by decide) _ rfl]; rfl)
    ht0 hb0 hb1
  have tri2 := triangleAt_of_vertices (UCreateCylinder.vertices ops segments radius height)
    (UCreateCylinder.indices segments) (2 * i + 1) (i * 2) ((i + 1) * 2 + 1) ((i + 1) * 2)
    _ _ _
    (by rw [show 3 * (2 * i + 1) + 0 = 6 * i + 3 by omega, hidx 3 (by decide) _ rfl]; rfl)
    (by rw [show 3 * (2 * i + 1) + 1 = 6 * i + 4 by omega, hidx 4 (by decide) _ rfl]; rfl)
    (by rw [show 3 * (2 * i + 1) + 2 = 6 * i + 5 by omega, hidx 5 (by decide) _ rfl]; rfl)
    ht0 hb1 ht1
  exact ⟨_, _, _, _, tri1, tri2, rfl, rfl, rfl, rfl⟩

/-- The chord from angle `a` to angle `b`, turned a quarter, against the radial
direction at the mid-angle. -/
theorem chord_against_radial (a b : ℝ) :
    (Real.cos b - Real.cos a) * Real.sin ((a + b) / 2) -
        (Real.sin b - Real.sin a) * Real.cos ((a + b) / 2) =
      -2 * Real.sin ((b - a) / 2) := by
  rw [Real.cos_sub_cos, Real.sin_sub_sin, add_comm b a]
  linear_combination (-2 * Real.sin ((b - a) / 2)) * Real.sin_sq_add_cos_sq ((a + b) / 2)

/-- Face normal of the side triangle `(top a, bottom a, bottom b)` against the
radial direction at the mid-angle. -/
theorem side_first_faceNormal_dot (r h a b : ℝ) :
    dot (faceNormal (r * Real.cos a, h / 2, r * Real.sin a)
          (r * Real.cos a, -h / 2, r * Real.sin a)
          (r * Real.cos b, -h / 2, r * Real.sin b))
        (Real.cos ((a + b) / 2), 0, Real.sin ((a + b) / 2)) =
      -(2 * r * h * Real.sin ((b - a) / 2)) := by
  simp only [dot, faceNormal, cross, vsub]
  linear_combination (h * r) * chord_against_radial a b

/-- Face normal of the side triangle `(top a, bottom b, top b)` against the
radial direction at the mid-angle. -/
theorem side_second_faceNormal_dot (r h a b : ℝ) :
    dot (faceNormal (r * Real.cos a, h / 2, r * Real.sin a)
          (r * Real.cos b, -h / 2, r * Real.sin b)
          (r * Real.cos b, h / 2, r * Real.sin b))
        (Real.cos ((a + b) / 2), 0, Real.sin ((a + b) / 2)) =
      -(2 * r * h * Real.sin ((b - a) / 2)) := by
  simp only [dot, faceNormal, cross, vsub]
  linear_combination (h * r) * chord_against_radial a b

/-- Mid-angle and half-width of segment `i` of a circle cut into `n` parts. -/
theorem segment_mid_and_half (n i : Nat) (hn : 0 < n) (p : ℝ) :
    (((i : ℝ) * (2 * p / (n : ℝ)) + ((i + 1 : Nat) : ℝ) * (2 * p / (n : ℝ))) / 2 =
        ((i : ℝ) + 1 / 2) * (2 * p / (n : ℝ))) ∧
      ((((i + 1 : Nat) : ℝ) * (2 * p / (n : ℝ)) - (i : ℝ) * (2 * p / (n : ℝ))) / 2 =
        p / (n : ℝ)) := by
  have hn0 : (n : ℝ) ≠ 0 := Nat.cast_ne_zero.mpr (Nat.pos_iff_ne_zero.mp hn)
  constructor
  · push_cast
    ring
  · push_cast
    field_simp
    ring

/-- The sine of `π / n` is positive for `n >= 2`. -/
theorem sin_pi_div_pos (n : Nat) (hn : 2 ≤ n) : 0 < Real.sin (Real.pi / (n : ℝ)) := by
  have hn0 : (0 : ℝ) < (n : ℝ) := Nat.cast_pos.mpr (by omega)
  have hn2 : (2 : ℝ) ≤ (n : ℝ) := by exact_mod_cast hn
  apply Real.sin_pos_of_pos_of_lt_pi (div_pos Real.pi_pos hn0)
  rw [div_lt_iff₀ hn0]
  nlinarith [Real.pi_pos]

/-- Both side-wall triangles of segment `i`, over the reals: their face
normals have dot product `-(2 * radius * height * sin(π / segments))` with the
outward radial direction at the mid-angle of the segment. -/
theorem cylinder_side_normals_dot (segments : Nat) (radius height : ℝ) (i : Nat)
    (hi : i < segments) :
    ∃ t0 b0 b1 t1 : Vertex ℝ,
      triangleAt (UCreateCylinder.vertices
          (FloatOps.mk Real.pi Real.cos Real.sin Real.sqrt) segments radius height)
          (UCreateCylinder.indices segments) (2 * i) = some (t0, b0, b1) ∧
      triangleAt (UCreateCylinder.vertices
          (FloatOps.mk Real.pi Real.cos Real.sin Real.sqrt) segments radius height)
          (UCreateCylinder.indices segments) (2 * i + 1) = some (t0, b1, t1) ∧
      dot (faceNormal t0.position b0.position b1.position)
          (Real.cos (((i : ℝ) + 1 / 2) * (2 * Real.pi / (segments : ℝ))), 0,
            Real.sin (((i : ℝ) + 1 / 2) * (2 * Real.pi / (segments : ℝ)))) =
        -(2 * radius * height * Real.sin (Real.pi / (segments : ℝ))) ∧
      dot (faceNormal t0.position b1.position t1.position)
          (Real.cos (((i : ℝ) + 1 / 2) * (2 * Real.pi / (segments : ℝ))), 0,
            Real.sin (((i : ℝ) + 1 / 2) * (2 * Real.pi / (segments : ℝ)))) =
        -(2 * radius * height * Real.sin (Real.pi / (segments : ℝ))) := by
  obtain ⟨t0, b0, b1, t1, tri1, tri2, ht0, hb0, hb1, ht1⟩ :=
    cylinder_side_triangles (FloatOps.mk Real.pi Real.cos Real.sin Real.sqrt)
      segments radius height i hi
  obtain ⟨hmid, hhalf⟩ := segment_mid_and_half segments i (by omega) Real.pi
  refine ⟨t0, b0, b1, t1, tri1, tri2, ?_, ?_⟩
  · rw [ht0, hb0, hb1, ← hmid, ← hhalf]
    exact side_first_faceNormal_dot radius height _ _
  · rw [ht0, hb1, ht1, ← hmid, ← hhalf]
    exact side_second_faceNormal_dot radius height _ _

/-- C12, as stated, fails: on the shipped cylinder (`segments = 36`,
`radius = 1`, `height = 2`) the first side-wall triangle `(top1, bottom1,
bottom2)` of segment `0` has a right-hand-rule normal whose dot product with
the outward radial direction at the mid-angle is not positive. -/
theorem C12_cylinder_side_winding_counterexample :
    ∃ v0 v1 v2 : Vertex ℝ,
      triangleAt (UCreateCylinder.vertices
          (FloatOps.mk Real.pi Real.cos Real.sin Real.sqrt) 36 1 2)
          (UCreateCylinder.indices 36) (2 * 0) = some (v0, v1, v2) ∧
      ¬ (0 < dot (faceNormal v0.position v1.position v2.position)
          (Real.cos ((((0 : Nat) : ℝ) + 1 / 2) * (2 * Real.pi / ((36 : Nat) : ℝ))), 0,
            Real.sin ((((0 : Nat) : ℝ) + 1 / 2) * (2 * Real.pi / ((36 : Nat) : ℝ))))) := by
  obtain ⟨t0, b0, b1, t1, tri1, _, hdot, _⟩ :=
    cylinder_side_normals_dot 36 1 2 0 (by decide)
  refine ⟨t0, b0, b1, tri1, ?_⟩
  rw [hdot]
  have hs := sin_pi_div_pos 36 (by decide)
  linarith

/-- C12, amended: for every `segments >= 3`, `radius > 0`, `height > 0` and
every segment `i`, the two side-wall triangles `(top1, bottom1, bottom2)` and
`(top1, bottom2, top2)` are wound clockwise as seen from outside the cylinder:
with the generated positions in emitted order, the right-hand-rule normal
`(v1-v0) x (v2-v0)` has dot product `-2*radius*height*sin(pi/segments)`, which
is strictly negative, with the outward radial direction `(cos m, 0, sin m)` at
the mid-angle `m` of the segment. -/
theorem C12_cylinder_side_winding (segments : Nat) (radius height : ℝ) (i : Nat)
    (h : 3 ≤ segments) (hr : 0 < radius) (hh : 0 < height) (hi : i < segments) :
    ∃ t0 b0 b1 t1 : Vertex ℝ,
      triangleAt (UCreateCylinder.vertices
          (FloatOps.mk Real.pi Real.cos Real.sin Real.sqrt) segments radius height)
          (UCreateCylinder.indices segments) (2 * i) = some (t0, b0, b1) ∧
      triangleAt (UCreateCylinder.vertices
          (FloatOps.mk Real.pi Real.cos Real.sin Real.sqrt) segments radius height)
          (UCreateCylinder.indices segments) (2 * i + 1) = some (t0, b1, t1) ∧
      dot (faceNormal t0.position b0.position b1.position)
          (Real.cos (((i : ℝ) + 1 / 2) * (2 * Real.pi / (segments : ℝ))), 0,
            Real.sin (((i : ℝ) + 1 / 2) * (2 * Real.pi / (segments : ℝ)))) =
        -(2 * radius * height * Real.sin (Real.pi / (segments : ℝ))) ∧
      dot (faceNormal t0.position b1.position t1.position)
          (Real.cos (((i : ℝ) + 1 / 2) * (2 * Real.pi / (segments : ℝ))), 0,
            Real.sin (((i : ℝ) + 1 / 2) * (2 * Real.pi / (segments : ℝ)))) =
        -(2 * radius * height * Real.sin (Real.pi / (segments : ℝ))) ∧
      -(2 * radius * height * Real.sin (Real.pi / (segments : ℝ))) < 0 := by
  obtain ⟨t0, b0, b1, t1, tri1, tri2, hdot1, hdot2⟩ :=
    cylinder_side_normals_dot segments radius height i hi
  refine ⟨t0, b0, b1, t1, tri1, tri2, hdot1, hdot2, ?_⟩
  have hs := sin_pi_div_pos segments (by omega)
  have hpos : 0 < 2 * radius * height * Real.sin (Real.pi / (segments : ℝ)) := by positivity
  linarith

/-- Witness of the amended C12: segment 5 of the shipped cylinder. -/
theorem C12_cylinder_side_winding_witness :
    3 ≤ 36 ∧ (0 : ℝ) < 1 ∧ (0 : ℝ) < 2 ∧ 5 < 36 ∧
    ∃ t0 b0 b1 t1 : Vertex ℝ,
      triangleAt (UCreateCylinder.vertices
          (FloatOps.mk Real.pi Real.cos Real.sin Real.sqrt) 36 1 2)
          (UCreateCylinder.indices 36) (2 * 5) = some (t0, b0, b1) ∧
      triangleAt (UCreateCylinder.vertices
          (FloatOps.mk Real.pi Real.cos Real.sin Real.sqrt) 36 1 2)
          (UCreateCylinder.indices 36) (2 * 5 + 1) = some (t0, b1, t1) ∧
      dot (faceNormal t0.position b0.position b1.position)
          (Real.cos ((((5 : Nat) : ℝ) + 1 / 2) * (2 * Real.pi / ((36 : Nat) : ℝ))), 0,
            Real.sin ((((5 : Nat) : ℝ) + 1 / 2) * (2 * Real.pi / ((36 : Nat) : ℝ)))) =
        -(2 * 1 * 2 * Real.sin (Real.pi / ((36 : Nat) : ℝ))) ∧
      dot (faceNormal t0.position b1.position t1.position)
          (Real.cos ((((5 : Nat) : ℝ) + 1 / 2) * (2 * Real.pi / ((36 : Nat) : ℝ))), 0,
            Real.sin ((((5 : Nat) : ℝ) + 1 / 2) * (2 * Real.pi / ((36 : Nat) : ℝ)))) =
        -(2 * 1 * 2 * Real.sin (Real.pi / ((36 : Nat) : ℝ))) ∧
      -(2 * 1 * 2 * Real.sin (Real.pi / ((36 : Nat) : ℝ))) < 0 :=
  ⟨by decide, by norm_num, by norm_num, by decide,
    C12_cylinder_side_winding 36 1 2 5 (by decide) (by norm_num) (by norm_num)
      (by decide)⟩

/-! ## Sphere: triangles and pole rows -/

/-- Entry `6 * (i * numSegments + j) + r` of the sphere index vector is entry
`r` of cell `(i, j)`. -/
theorem sphere_getElem?_indices (numSegments i j r : Nat) (hi : i < numSegments)
    (hj : j < numSegments) (hr : r < 6) :
    (UCreateSphere.indices numSegments)[6 * (i * numSegments + j) + r]? =
      (UCreateSphere.cellIndices numSegments i j)[r]? := by
  rw [sphere_indices_eq]
  exact getElem?_nested_chunks (UCreateSphere.cellIndices numSegments) 6 (fun _ _ => rfl)
    numSegments i j r hi hj hr

/-- The two triangles of cell `(i, j)` are `(first, second, first+1)` and
`(second, second+1, first+1)`, where `first`, `first+1` are the vertices
generated at `(i, j)`, `(i, j+1)` and `second`, `second+1` those generated at
`(i+1, j)`, `(i+1, j+1)`. -/
theorem sphere_cell_triangles {α : Type} [Field α] (ops : FloatOps α)
    (numSegments : Nat) (radius : α) (i j : Nat) (hi : i < numSegments)
    (hj : j < numSegments) :
    ∃ first second first1 second1 : Vertex α,
      triangleAt (UCreateSphere.verts ops numSegments radius)
          (UCreateSphere.indices numSegments) (2 * (i * numSegments + j)) =
        some (first, second, first1) ∧
      triangleAt (UCreateSphere.verts ops numSegments radius)
          (UCreateSphere.indices numSegments) (2 * (i * numSegments + j) + 1) =
        some (second, second1, first1) ∧
      vertexAt (UCreateSphere.verts ops numSegments radius)
          (i * (numSegments + 1) + j) = some first ∧
      vertexAt (UCreateSphere.verts ops numSegments radius)
          (i * (numSegments + 1) + (j + 1)) = some first1 ∧
      vertexAt (UCreateSphere.verts ops numSegments radius)
          ((i + 1) * (numSegments + 1) + j) = some second ∧
      vertexAt (UCreateSphere.verts ops numSegments radius)
          ((i + 1) * (numSegments + 1) + (j + 1)) = some second1 := by
  have hf := sphere_vertexAt ops numSegments radius i j (by omega) (by omega)
  have hf1 := sphere_vertexAt ops numSegments radius i (j + 1) (by omega) (by omega)
  have hs := sphere_vertexAt ops numSegments radius (i + 1) j (by omega) (by omega)
  have hs1 := sphere_vertexAt ops numSegments radius (i + 1) (j + 1) (by omega) (by omega)
  have e1 : i * (numSegments + 1) + j + 1 = i * (numSegments + 1) + (j + 1) := by omega
  have e2 : i * (numSegments + 1) + j + numSegments + 1 =
      (i + 1) * (numSegments + 1) + j := by ring
  have e3 : i * (numSegments + 1) + j + numSegments + 1 + 1 =
      (i + 1) * (numSegments + 1) + (j + 1) := by ring
  have hidx : ∀ r, r < 6 → ∀ k, UCreateSphere.cellIndices numSegments i j = k →
      (UCreateSphere.indices numSegments)[6 * (i * numSegments + j) + r]? = k[r]? :=
    fun r hr k hk => hk ▸ sphere_getElem?_indices numSegments i j r hi hj hr
  have tri1 := triangleAt_of_vertices (UCreateSphere.verts ops numSegments radius)
    (UCreateSphere.indices numSegments) (2 * (i * numSegments + j))
    (i * (numSegments + 1) + j) ((i + 1) * (numSegments + 1) + j)
    (i * (numSegments + 1) + (j + 1)) _ _ _
    (by rw [show 3 * (2 * (i * numSegments + j)) + 0 = 6 * (i * numSegments + j) + 0 by
          omega, hidx 0 (by decide) _ rfl]; rfl)
    (by rw [show 3 * (2 * (i * numSegments + j)) + 1 = 6 * (i * numSegments + j) + 1 by
          omega, hidx 1 (by decide) _ rfl, ← e2]; rfl)
    (by rw [show 3 * (2 * (i * numSegments + j)) + 2 = 6 * (i * numSegments + j) + 2 by
          omega, hidx 2 (by decide) _ rfl, ← e1]; rfl)
    hf hs hf1
  have tri2 := triangleAt_of_vertices (UCreateSphere.verts ops numSegments radius)
    (UCreateSphere.indices numSegments) (2 * (i * numSegments + j) + 1)
    ((i + 1) * (numSegments + 1) + j) ((i + 1) * (numSegments + 1) + (j + 1))
    (i * (numSegments + 1) + (j + 1)) _ _ _
    (by rw [show 3 * (2 * (i * numSegments + j) + 1) + 0 = 6 * (i * numSegments + j) + 3 by
          omega, hidx 3 (by decide) _ rfl, ← e2]; rfl)
    (by rw [show 3 * (2 * (i * numSegments + j) + 1) + 1 = 6 * (i * numSegments + j) + 4 by
          omega, hidx 4 (by decide) _ rfl, ← e3]; rfl)
    (by rw [show 3 * (2 * (i * numSegments + j) + 1) + 2 = 6 * (i * numSegments + j) + 5 by
          omega, hidx 5 (by decide) _ rfl, ← e1]; rfl)
    hs hs1 hf1
  exact ⟨_, _, _, _, tri1, tri2, hf, hf1, hs, hs1⟩

/-- Latitude index `0` has polar angle `180°`, that is `π`. -/
theorem sphere_phi_row_zero (numSegments : Nat) :
    radians (FloatOps.mk Real.pi Real.cos Real.sin Real.sqrt)
      (180 - ((0 : Nat) : ℝ) * 180 / (numSegments : ℝ)) = Real.pi := by
  simp only [radians, Nat.cast_zero, zero_mul, zero_div, sub_zero]
  ring

/-- Latitude index `numSegments` has polar angle `0`. -/
theorem sphere_phi_row_last (numSegments : Nat) (hn : 0 < numSegments) :
    radians (FloatOps.mk Real.pi Real.cos Real.sin Real.sqrt)
      (180 - (numSegments : ℝ) * 180 / (numSegments : ℝ)) = 0 := by
  have hn0 : (numSegments : ℝ) ≠ 0 := Nat.cast_ne_zero.mpr (Nat.pos_iff_ne_zero.mp hn)
  simp only [radians]
  rw [mul_div_assoc, mul_div_cancel₀ _ hn0]
  ring

/-- Every vertex of latitude row `0` sits at `(0, -radius, 0)`. -/
theorem sphere_position_row_zero (numSegments : Nat) (radius : ℝ) (j : Nat)
    (hj : j ≤ numSegments) :
    ∃ v, vertexAt (UCreateSphere.verts (FloatOps.mk Real.pi Real.cos Real.sin Real.sqrt)
          numSegments radius) (0 * (numSegments + 1) + j) = some v ∧
      v.position = (0, -radius, 0) ∧
      v.uv = ((j : ℝ) / (numSegments : ℝ), ((0 : Nat) : ℝ) / (numSegments : ℝ)) := by
  refine ⟨_, sphere_vertexAt (FloatOps.mk Real.pi Real.cos Real.sin Real.sqrt)
    numSegments radius 0 j (Nat.zero_le _) hj, ?_, rfl⟩
  simp only [sphere_phi_row_zero, Real.cos_pi, Real.sin_pi, mul_zero, mul_neg, mul_one]

/-- Every vertex of latitude row `numSegments` sits at `(0, radius, 0)`. -/
theorem sphere_position_row_last (numSegments : Nat) (radius : ℝ) (j : Nat)
    (hn : 0 < numSegments) (hj : j ≤ numSegments) :
    ∃ v, vertexAt (UCreateSphere.verts (FloatOps.mk Real.pi Real.cos Real.sin Real.sqrt)
          numSegments radius) (numSegments * (numSegments + 1) + j) = some v ∧
      v.position = (0, radius, 0) ∧
      v.uv = ((j : ℝ) / (numSegments : ℝ), (numSegments : ℝ) / (numSegments : ℝ)) := by
  refine ⟨_, sphere_vertexAt (FloatOps.mk Real.pi Real.cos Real.sin Real.sqrt)
    numSegments radius numSegments j (Nat.le_refl _) hj, ?_, rfl⟩
  simp only [sphere_phi_row_last numSegments hn, Real.cos_zero, Real.sin_zero, mul_zero,
    mul_one]

/-- A triangle whose first and third corner coincide has zero face normal. -/
theorem faceNormal_eq_zero_of_first_eq_third {α : Type} [Field α] (v0 v1 v2 : α × α × α)
    (h : v0 = v2) : faceNormal v0 v1 v2 = (0, 0, 0) := by
  subst h
  simp only [faceNormal, cross, vsub, sub_self, mul_zero, zero_mul]

/-- A triangle whose first and second corner coincide has zero face normal. -/
theorem faceNormal_eq_zero_of_first_eq_second {α : Type} [Field α] (v0 v1 v2 : α × α × α)
    (h : v0 = v1) : faceNormal v0 v1 v2 = (0, 0, 0) := by
  subst h
  simp only [faceNormal, cross, vsub, sub_self, mul_zero, zero_mul]

/-- The triangle `(second, second+1, first+1)` of a first-band cell, in
coordinates: two distinct points of latitude row 1 and the pole. -/
theorem first_band_second_triangle (r S C s1 c1 : ℝ) (hr : 0 < r) (hS : 0 < S)
    (hs1 : 0 < s1) :
    (r * (1 * S), r * C, r * (0 * S)) ≠ (r * (c1 * S), r * C, r * (s1 * S)) ∧
      (r * (1 * S), r * C, r * (0 * S)) ≠ (r * (c1 * 0), r * (-1), r * (s1 * 0)) ∧
      (r * (c1 * S), r * C, r * (s1 * S)) ≠ (r * (c1 * 0), r * (-1), r * (s1 * 0)) ∧
      faceNormal (r * (1 * S), r * C, r * (0 * S)) (r * (c1 * S), r * C, r * (s1 * S))
          (r * (c1 * 0), r * (-1), r * (s1 * 0)) ≠ (0, 0, 0) := by
  have hrS : 0 < r * S := mul_pos hr hS
  have hrsS : 0 < r * (s1 * S) := mul_pos hr (mul_pos hs1 hS)
  refine ⟨?_, ?_, ?_, ?_⟩
  · intro heq
    have hz := congrArg (fun p : ℝ × ℝ × ℝ => p.2.2) heq
    simp only [zero_mul, mul_zero] at hz
    linarith
  · intro heq
    have hx := congrArg (fun p : ℝ × ℝ × ℝ => p.1) heq
    simp only [one_mul, mul_zero] at hx
    linarith
  · intro heq
    have hz := congrArg (fun p : ℝ × ℝ × ℝ => p.2.2) heq
    simp only [mul_zero] at hz
    linarith
  · intro heq
    have hy := congrArg (fun p : ℝ × ℝ × ℝ => p.2.1) heq
    simp only [faceNormal, cross, vsub, zero_mul, mul_zero, one_mul, sub_zero, zero_sub,
      sub_self] at hy
    have hprod : 0 < r * (s1 * S) * (r * S) := mul_pos hrsS hrS
    linarith

/-- C13, as stated, fails: on the shipped sphere (`segments = 16`,
`radius = 0.5`) the second triangle `(second, second+1, first+1)` of the
pole-band cell `i = 0`, `j = 0` has three pairwise distinct vertex positions and
a non-zero face normal. -/
theorem C13_sphere_pole_band_counterexample :
    ∃ v0 v1 v2 : Vertex ℝ,
      triangleAt (UCreateSphere.verts (FloatOps.mk Real.pi Real.cos Real.sin Real.sqrt) 16 0.5) (UCreateSphere.indices 16)
          (2 * (0 * 16 + 0) + 1) = some (v0, v1, v2) ∧
      v0.position ≠ v1.position ∧ v0.position ≠ v2.position ∧
      v1.position ≠ v2.position ∧
      faceNormal v0.position v1.position v2.position ≠ (0, 0, 0) := by
  obtain ⟨first, second, first1, second1, _, tri2, _, hf1, hs, hs1⟩ :=
    sphere_cell_triangles (FloatOps.mk Real.pi Real.cos Real.sin Real.sqrt) 16 (0.5 : ℝ) 0 0 (by decide) (by decide)
  have e1 := Option.some.inj
    (hf1.symm.trans (sphere_vertexAt (FloatOps.mk Real.pi Real.cos Real.sin Real.sqrt) 16 (0.5 : ℝ) 0 1 (by decide) (by decide)))
  have e2 := Option.some.inj
    (hs.symm.trans (sphere_vertexAt (FloatOps.mk Real.pi Real.cos Real.sin Real.sqrt) 16 (0.5 : ℝ) 1 0 (by decide) (by decide)))
  have e3 := Option.some.inj
    (hs1.symm.trans (sphere_vertexAt (FloatOps.mk Real.pi Real.cos Real.sin Real.sqrt) 16 (0.5 : ℝ) 1 1 (by decide) (by decide)))
  have hθ0 : radians (FloatOps.mk Real.pi Real.cos Real.sin Real.sqrt) (((0 : Nat) : ℝ) * 360 / ((16 : Nat) : ℝ)) = 0 := by
    simp only [radians, Nat.cast_zero, zero_mul, zero_div]
  have hθ1 : radians (FloatOps.mk Real.pi Real.cos Real.sin Real.sqrt) (((1 : Nat) : ℝ) * 360 / ((16 : Nat) : ℝ)) = Real.pi / 8 := by
    simp only [radians, Nat.cast_one, Nat.cast_ofNat]
    ring
  have hφ1 : radians (FloatOps.mk Real.pi Real.cos Real.sin Real.sqrt) (180 - ((1 : Nat) : ℝ) * 180 / ((16 : Nat) : ℝ)) =
      Real.pi - Real.pi / 16 := by
    simp only [radians, Nat.cast_one, Nat.cast_ofNat]
    ring
  have hS : 0 < Real.sin (Real.pi - Real.pi / 16) := by
    rw [Real.sin_pi_sub]
    exact_mod_cast sin_pi_div_pos 16 (by decide)
  have hs1pos : 0 < Real.sin (Real.pi / 8) := by
    exact_mod_cast sin_pi_div_pos 8 (by decide)
  refine ⟨second, second1, first1, tri2, ?_⟩
  rw [e1, e2, e3]
  simp only [hθ0, hθ1, hφ1, sphere_phi_row_zero, Real.cos_zero, Real.sin_zero, Real.cos_pi,
    Real.sin_pi]
  exact first_band_second_triangle 0.5 _ _ _ _ (by norm_num) hS hs1pos

/-- C13, amended: for every `segments >= 3` and `radius > 0`, over the reals,
each pole-band cell has one zero-area triangle: in band `i = 0` the triangle
`(first, second, first+1)` has `first` and `first+1` at the same position, and
in band `i = segments-1` the triangle `(second, second+1, first+1)` has `second`
and `second+1` at the same position; the face normal of each is zero. -/
theorem C13_sphere_pole_band_triangles (segments : Nat) (radius : ℝ) (j : Nat)
    (h : 3 ≤ segments) (_hr : 0 < radius) (hj : j < segments) :
    (∃ v0 v1 v2 : Vertex ℝ,
      triangleAt (UCreateSphere.verts (FloatOps.mk Real.pi Real.cos Real.sin Real.sqrt) segments radius) (UCreateSphere.indices segments)
          (2 * (0 * segments + j)) = some (v0, v1, v2) ∧
      v0.position = v2.position ∧
      faceNormal v0.position v1.position v2.position = (0, 0, 0)) ∧
    (∃ v0 v1 v2 : Vertex ℝ,
      triangleAt (UCreateSphere.verts (FloatOps.mk Real.pi Real.cos Real.sin Real.sqrt) segments radius) (UCreateSphere.indices segments)
          (2 * ((segments - 1) * segments + j) + 1) = some (v0, v1, v2) ∧
      v0.position = v1.position ∧
      faceNormal v0.position v1.position v2.position = (0, 0, 0)) := by
  constructor
  · obtain ⟨first, second, first1, second1, tri1, _, hf, hf1, _, _⟩ :=
      sphere_cell_triangles (FloatOps.mk Real.pi Real.cos Real.sin Real.sqrt) segments radius 0 j (by omega) hj
    obtain ⟨a, ha, hpa, _⟩ := sphere_position_row_zero segments radius j (by omega)
    obtain ⟨b, hb, hpb, _⟩ := sphere_position_row_zero segments radius (j + 1) (by omega)
    have ea : first = a := Option.some.inj (hf.symm.trans ha)
    have eb : first1 = b := Option.some.inj (hf1.symm.trans hb)
    have hpos : first.position = first1.position := by rw [ea, eb, hpa, hpb]
    exact ⟨first, second, first1, tri1, hpos,
      faceNormal_eq_zero_of_first_eq_third _ _ _ hpos⟩
  · obtain ⟨first, second, first1, second1, _, tri2, _, _, hs, hs1⟩ :=
      sphere_cell_triangles (FloatOps.mk Real.pi Real.cos Real.sin Real.sqrt) segments radius (segments - 1) j (by omega) hj
    rw [Nat.sub_add_cancel (by omega : 1 ≤ segments)] at hs hs1
    obtain ⟨a, ha, hpa, _⟩ :=
      sphere_position_row_last segments radius j (by omega) (by omega)
    obtain ⟨b, hb, hpb, _⟩ :=
      sphere_position_row_last segments radius (j + 1) (by omega) (by omega)
    have ea : second = a := Option.some.inj (hs.symm.trans ha)
    have eb : second1 = b := Option.some.inj (hs1.symm.trans hb)
    have hpos : second.position = second1.position := by rw [ea, eb, hpa, hpb]
    exact ⟨second, second1, first1, tri2, hpos,
      faceNormal_eq_zero_of_first_eq_second _ _ _ hpos⟩

/-- Witness of the amended C13: longitude 3 of the shipped sphere. -/
theorem C13_sphere_pole_band_triangles_witness :
    3 ≤ 16 ∧ (0 : ℝ) < 0.5 ∧ 3 < 16 ∧
    (∃ v0 v1 v2 : Vertex ℝ,
      triangleAt (UCreateSphere.verts (FloatOps.mk Real.pi Real.cos Real.sin Real.sqrt) 16 0.5) (UCreateSphere.indices 16)
          (2 * (0 * 16 + 3)) = some (v0, v1, v2) ∧
      v0.position = v2.position ∧
      faceNormal v0.position v1.position v2.position = (0, 0, 0)) ∧
    (∃ v0 v1 v2 : Vertex ℝ,
      triangleAt (UCreateSphere.verts (FloatOps.mk Real.pi Real.cos Real.sin Real.sqrt) 16 0.5) (UCreateSphere.indices 16)
          (2 * ((16 - 1) * 16 + 3) + 1) = some (v0, v1, v2) ∧
      v0.position = v1.position ∧
      faceNormal v0.position v1.position v2.position = (0, 0, 0)) :=
  ⟨by decide, by norm_num, by decide,
    C13_sphere_pole_band_triangles 16 0.5 3 (by decide) (by norm_num) (by decide)⟩

/-- C14: for every `segments >= 3` and `radius > 0`, over the reals, all
vertices of latitude row `i = 0` have one and the same position, and all
vertices of row `i = segments` have one and the same position (`sin(phi) = 0`
there, so `x = z = 0` for every `j`), while their UV coordinates
`u = j/segments` remain pairwise distinct. -/
theorem C14_sphere_pole_rows_collapse (segments : Nat) (radius : ℝ) (j k : Nat)
    (h : 3 ≤ segments) (_hr : 0 < radius) (hj : j ≤ segments) (hk : k ≤ segments) :
    ∃ a b c d : Vertex ℝ,
      vertexAt (UCreateSphere.verts (FloatOps.mk Real.pi Real.cos Real.sin Real.sqrt) segments radius) (0 * (segments + 1) + j) =
        some a ∧
      vertexAt (UCreateSphere.verts (FloatOps.mk Real.pi Real.cos Real.sin Real.sqrt) segments radius) (0 * (segments + 1) + k) =
        some b ∧
      vertexAt (UCreateSphere.verts (FloatOps.mk Real.pi Real.cos Real.sin Real.sqrt) segments radius) (segments * (segments + 1) + j) =
        some c ∧
      vertexAt (UCreateSphere.verts (FloatOps.mk Real.pi Real.cos Real.sin Real.sqrt) segments radius) (segments * (segments + 1) + k) =
        some d ∧
      a.position = (0, -radius, 0) ∧ b.position = a.position ∧
      c.position = (0, radius, 0) ∧ d.position = c.position ∧
      Real.sin (radians (FloatOps.mk Real.pi Real.cos Real.sin Real.sqrt) (180 - ((0 : Nat) : ℝ) * 180 / (segments : ℝ))) = 0 ∧
      Real.sin (radians (FloatOps.mk Real.pi Real.cos Real.sin Real.sqrt) (180 - (segments : ℝ) * 180 / (segments : ℝ))) = 0 ∧
      (j ≠ k → a.uv.1 ≠ b.uv.1 ∧ c.uv.1 ≠ d.uv.1) := by
  obtain ⟨a, ha, hpa, hua⟩ := sphere_position_row_zero segments radius j hj
  obtain ⟨b, hb, hpb, hub⟩ := sphere_position_row_zero segments radius k hk
  obtain ⟨c, hc, hpc, huc⟩ := sphere_position_row_last segments radius j (by omega) hj
  obtain ⟨d, hd, hpd, hud⟩ := sphere_position_row_last segments radius k (by omega) hk
  have hn0 : (segments : ℝ) ≠ 0 := Nat.cast_ne_zero.mpr (by omega)
  have hu : j ≠ k → (j : ℝ) / (segments : ℝ) ≠ (k : ℝ) / (segments : ℝ) := by
    intro hne heq
    exact hne (Nat.cast_injective ((div_left_inj' hn0).mp heq))
  refine ⟨a, b, c, d, ha, hb, hc, hd, hpa, by rw [hpb, hpa], hpc, by rw [hpd, hpc], ?_, ?_,
    ?_⟩
  · rw [sphere_phi_row_zero, Real.sin_pi]
  · rw [sphere_phi_row_last segments (by omega), Real.sin_zero]
  · intro hne
    rw [hua, hub, huc, hud]
    exact ⟨hu hne, hu hne⟩

/-- Witness of C14: longitudes 2 and 7 of the shipped sphere. -/
theorem C14_sphere_pole_rows_collapse_witness :
    3 ≤ 16 ∧ (0 : ℝ) < 0.5 ∧ 2 ≤ 16 ∧ 7 ≤ 16 ∧
    ∃ a b c d : Vertex ℝ,
      vertexAt (UCreateSphere.verts (FloatOps.mk Real.pi Real.cos Real.sin Real.sqrt) 16 0.5) (0 * (16 + 1) + 2) = some a ∧
      vertexAt (UCreateSphere.verts (FloatOps.mk Real.pi Real.cos Real.sin Real.sqrt) 16 0.5) (0 * (16 + 1) + 7) = some b ∧
      vertexAt (UCreateSphere.verts (FloatOps.mk Real.pi Real.cos Real.sin Real.sqrt) 16 0.5) (16 * (16 + 1) + 2) = some c ∧
      vertexAt (UCreateSphere.verts (FloatOps.mk Real.pi Real.cos Real.sin Real.sqrt) 16 0.5) (16 * (16 + 1) + 7) = some d ∧
      a.position = (0, -0.5, 0) ∧ b.position = a.position ∧
      c.position = (0, 0.5, 0) ∧ d.position = c.position ∧
      Real.sin (radians (FloatOps.mk Real.pi Real.cos Real.sin Real.sqrt) (180 - ((0 : Nat) : ℝ) * 180 / ((16 : Nat) : ℝ))) = 0 ∧
      Real.sin (radians (FloatOps.mk Real.pi Real.cos Real.sin Real.sqrt) (180 - ((16 : Nat) : ℝ) * 180 / ((16 : Nat) : ℝ))) = 0 ∧
      (2 ≠ 7 → a.uv.1 ≠ b.uv.1 ∧ c.uv.1 ≠ d.uv.1) :=
  ⟨by decide, by norm_num, by decide, by decide,
    C14_sphere_pole_rows_collapse 16 0.5 2 7 (by decide) (by norm_num) (by decide)
      (by decide)⟩

/-- The unit-sphere point of polar angle `p` and azimuth `t` has squared
length one. -/
theorem unit_sphere_point (p t : ℝ) :
    (Real.cos t * Real.sin p) ^ 2 + Real.cos p ^ 2 + (Real.sin t * Real.sin p) ^ 2 = 1 := by
  linear_combination Real.sin p ^ 2 * Real.sin_sq_add_cos_sq t + Real.sin_sq_add_cos_sq p

/-- Normalising a vector of squared length one leaves it unchanged. -/
theorem normalize_of_unit (x y z : ℝ) (hunit : x ^ 2 + y ^ 2 + z ^ 2 = 1) :
    normalize (FloatOps.mk Real.pi Real.cos Real.sin Real.sqrt) (x, y, z) = (x, y, z) := by
  have hsum : x * x + y * y + z * z = 1 := by rw [← hunit]; ring
  simp only [normalize, hsum, Real.sqrt_one, div_one, mul_one]

/-- C15: for every `segments >= 3` and `radius > 0`, over the reals, every
vertex emitted by the sphere generator carries a unit-length normal: the
pre-normalisation vector `(x, y, z)` already satisfies `x^2 + y^2 + z^2 = 1`, and
the stored normal equals `position / radius`. -/
theorem C15_sphere_unit_normals (segments : Nat) (radius : ℝ) (i j : Nat)
    (_h : 3 ≤ segments) (hr : 0 < radius) (hi : i ≤ segments) (hj : j ≤ segments) :
    ∃ (v : Vertex ℝ) (x y z : ℝ),
      vertexAt (UCreateSphere.verts (FloatOps.mk Real.pi Real.cos Real.sin Real.sqrt) segments radius) (i * (segments + 1) + j) =
        some v ∧
      x = Real.cos (radians (FloatOps.mk Real.pi Real.cos Real.sin Real.sqrt) ((j : ℝ) * 360 / (segments : ℝ)))
            * Real.sin (radians (FloatOps.mk Real.pi Real.cos Real.sin Real.sqrt) (180 - (i : ℝ) * 180 / (segments : ℝ))) ∧
      y = Real.cos (radians (FloatOps.mk Real.pi Real.cos Real.sin Real.sqrt) (180 - (i : ℝ) * 180 / (segments : ℝ))) ∧
      z = Real.sin (radians (FloatOps.mk Real.pi Real.cos Real.sin Real.sqrt) ((j : ℝ) * 360 / (segments : ℝ)))
            * Real.sin (radians (FloatOps.mk Real.pi Real.cos Real.sin Real.sqrt) (180 - (i : ℝ) * 180 / (segments : ℝ))) ∧
      x ^ 2 + y ^ 2 + z ^ 2 = 1 ∧
      v.position = (radius * x, radius * y, radius * z) ∧
      v.normal = normalize (FloatOps.mk Real.pi Real.cos Real.sin Real.sqrt) (x, y, z) ∧
      v.normal = (x, y, z) ∧
      length3 (FloatOps.mk Real.pi Real.cos Real.sin Real.sqrt) v.normal = 1 ∧
      v.normal = (v.position.1 / radius, v.position.2.1 / radius,
        v.position.2.2 / radius) := by
  have hunit := unit_sphere_point (radians (FloatOps.mk Real.pi Real.cos Real.sin Real.sqrt) (180 - (i : ℝ) * 180 / (segments : ℝ)))
    (radians (FloatOps.mk Real.pi Real.cos Real.sin Real.sqrt) ((j : ℝ) * 360 / (segments : ℝ)))
  have hnorm := normalize_of_unit _ _ _ hunit
  have hr0 : radius ≠ 0 := ne_of_gt hr
  refine ⟨_, _, _, _, sphere_vertexAt (FloatOps.mk Real.pi Real.cos Real.sin Real.sqrt) segments radius i j hi hj, rfl, rfl, rfl, hunit,
    rfl, rfl, hnorm, ?_, ?_⟩
  · simp only [hnorm, length3, dot]
    rw [show ∀ a b c : ℝ, a * a + b * b + c * c = a ^ 2 + b ^ 2 + c ^ 2 from
      fun a b c => by ring, hunit, Real.sqrt_one]
  · simp only [hnorm, mul_div_cancel_left₀ _ hr0]

/-- Witness of C15: latitude 8, longitude 4 of the shipped sphere. -/
theorem C15_sphere_unit_normals_witness :
    3 ≤ 16 ∧ (0 : ℝ) < 0.5 ∧ 8 ≤ 16 ∧ 4 ≤ 16 ∧
    ∃ (v : Vertex ℝ) (x y z : ℝ),
      vertexAt (UCreateSphere.verts (FloatOps.mk Real.pi Real.cos Real.sin Real.sqrt) 16 0.5) (8 * (16 + 1) + 4) = some v ∧
      x = Real.cos (radians (FloatOps.mk Real.pi Real.cos Real.sin Real.sqrt) (((4 : Nat) : ℝ) * 360 / ((16 : Nat) : ℝ)))
            * Real.sin (radians (FloatOps.mk Real.pi Real.cos Real.sin Real.sqrt) (180 - ((8 : Nat) : ℝ) * 180 / ((16 : Nat) : ℝ))) ∧
      y = Real.cos (radians (FloatOps.mk Real.pi Real.cos Real.sin Real.sqrt) (180 - ((8 : Nat) : ℝ) * 180 / ((16 : Nat) : ℝ))) ∧
      z = Real.sin (radians (FloatOps.mk Real.pi Real.cos Real.sin Real.sqrt) (((4 : Nat) : ℝ) * 360 / ((16 : Nat) : ℝ)))
            * Real.sin (radians (FloatOps.mk Real.pi Real.cos Real.sin Real.sqrt) (180 - ((8 : Nat) : ℝ) * 180 / ((16 : Nat) : ℝ))) ∧
      x ^ 2 + y ^ 2 + z ^ 2 = 1 ∧
      v.position = (0.5 * x, 0.5 * y, 0.5 * z) ∧
      v.normal = normalize (FloatOps.mk Real.pi Real.cos Real.sin Real.sqrt) (x, y, z) ∧
      v.normal = (x, y, z) ∧
      length3 (FloatOps.mk Real.pi Real.cos Real.sin Real.sqrt) v.normal = 1 ∧
      v.normal = (v.position.1 / 0.5, v.position.2.1 / 0.5, v.position.2.2 / 0.5) :=
  ⟨by decide, by norm_num, by decide, by decide,
    C15_sphere_unit_normals 16 0.5 8 4 (by decide) (by norm_num) (by decide) (by decide)⟩

/-! ## Cylinder: rim normals -/

/-- Both rim vertices of iteration `i` store the raw vector `(x, 0, z)` as
normal. -/
theorem cylinder_rim_normals {α : Type} [Field α] (ops : FloatOps α) (segments : Nat)
    (radius height : α) (i : Nat) (hi : i ≤ segments) :
    ∃ top bottom : Vertex α,
      vertexAt (UCreateCylinder.vertices ops segments radius height) (2 * i) = some top ∧
      vertexAt (UCreateCylinder.vertices ops segments radius height) (2 * i + 1) =
        some bottom ∧
      top.normal =
        (radius * ops.cos ((i : α) * (2 * ops.pi / (segments : α))), 0,
          radius * ops.sin ((i : α) * (2 * ops.pi / (segments : α)))) ∧
      bottom.normal = top.normal ∧
      top.normal = (top.position.1, 0, top.position.2.2) ∧
      bottom.normal = (bottom.position.1, 0, bottom.position.2.2) :=
  ⟨_, _, cylinder_vertexAt_top ops segments radius height i hi,
    cylinder_vertexAt_bottom ops segments radius height i hi, rfl, rfl, rfl, rfl⟩

/-- Squared length of the radial vector `(r cos a, 0, r sin a)`. -/
theorem radial_dot_self (r a : ℝ) :
    dot (r * Real.cos a, 0, r * Real.sin a) (r * Real.cos a, 0, r * Real.sin a) = r * r := by
  simp only [dot]
  linear_combination r * r * Real.sin_sq_add_cos_sq a

/-- Length of the radial vector `(r cos a, 0, r sin a)` for `r >= 0`. -/
theorem radial_length (r a : ℝ) (hr : 0 ≤ r) :
    length3 (FloatOps.mk Real.pi Real.cos Real.sin Real.sqrt) (r * Real.cos a, 0, r * Real.sin a) = r := by
  simp only [length3, radial_dot_self, Real.sqrt_mul_self hr]

/-- Normalising the radial vector `(r cos a, 0, r sin a)` for `r > 0`. -/
theorem radial_normalize (r a : ℝ) (hr : 0 < r) :
    normalize (FloatOps.mk Real.pi Real.cos Real.sin Real.sqrt) (r * Real.cos a, 0, r * Real.sin a) = (Real.cos a, 0, Real.sin a) := by
  have hsum : r * Real.cos a * (r * Real.cos a) + 0 * 0 + r * Real.sin a * (r * Real.sin a) =
      r * r := radial_dot_self r a
  have hr0 : r ≠ 0 := ne_of_gt hr
  have hsqrt : Real.sqrt (r * Real.cos a * (r * Real.cos a) + 0 * 0 +
      r * Real.sin a * (r * Real.sin a)) = r := by
    rw [hsum, Real.sqrt_mul_self hr.le]
  simp only [normalize, hsqrt]
  refine Prod.ext ?_ (Prod.ext (zero_mul _) ?_)
  · show r * Real.cos a * (1 / r) = Real.cos a
    field_simp
  · show r * Real.sin a * (1 / r) = Real.sin a
    field_simp

/-- C16, as stated, fails: with `radius = 2` (`segments = 36`, `height = 2`)
the normal stored for the first top-rim vertex is `(2, 0, 0)`; it is neither
`normalize((x, 0, z))` nor the unit radial direction `(cos 0, 0, sin 0)`, and
its length is not one. -/
theorem C16_cylinder_rim_normals_counterexample :
    ∃ v : Vertex ℝ,
      vertexAt (UCreateCylinder.vertices (FloatOps.mk Real.pi Real.cos Real.sin Real.sqrt) 36 2 2) (2 * 0) = some v ∧
      v.normal = (2, 0, 0) ∧
      v.normal ≠ normalize (FloatOps.mk Real.pi Real.cos Real.sin Real.sqrt) (v.position.1, 0, v.position.2.2) ∧
      v.normal ≠ (Real.cos (((0 : Nat) : ℝ) * (2 * Real.pi / ((36 : Nat) : ℝ))), 0,
        Real.sin (((0 : Nat) : ℝ) * (2 * Real.pi / ((36 : Nat) : ℝ)))) ∧
      length3 (FloatOps.mk Real.pi Real.cos Real.sin Real.sqrt) v.normal ≠ 1 := by
  refine ⟨_, cylinder_vertexAt_top (FloatOps.mk Real.pi Real.cos Real.sin Real.sqrt) 36 2 2 0 (by decide), ?_, ?_, ?_, ?_⟩
  · simp only [Nat.cast_zero, zero_mul, Real.cos_zero, Real.sin_zero, mul_one, mul_zero]
  · rw [radial_normalize 2 _ (by norm_num)]
    simp only [Nat.cast_zero, zero_mul, Real.cos_zero, Real.sin_zero, mul_one, mul_zero, ne_eq,
      Prod.mk.injEq, and_true, OfNat.ofNat_ne_one, not_false_eq_true]
  · simp only [Nat.cast_zero, zero_mul, Real.cos_zero, Real.sin_zero, mul_one, mul_zero, ne_eq,
      Prod.mk.injEq, and_true, OfNat.ofNat_ne_one, not_false_eq_true]
  · rw [radial_length 2 _ (by norm_num)]
    norm_num

/-- C16, amended: for every `segments >= 3`, `radius > 0` and `height > 0`,
the normal stored for each rim vertex (top and bottom, every `i`) is the raw
vector `(x, 0, z)` with `x = radius*cos(angle)`, `z = radius*sin(angle)`,
independent of height; `normalize((x, 0, z))` is the unit radial direction
`(cos(angle), 0, sin(angle))`, and the stored normal equals it when
`radius = 1`. -/
theorem C16_cylinder_rim_normals (segments : Nat) (radius height : ℝ) (i : Nat)
    (_h : 3 ≤ segments) (hr : 0 < radius) (_hh : 0 < height) (hi : i ≤ segments) :
    ∃ top bottom : Vertex ℝ,
      vertexAt (UCreateCylinder.vertices (FloatOps.mk Real.pi Real.cos Real.sin Real.sqrt) segments radius height) (2 * i) = some top ∧
      vertexAt (UCreateCylinder.vertices (FloatOps.mk Real.pi Real.cos Real.sin Real.sqrt) segments radius height) (2 * i + 1) =
        some bottom ∧
      top.normal =
        (radius * Real.cos ((i : ℝ) * (2 * Real.pi / (segments : ℝ))), 0,
          radius * Real.sin ((i : ℝ) * (2 * Real.pi / (segments : ℝ)))) ∧
      bottom.normal = top.normal ∧
      normalize (FloatOps.mk Real.pi Real.cos Real.sin Real.sqrt) (top.position.1, 0, top.position.2.2) =
        (Real.cos ((i : ℝ) * (2 * Real.pi / (segments : ℝ))), 0,
          Real.sin ((i : ℝ) * (2 * Real.pi / (segments : ℝ)))) ∧
      (radius = 1 →
        top.normal = normalize (FloatOps.mk Real.pi Real.cos Real.sin Real.sqrt) (top.position.1, 0, top.position.2.2) ∧
        bottom.normal = normalize (FloatOps.mk Real.pi Real.cos Real.sin Real.sqrt) (bottom.position.1, 0, bottom.position.2.2)) := by
  refine ⟨_, _, cylinder_vertexAt_top (FloatOps.mk Real.pi Real.cos Real.sin Real.sqrt) segments radius height i hi,
    cylinder_vertexAt_bottom (FloatOps.mk Real.pi Real.cos Real.sin Real.sqrt) segments radius height i hi, rfl, rfl, ?_, ?_⟩
  · exact radial_normalize radius _ hr
  · intro h1
    subst h1
    constructor
    · show _ = normalize (FloatOps.mk Real.pi Real.cos Real.sin Real.sqrt) (_, 0, _)
      rw [radial_normalize 1 _ one_pos]
      simp only [one_mul]
    · show _ = normalize (FloatOps.mk Real.pi Real.cos Real.sin Real.sqrt) (_, 0, _)
      rw [radial_normalize 1 _ one_pos]
      simp only [one_mul]

/-- Witness of the amended C16: rim iteration 9 of the shipped cylinder. -/
theorem C16_cylinder_rim_normals_witness :
    3 ≤ 36 ∧ (0 : ℝ) < 1 ∧ (0 : ℝ) < 2 ∧ 9 ≤ 36 ∧
    ∃ top bottom : Vertex ℝ,
      vertexAt (UCreateCylinder.vertices (FloatOps.mk Real.pi Real.cos Real.sin Real.sqrt) 36 1 2) (2 * 9) = some top ∧
      vertexAt (UCreateCylinder.vertices (FloatOps.mk Real.pi Real.cos Real.sin Real.sqrt) 36 1 2) (2 * 9 + 1) = some bottom ∧
      top.normal =
        (1 * Real.cos (((9 : Nat) : ℝ) * (2 * Real.pi / ((36 : Nat) : ℝ))), 0,
          1 * Real.sin (((9 : Nat) : ℝ) * (2 * Real.pi / ((36 : Nat) : ℝ)))) ∧
      bottom.normal = top.normal ∧
      normalize (FloatOps.mk Real.pi Real.cos Real.sin Real.sqrt) (top.position.1, 0, top.position.2.2) =
        (Real.cos (((9 : Nat) : ℝ) * (2 * Real.pi / ((36 : Nat) : ℝ))), 0,
          Real.sin (((9 : Nat) : ℝ) * (2 * Real.pi / ((36 : Nat) : ℝ)))) ∧
      ((1 : ℝ) = 1 →
        top.normal = normalize (FloatOps.mk Real.pi Real.cos Real.sin Real.sqrt) (top.position.1, 0, top.position.2.2) ∧
        bottom.normal = normalize (FloatOps.mk Real.pi Real.cos Real.sin Real.sqrt) (bottom.position.1, 0, bottom.position.2.2)) :=
  ⟨by decide, by norm_num, by norm_num, by decide,
    C16_cylinder_rim_normals 36 1 2 9 (by decide) (by norm_num) (by norm_num) (by decide)⟩

/-- C17: the cylinder generator stores the raw vector `(x, 0, z)` as the
rim-vertex normal without renormalising, so for every `radius > 0` and every
rim vertex the stored normal has Euclidean length exactly `radius` over the
reals; it is unit-length if and only if `radius = 1`, which holds for the
shipped `radius = 1.0`. -/
theorem C17_cylinder_raw_normals (segments : Nat) (radius height : ℝ) (i : Nat)
    (hr : 0 < radius) (hi : i ≤ segments) :
    ∃ top bottom : Vertex ℝ,
      vertexAt (UCreateCylinder.vertices (FloatOps.mk Real.pi Real.cos Real.sin Real.sqrt) segments radius height) (2 * i) = some top ∧
      vertexAt (UCreateCylinder.vertices (FloatOps.mk Real.pi Real.cos Real.sin Real.sqrt) segments radius height) (2 * i + 1) =
        some bottom ∧
      top.normal = (top.position.1, 0, top.position.2.2) ∧
      bottom.normal = (bottom.position.1, 0, bottom.position.2.2) ∧
      length3 (FloatOps.mk Real.pi Real.cos Real.sin Real.sqrt) top.normal = radius ∧
      length3 (FloatOps.mk Real.pi Real.cos Real.sin Real.sqrt) bottom.normal = radius ∧
      (length3 (FloatOps.mk Real.pi Real.cos Real.sin Real.sqrt) top.normal = 1 ↔ radius = 1) ∧
      (length3 (FloatOps.mk Real.pi Real.cos Real.sin Real.sqrt) bottom.normal = 1 ↔ radius = 1) ∧
      (UCreateCylinder.radius : ℝ) = 1 := by
  obtain ⟨top, bottom, htop, hbottom, hn, hb, hraw, hraw2⟩ :=
    cylinder_rim_normals (FloatOps.mk Real.pi Real.cos Real.sin Real.sqrt) segments radius height i hi
  have hlen : length3 (FloatOps.mk Real.pi Real.cos Real.sin Real.sqrt) top.normal = radius := by
    rw [hn]
    exact radial_length radius _ hr.le
  have hlen2 : length3 (FloatOps.mk Real.pi Real.cos Real.sin Real.sqrt) bottom.normal = radius := by rw [hb, hlen]
  exact ⟨top, bottom, htop, hbottom, hraw, hraw2, hlen, hlen2, by rw [hlen], by rw [hlen2],
    rfl⟩

/-- Witness of C17: rim iteration 9 of a cylinder of radius 3. -/
theorem C17_cylinder_raw_normals_witness :
    (0 : ℝ) < 3 ∧ 9 ≤ 36 ∧
    ∃ top bottom : Vertex ℝ,
      vertexAt (UCreateCylinder.vertices (FloatOps.mk Real.pi Real.cos Real.sin Real.sqrt) 36 3 2) (2 * 9) = some top ∧
      vertexAt (UCreateCylinder.vertices (FloatOps.mk Real.pi Real.cos Real.sin Real.sqrt) 36 3 2) (2 * 9 + 1) = some bottom ∧
      top.normal = (top.position.1, 0, top.position.2.2) ∧
      bottom.normal = (bottom.position.1, 0, bottom.position.2.2) ∧
      length3 (FloatOps.mk Real.pi Real.cos Real.sin Real.sqrt) top.normal = 3 ∧
      length3 (FloatOps.mk Real.pi Real.cos Real.sin Real.sqrt) bottom.normal = 3 ∧
      (length3 (FloatOps.mk Real.pi Real.cos Real.sin Real.sqrt) top.normal = 1 ↔ (3 : ℝ) = 1) ∧
      (length3 (FloatOps.mk Real.pi Real.cos Real.sin Real.sqrt) bottom.normal = 1 ↔ (3 : ℝ) = 1) ∧
      (UCreateCylinder.radius : ℝ) = 1 :=
  ⟨by norm_num, by decide,
    C17_cylinder_raw_normals 36 3 2 9 (by norm_num) (by decide)⟩

/-! ## Parameter validation -/

/-- With a negative `segments` no loop makes a pass: the run returns the two
cap-centre vertices and no index. -/
theorem cylinder_run_negative {α : Type} [Field α] (ops : FloatOps α) (segments : Int)
    (radius height : α) (hneg : segments < 0) :
    UCreateCylinder.run ops segments radius height =
      Except.ok ⟨UCreateCylinder.centerTopFloats height ++
        UCreateCylinder.centerBottomFloats height, []⟩ := by
  have hrim : (segments + 1).toNat = 0 := by omega
  have hloop : segments.toNat = 0 := by omega
  simp only [UCreateCylinder.run, hrim, hloop, List.range_zero, List.foldl_nil,
    List.nil_append]

/-- With a `segments` that is not negative the run returns the vectors
`vertices` and `indices` of the generator. -/
theorem cylinder_run_natCast {α : Type} [Field α] (ops : FloatOps α) (segments : Nat)
    (radius height : α) :
    UCreateCylinder.run ops (segments : Int) radius height =
      Except.ok ⟨UCreateCylinder.vertices ops segments radius height,
        UCreateCylinder.indices segments⟩ := rfl

/-! ## Attribute layout -/

/-- In a buffer of whole vertices, vertex `k` is read from the eight floats
`8k .. 8k+7`, in the order position, normal, UV. -/
theorem vertexAt_slice {α : Type} (buf : List α) (k : Nat) (hk : k < vertexCount buf) :
    ∃ v : Vertex α, vertexAt buf k = some v ∧
      (buf.drop (8 * k)).take 8 =
        [v.position.1, v.position.2.1, v.position.2.2,
         v.normal.1, v.normal.2.1, v.normal.2.2, v.uv.1, v.uv.2] := by
  have hlen : 8 * k + 8 ≤ buf.length := by
    have h1 : k + 1 ≤ buf.length / 8 := hk
    have h2 := Nat.mul_le_of_le_div 8 (k + 1) buf.length h1
    omega
  have hget : ∀ r (hr : r < 8), buf[8 * k + r]? = some (buf.get ⟨8 * k + r, by omega⟩) :=
    fun r hr => List.getElem?_eq_getElem (by omega)
  have hv := vertexAt_of_floats buf k
    [buf.get ⟨8 * k + 0, by omega⟩, buf.get ⟨8 * k + 1, by omega⟩,
     buf.get ⟨8 * k + 2, by omega⟩, buf.get ⟨8 * k + 3, by omega⟩,
     buf.get ⟨8 * k + 4, by omega⟩, buf.get ⟨8 * k + 5, by omega⟩,
     buf.get ⟨8 * k + 6, by omega⟩, buf.get ⟨8 * k + 7, by omega⟩]
    (fun r hr => by
      rw [hget r hr]
      interval_cases r <;> rfl)
    _ _ _ _ _ _ _ _ rfl
  refine ⟨_, hv, ?_⟩
  apply List.ext_getElem?
  intro r
  by_cases hr : r < 8
  · rw [List.getElem?_take_of_lt hr, List.getElem?_drop, hget r hr]
    interval_cases r <;> rfl
  · have h8 : 8 ≤ r := Nat.le_of_not_lt hr
    rw [List.getElem?_eq_none (by rw [List.length_take]; omega),
      List.getElem?_eq_none (by simpa using h8)]

/-- The three attribute pointers split the eight floats of vertex `k` into its
first three, its next three and its last two. -/
theorem fetchAttrib_of_slice {α : Type} (buf : List α) (k : Nat)
    (px py pz nx ny nz u v : α)
    (hslice : (buf.drop (8 * k)).take 8 = [px, py, pz, nx, ny, nz, u, v]) :
    attribPointers.map (fun p => fetchAttrib buf p k) =
      [[px, py, pz], [nx, ny, nz], [u, v]] := by
  have h0 : (32 * k + 0) / 4 = 8 * k := by omega
  have h3 : (32 * k + 12) / 4 = 8 * k + 3 := by omega
  have h6 : (32 * k + 24) / 4 = 8 * k + 6 := by omega
  have hpos : (buf.drop (8 * k)).take 3 = [px, py, pz] := by
    have h := congrArg (List.take 3) hslice
    rw [List.take_take] at h
    exact h
  have hnormal : (buf.drop (8 * k + 3)).take 3 = [nx, ny, nz] := by
    have h := congrArg (fun l => (l.drop 3).take 3) hslice
    simp only [List.drop_take, List.take_take, List.drop_drop] at h
    exact h
  have huv : (buf.drop (8 * k + 6)).take 2 = [u, v] := by
    have h := congrArg (fun l => (l.drop 6).take 2) hslice
    simp only [List.drop_take, List.take_take, List.drop_drop] at h
    exact h
  show [(buf.drop ((32 * k + 0) / 4)).take 3, (buf.drop ((32 * k + 12) / 4)).take 3,
    (buf.drop ((32 * k + 24) / 4)).take 2] = _
  rw [h0, h3, h6, hpos, hnormal, huv]

/-- The slice and the three attribute fetches of a vertex that `vertexAt`
reads. -/
theorem layout_of_vertexAt {α : Type} (buf : List α) (k : Nat) (hk : k < vertexCount buf)
    (v : Vertex α) (hv : vertexAt buf k = some v) :
    (buf.drop (8 * k)).take 8 =
        [v.position.1, v.position.2.1, v.position.2.2,
         v.normal.1, v.normal.2.1, v.normal.2.2, v.uv.1, v.uv.2] ∧
      attribPointers.map (fun p => fetchAttrib buf p k) =
        [[v.position.1, v.position.2.1, v.position.2.2],
         [v.normal.1, v.normal.2.1, v.normal.2.2], [v.uv.1, v.uv.2]] := by
  obtain ⟨w, hw, hslice⟩ := vertexAt_slice buf k hk
  rw [hv] at hw
  cases hw
  exact ⟨hslice, fetchAttrib_of_slice buf k _ _ _ _ _ _ _ _ hslice⟩

/-- C19: both generators produce a tightly interleaved float array of exactly
8 floats per vertex in the fixed order position (3), normal (3), UV (2): the
array has length `8 * vertexCount`, every vertex `k` occupies floats
`8k .. 8k+7`, and the layout descriptor computed from `floatsPerVertex`,
`floatsPerNormal`, `floatsPerUV` has stride 8 floats (32 bytes) with attribute
offsets 0, 3 and 6 floats (0, 12, 24 bytes) for attributes 0, 1 and 2.  Read
through the three pointers, every vertex of the cylinder (the two rim vertices
of each iteration `i <= segments` and the two cap centres) and every vertex of
the sphere (latitude `a`, longitude `b`, both `<= numSegments`) yields the
position the generator computed as attribute 0, its normal as attribute 1 and
its texture coordinates as attribute 2. -/
theorem C19_interleaved_layout {α : Type} [Field α] (ops : FloatOps α)
    (segments numSegments : Nat) (radius height sphereRadius : α) (i a b : Nat)
    (hi : i ≤ segments) (ha : a ≤ numSegments) (hb : b ≤ numSegments) :
    (UCreateCylinder.vertices ops segments radius height).length =
        8 * vertexCount (UCreateCylinder.vertices ops segments radius height) ∧
      (UCreateSphere.verts ops numSegments sphereRadius).length =
        8 * vertexCount (UCreateSphere.verts ops numSegments sphereRadius) ∧
      (∀ k, k < vertexCount (UCreateCylinder.vertices ops segments radius height) →
        ∃ v : Vertex α,
          vertexAt (UCreateCylinder.vertices ops segments radius height) k = some v ∧
          ((UCreateCylinder.vertices ops segments radius height).drop (8 * k)).take 8 =
            [v.position.1, v.position.2.1, v.position.2.2,
             v.normal.1, v.normal.2.1, v.normal.2.2, v.uv.1, v.uv.2] ∧
          attribPointers.map (fun p => fetchAttrib (UCreateCylinder.vertices ops segments radius
              height) p k) =
            [[v.position.1, v.position.2.1, v.position.2.2],
             [v.normal.1, v.normal.2.1, v.normal.2.2], [v.uv.1, v.uv.2]]) ∧
      (∀ k, k < vertexCount (UCreateSphere.verts ops numSegments sphereRadius) →
        ∃ v : Vertex α,
          vertexAt (UCreateSphere.verts ops numSegments sphereRadius) k = some v ∧
          ((UCreateSphere.verts ops numSegments sphereRadius).drop (8 * k)).take 8 =
            [v.position.1, v.position.2.1, v.position.2.2,
             v.normal.1, v.normal.2.1, v.normal.2.2, v.uv.1, v.uv.2] ∧
          attribPointers.map (fun p => fetchAttrib (UCreateSphere.verts ops numSegments
              sphereRadius) p k) =
            [[v.position.1, v.position.2.1, v.position.2.2],
             [v.normal.1, v.normal.2.1, v.normal.2.2], [v.uv.1, v.uv.2]]) ∧
      attribPointers.map
          (fun p => fetchAttrib (UCreateCylinder.vertices ops segments radius height) p (2 * i)) =
        [[radius * ops.cos ((i : α) * (2 * ops.pi / (segments : α))),
          height / 2,
          radius * ops.sin ((i : α) * (2 * ops.pi / (segments : α)))],
         [radius * ops.cos ((i : α) * (2 * ops.pi / (segments : α))),
          0,
          radius * ops.sin ((i : α) * (2 * ops.pi / (segments : α)))],
         [(i : α) / (segments : α), 1]] ∧
      attribPointers.map
          (fun p => fetchAttrib (UCreateCylinder.vertices ops segments radius height) p (2 * i +
              1)) =
        [[radius * ops.cos ((i : α) * (2 * ops.pi / (segments : α))),
          -height / 2,
          radius * ops.sin ((i : α) * (2 * ops.pi / (segments : α)))],
         [radius * ops.cos ((i : α) * (2 * ops.pi / (segments : α))),
          0,
          radius * ops.sin ((i : α) * (2 * ops.pi / (segments : α)))],
         [(i : α) / (segments : α), 0]] ∧
      attribPointers.map
          (fun p => fetchAttrib (UCreateCylinder.vertices ops segments radius height) p
              (UCreateCylinder.centerTopIndex segments)) =
        [[0, height / 2, 0],
         [0, 1, 0],
         [1 / 2, 1 / 2]] ∧
      attribPointers.map
          (fun p => fetchAttrib (UCreateCylinder.vertices ops segments radius height) p
              (UCreateCylinder.centerBottomIndex segments)) =
        [[0, -height / 2, 0],
         [0, -1, 0],
         [1 / 2, 1 / 2]] ∧
      attribPointers.map
          (fun p => fetchAttrib (UCreateSphere.verts ops numSegments sphereRadius) p (a *
              (numSegments + 1) + b)) =
        [[sphereRadius * (ops.cos (radians ops ((b : α) * 360 / (numSegments : α))) * ops.sin
            (radians ops (180 - ((a : α) * 180 / (numSegments : α))))),
          sphereRadius * ops.cos (radians ops (180 - ((a : α) * 180 / (numSegments : α)))),
          sphereRadius * (ops.sin (radians ops ((b : α) * 360 / (numSegments : α))) * ops.sin
              (radians ops (180 - ((a : α) * 180 / (numSegments : α)))))],
         [(normalize ops
            (ops.cos (radians ops ((b : α) * 360 / (numSegments : α))) * ops.sin (radians ops (180
                - ((a : α) * 180 / (numSegments : α)))),
             ops.cos (radians ops (180 - ((a : α) * 180 / (numSegments : α)))),
             ops.sin (radians ops ((b : α) * 360 / (numSegments : α))) * ops.sin (radians ops (180
                 - ((a : α) * 180 / (numSegments : α)))))).1,
          (normalize ops
            (ops.cos (radians ops ((b : α) * 360 / (numSegments : α))) * ops.sin (radians ops (180
                - ((a : α) * 180 / (numSegments : α)))),
             ops.cos (radians ops (180 - ((a : α) * 180 / (numSegments : α)))),
             ops.sin (radians ops ((b : α) * 360 / (numSegments : α))) * ops.sin (radians ops (180
                 - ((a : α) * 180 / (numSegments : α)))))).2.1,
          (normalize ops
            (ops.cos (radians ops ((b : α) * 360 / (numSegments : α))) * ops.sin (radians ops (180
                - ((a : α) * 180 / (numSegments : α)))),
             ops.cos (radians ops (180 - ((a : α) * 180 / (numSegments : α)))),
             ops.sin (radians ops ((b : α) * 360 / (numSegments : α))) * ops.sin (radians ops (180
                 - ((a : α) * 180 / (numSegments : α)))))).2.2],
         [(b : α) / (numSegments : α), (a : α) / (numSegments : α)]] ∧
      strideFloats = 8 ∧ stride = 32 ∧ stride = sizeofFloat * strideFloats ∧
      attribPointers = [⟨0, 3, 32, 0⟩, ⟨1, 3, 32, 12⟩, ⟨2, 2, 32, 24⟩] ∧
      attribPointers.map (fun a => a.offset / sizeofFloat) = [0, 3, 6] := by
  have hcount1 := cylinder_vertexCount_vertices ops segments radius height
  have hcount2 := sphere_vertexCount_verts ops numSegments sphereRadius
  have hgeneral : ∀ (buf : List α) (k : Nat), k < vertexCount buf →
      ∃ v : Vertex α, vertexAt buf k = some v ∧
        (buf.drop (8 * k)).take 8 =
          [v.position.1, v.position.2.1, v.position.2.2,
           v.normal.1, v.normal.2.1, v.normal.2.2, v.uv.1, v.uv.2] ∧
        attribPointers.map (fun p => fetchAttrib buf p k) =
          [[v.position.1, v.position.2.1, v.position.2.2],
           [v.normal.1, v.normal.2.1, v.normal.2.2], [v.uv.1, v.uv.2]] := by
    intro buf k hk
    obtain ⟨v, hv, _⟩ := vertexAt_slice buf k hk
    exact ⟨v, hv, layout_of_vertexAt buf k hk v hv⟩
  have hsphere : a * (numSegments + 1) + b < (numSegments + 1) ^ 2 := by
    have h1 : a * (numSegments + 1) + (numSegments + 1) ≤
        (numSegments + 1) * (numSegments + 1) := by
      have h2 := Nat.mul_le_mul_right (numSegments + 1) (Nat.succ_le_succ ha)
      rw [Nat.succ_mul] at h2
      exact h2
    rw [Nat.pow_two]
    omega
  refine ⟨?_, ?_, fun k hk => hgeneral _ k hk, fun k hk => hgeneral _ k hk,
    (layout_of_vertexAt _ _ (by rw [hcount1]; omega) _
      (cylinder_vertexAt_top ops segments radius height i hi)).2,
    (layout_of_vertexAt _ _ (by rw [hcount1]; omega) _
      (cylinder_vertexAt_bottom ops segments radius height i hi)).2,
    (layout_of_vertexAt _ _ (by rw [hcount1]; simp only [UCreateCylinder.centerTopIndex]; omega) _
      (cylinder_vertexAt_centerTop ops segments radius height)).2,
    (layout_of_vertexAt _ _ (by
        rw [hcount1]
        simp only [UCreateCylinder.centerBottomIndex, UCreateCylinder.centerTopIndex]
        omega) _
      (cylinder_vertexAt_centerBottom ops segments radius height)).2,
    (layout_of_vertexAt _ _ (by rw [hcount2]; exact hsphere) _
      (sphere_vertexAt ops numSegments sphereRadius a b ha hb)).2,
    rfl, rfl, rfl, rfl, rfl⟩
  · rw [hcount1, cylinder_length_vertices]
  · rw [hcount2, sphere_length_verts]

/-- Witness of C19: rim iteration 5 of the shipped cylinder (36 segments,
radius 1, height 2) and the vertex at latitude 3, longitude 7 of the shipped
sphere (16 segments, radius 1/2). -/
theorem C19_interleaved_layout_witness :
    5 ≤ 36 ∧ 3 ≤ 16 ∧ 7 ≤ 16 ∧
    (UCreateCylinder.vertices (FloatOps.mk Real.pi Real.cos Real.sin Real.sqrt) 36 1 2).length =
        8 * vertexCount (UCreateCylinder.vertices (FloatOps.mk Real.pi Real.cos Real.sin Real.sqrt)
            36 1 2) ∧
      (UCreateSphere.verts (FloatOps.mk Real.pi Real.cos Real.sin Real.sqrt) 16 (1 / 2)).length =
        8 * vertexCount (UCreateSphere.verts (FloatOps.mk Real.pi Real.cos Real.sin Real.sqrt) 16
            (1 / 2)) ∧
      (∀ k, k < vertexCount (UCreateCylinder.vertices (FloatOps.mk Real.pi Real.cos Real.sin
          Real.sqrt) 36 1 2) →
        ∃ v : Vertex ℝ,
          vertexAt (UCreateCylinder.vertices (FloatOps.mk Real.pi Real.cos Real.sin Real.sqrt) 36 1
              2) k = some v ∧
          ((UCreateCylinder.vertices (FloatOps.mk Real.pi Real.cos Real.sin Real.sqrt) 36 1 2).drop
              (8 * k)).take 8 =
            [v.position.1, v.position.2.1, v.position.2.2,
             v.normal.1, v.normal.2.1, v.normal.2.2, v.uv.1, v.uv.2] ∧
          attribPointers.map (fun p => fetchAttrib (UCreateCylinder.vertices (FloatOps.mk Real.pi
              Real.cos Real.sin Real.sqrt) 36 1 2) p k) =
            [[v.position.1, v.position.2.1, v.position.2.2],
             [v.normal.1, v.normal.2.1, v.normal.2.2], [v.uv.1, v.uv.2]]) ∧
      (∀ k, k < vertexCount (UCreateSphere.verts (FloatOps.mk Real.pi Real.cos Real.sin Real.sqrt)
          16 (1 / 2)) →
        ∃ v : Vertex ℝ,
          vertexAt (UCreateSphere.verts (FloatOps.mk Real.pi Real.cos Real.sin Real.sqrt) 16 (1 /
              2)) k = some v ∧
          ((UCreateSphere.verts (FloatOps.mk Real.pi Real.cos Real.sin Real.sqrt) 16 (1 / 2)).drop
              (8 * k)).take 8 =
            [v.position.1, v.position.2.1, v.position.2.2,
             v.normal.1, v.normal.2.1, v.normal.2.2, v.uv.1, v.uv.2] ∧
          attribPointers.map (fun p => fetchAttrib (UCreateSphere.verts (FloatOps.mk Real.pi
              Real.cos Real.sin Real.sqrt) 16 (1 / 2)) p k) =
            [[v.position.1, v.position.2.1, v.position.2.2],
             [v.normal.1, v.normal.2.1, v.normal.2.2], [v.uv.1, v.uv.2]]) ∧
      attribPointers.map
          (fun p => fetchAttrib (UCreateCylinder.vertices (FloatOps.mk Real.pi Real.cos Real.sin
              Real.sqrt) 36 1 2) p (2 * 5)) =
        [[1 * Real.cos (((5 : Nat) : ℝ) * (2 * Real.pi / ((36 : Nat) : ℝ))),
          2 / 2,
          1 * Real.sin (((5 : Nat) : ℝ) * (2 * Real.pi / ((36 : Nat) : ℝ)))],
         [1 * Real.cos (((5 : Nat) : ℝ) * (2 * Real.pi / ((36 : Nat) : ℝ))),
          0,
          1 * Real.sin (((5 : Nat) : ℝ) * (2 * Real.pi / ((36 : Nat) : ℝ)))],
         [((5 : Nat) : ℝ) / ((36 : Nat) : ℝ), 1]] ∧
      attribPointers.map
          (fun p => fetchAttrib (UCreateCylinder.vertices (FloatOps.mk Real.pi Real.cos Real.sin
              Real.sqrt) 36 1 2) p (2 * 5 + 1)) =
        [[1 * Real.cos (((5 : Nat) : ℝ) * (2 * Real.pi / ((36 : Nat) : ℝ))),
          -2 / 2,
          1 * Real.sin (((5 : Nat) : ℝ) * (2 * Real.pi / ((36 : Nat) : ℝ)))],
         [1 * Real.cos (((5 : Nat) : ℝ) * (2 * Real.pi / ((36 : Nat) : ℝ))),
          0,
          1 * Real.sin (((5 : Nat) : ℝ) * (2 * Real.pi / ((36 : Nat) : ℝ)))],
         [((5 : Nat) : ℝ) / ((36 : Nat) : ℝ), 0]] ∧
      attribPointers.map
          (fun p => fetchAttrib (UCreateCylinder.vertices (FloatOps.mk Real.pi Real.cos Real.sin
              Real.sqrt) 36 1 2) p (UCreateCylinder.centerTopIndex 36)) =
        [[0, 2 / 2, 0],
         [0, 1, 0],
         [1 / 2, 1 / 2]] ∧
      attribPointers.map
          (fun p => fetchAttrib (UCreateCylinder.vertices (FloatOps.mk Real.pi Real.cos Real.sin
              Real.sqrt) 36 1 2) p (UCreateCylinder.centerBottomIndex 36)) =
        [[0, -2 / 2, 0],
         [0, -1, 0],
         [1 / 2, 1 / 2]] ∧
      attribPointers.map
          (fun p => fetchAttrib (UCreateSphere.verts (FloatOps.mk Real.pi Real.cos Real.sin
              Real.sqrt) 16 (1 / 2)) p (3 * (16 + 1) + 7)) =
        [[(1 / 2) * (Real.cos (radians (FloatOps.mk Real.pi Real.cos Real.sin Real.sqrt) (((7 :
            Nat) : ℝ) * 360 / ((16 : Nat) : ℝ))) * Real.sin (radians (FloatOps.mk Real.pi Real.cos
            Real.sin Real.sqrt) (180 - (((3 : Nat) : ℝ) * 180 / ((16 : Nat) : ℝ))))),
          (1 / 2) * Real.cos (radians (FloatOps.mk Real.pi Real.cos Real.sin Real.sqrt) (180 - (((3
              : Nat) : ℝ) * 180 / ((16 : Nat) : ℝ)))),
          (1 / 2) * (Real.sin (radians (FloatOps.mk Real.pi Real.cos Real.sin Real.sqrt) (((7 :
              Nat) : ℝ) * 360 / ((16 : Nat) : ℝ))) * Real.sin (radians (FloatOps.mk Real.pi
              Real.cos Real.sin Real.sqrt) (180 - (((3 : Nat) : ℝ) * 180 / ((16 : Nat) : ℝ)))))],
         [(normalize (FloatOps.mk Real.pi Real.cos Real.sin Real.sqrt)
            (Real.cos (radians (FloatOps.mk Real.pi Real.cos Real.sin Real.sqrt) (((7 : Nat) : ℝ) *
                360 / ((16 : Nat) : ℝ))) * Real.sin (radians (FloatOps.mk Real.pi Real.cos Real.sin
                Real.sqrt) (180 - (((3 : Nat) : ℝ) * 180 / ((16 : Nat) : ℝ)))),
             Real.cos (radians (FloatOps.mk Real.pi Real.cos Real.sin Real.sqrt) (180 - (((3 : Nat)
                 : ℝ) * 180 / ((16 : Nat) : ℝ)))),
             Real.sin (radians (FloatOps.mk Real.pi Real.cos Real.sin Real.sqrt) (((7 : Nat) : ℝ) *
                 360 / ((16 : Nat) : ℝ))) * Real.sin (radians (FloatOps.mk Real.pi Real.cos
                 Real.sin Real.sqrt) (180 - (((3 : Nat) : ℝ) * 180 / ((16 : Nat) : ℝ)))))).1,
          (normalize (FloatOps.mk Real.pi Real.cos Real.sin Real.sqrt)
            (Real.cos (radians (FloatOps.mk Real.pi Real.cos Real.sin Real.sqrt) (((7 : Nat) : ℝ) *
                360 / ((16 : Nat) : ℝ))) * Real.sin (radians (FloatOps.mk Real.pi Real.cos Real.sin
                Real.sqrt) (180 - (((3 : Nat) : ℝ) * 180 / ((16 : Nat) : ℝ)))),
             Real.cos (radians (FloatOps.mk Real.pi Real.cos Real.sin Real.sqrt) (180 - (((3 : Nat)
                 : ℝ) * 180 / ((16 : Nat) : ℝ)))),
             Real.sin (radians (FloatOps.mk Real.pi Real.cos Real.sin Real.sqrt) (((7 : Nat) : ℝ) *
                 360 / ((16 : Nat) : ℝ))) * Real.sin (radians (FloatOps.mk Real.pi Real.cos
                 Real.sin Real.sqrt) (180 - (((3 : Nat) : ℝ) * 180 / ((16 : Nat) : ℝ)))))).2.1,
          (normalize (FloatOps.mk Real.pi Real.cos Real.sin Real.sqrt)
            (Real.cos (radians (FloatOps.mk Real.pi Real.cos Real.sin Real.sqrt) (((7 : Nat) : ℝ) *
                360 / ((16 : Nat) : ℝ))) * Real.sin (radians (FloatOps.mk Real.pi Real.cos Real.sin
                Real.sqrt) (180 - (((3 : Nat) : ℝ) * 180 / ((16 : Nat) : ℝ)))),
             Real.cos (radians (FloatOps.mk Real.pi Real.cos Real.sin Real.sqrt) (180 - (((3 : Nat)
                 : ℝ) * 180 / ((16 : Nat) : ℝ)))),
             Real.sin (radians (FloatOps.mk Real.pi Real.cos Real.sin Real.sqrt) (((7 : Nat) : ℝ) *
                 360 / ((16 : Nat) : ℝ))) * Real.sin (radians (FloatOps.mk Real.pi Real.cos
                 Real.sin Real.sqrt) (180 - (((3 : Nat) : ℝ) * 180 / ((16 : Nat) : ℝ)))))).2.2],
         [((7 : Nat) : ℝ) / ((16 : Nat) : ℝ),
          ((3 : Nat) : ℝ) / ((16 : Nat) : ℝ)]] ∧
      strideFloats = 8 ∧ stride = 32 ∧ stride = sizeofFloat * strideFloats ∧
      attribPointers = [⟨0, 3, 32, 0⟩, ⟨1, 3, 32, 12⟩, ⟨2, 2, 32, 24⟩] ∧
      attribPointers.map (fun a => a.offset / sizeofFloat) = [0, 3, 6] :=
  ⟨by decide, by decide, by decide,
    C19_interleaved_layout (FloatOps.mk Real.pi Real.cos Real.sin Real.sqrt) 36 16 1 2 (1 / 2) 5 3 7
      (by decide) (by decide) (by decide)⟩

/-! ## Cube: bounding box -/

set_option maxRecDepth 4000 in
/-- The cube literal has 288 floats. -/
theorem cube_length_verts {α : Type} [Field α] :
    (UCreateCube.verts (α := α)).length = 288 := rfl

/-- The cube literal has 36 vertices. -/
theorem cube_vertexCount_verts {α : Type} [Field α] :
    vertexCount (UCreateCube.verts (α := α)) = 36 := by
  unfold vertexCount
  rw [cube_length_verts]
  rfl

/-- The 36 positions of the cube literal, in buffer order. -/
theorem cube_positions {α : Type} [Field α] :
    positions (UCreateCube.verts (α := α)) =
  [(0.5, -0.5, 0.0),
   (-0.5, -0.5, 0.0),
   (-0.5, -0.5, -1.0),
   (0.5, -0.5, 0.0),
   (0.5, -0.5, -1.0),
   (-0.5, -0.5, -1.0),
   (-0.5, 0.5, 0.0),
   (-0.5, 0.5, -1.0),
   (-0.5, -0.5, -1.0),
   (-0.5, 0.5, 0.0),
   (-0.5, -0.5, 0.0),
   (-0.5, -0.5, -1.0),
   (0.5, 0.5, -1.0),
   (0.5, 0.5, 0.0),
   (0.5, -0.5, 0.0),
   (0.5, 0.5, -1.0),
   (0.5, -0.5, -1.0),
   (0.5, -0.5, 0.0),
   (0.5, 0.5, 0.0),
   (-0.5, 0.5, 0.0),
   (-0.5, 0.5, -1.0),
   (0.5, 0.5, 0.0),
   (0.5, 0.5, -1.0),
   (-0.5, 0.5, -1.0),
   (0.5, 0.5, -1.0),
   (-0.5, 0.5, -1.0),
   (-0.5, -0.5, -1.0),
   (0.5, 0.5, -1.0),
   (0.5, -0.5, -1.0),
   (-0.5, -0.5, -1.0),
   (0.5, 0.5, 0.0),
   (-0.5, 0.5, 0.0),
   (-0.5, -0.5, 0.0),
   (0.5, 0.5, 0.0),
   (0.5, -0.5, 0.0),
   (-0.5, -0.5, 0.0)] := by
  unfold positions
  rw [cube_vertexCount_verts]
  rfl

/-- C20: evaluation of the cube literal.  On the x and y axes the least and
greatest position coordinates are `-0.5` and `0.5`, negatives of each other; on
the z axis they are `-1` and `0`, which are not: the bounding box of the 36
vertices is centred at `(0, 0, -0.5)`, not at the origin. -/
theorem C20_cube_bounding_box :
    vertexCount (UCreateCube.verts (α := ℝ)) = 36 ∧
    axisMin ((positions (UCreateCube.verts (α := ℝ))).map (fun p => p.1)) = some (-0.5) ∧
    axisMax ((positions (UCreateCube.verts (α := ℝ))).map (fun p => p.1)) = some 0.5 ∧
    axisMin ((positions (UCreateCube.verts (α := ℝ))).map (fun p => p.2.1)) = some (-0.5) ∧
    axisMax ((positions (UCreateCube.verts (α := ℝ))).map (fun p => p.2.1)) = some 0.5 ∧
    axisMin ((positions (UCreateCube.verts (α := ℝ))).map (fun p => p.2.2)) = some (-1) ∧
    axisMax ((positions (UCreateCube.verts (α := ℝ))).map (fun p => p.2.2)) = some 0 ∧
    axisMax ((positions (UCreateCube.verts (α := ℝ))).map (fun p => p.2.2)) ≠
      (axisMin ((positions (UCreateCube.verts (α := ℝ))).map (fun p => p.2.2))).map
        (fun m => -m) := by
  refine ⟨cube_vertexCount_verts, ?_⟩
  rw [cube_positions]
  simp only [List.map, axisMin, axisMax, List.foldl, Option.map_some']
  norm_num

/-! ## Camera callbacks -/

/-- C22: after every call of `UMouseScrollCallback`, for every prior
`cameraSpeed` and every scroll offset `yoffset` (over the reals), the camera
speed satisfies `1 <= cameraSpeed <= 10`; it equals the prior speed plus
`yoffset` whenever that sum already lies in `[1, 10]`. -/
theorem C22_scroll_speed_clamped (cameraSpeed yoffset : ℝ) :
    1 ≤ UMouseScrollCallback cameraSpeed yoffset ∧
      UMouseScrollCallback cameraSpeed yoffset ≤ 10 ∧
      (1 ≤ cameraSpeed + yoffset → cameraSpeed + yoffset ≤ 10 →
        UMouseScrollCallback cameraSpeed yoffset = cameraSpeed + yoffset) := by
  simp only [UMouseScrollCallback]
  refine ⟨?_, ?_, ?_⟩
  · split_ifs <;> linarith
  · split_ifs <;> linarith
  · intro hlo hhi
    rw [if_neg (not_lt.mpr hlo), if_neg (not_lt.mpr hhi)]

/-- Witness of C22: the initial speed 2.5 scrolled up by 3. -/
theorem C22_scroll_speed_clamped_witness :
    (1 : ℝ) ≤ 2.5 + 3 ∧ (2.5 : ℝ) + 3 ≤ 10 ∧
      UMouseScrollCallback (2.5 : ℝ) 3 = 2.5 + 3 :=
  ⟨by norm_num, by norm_num,
    (C22_scroll_speed_clamped 2.5 3).2.2 (by norm_num) (by norm_num)⟩

/-- C23: after every call of `UMousePositionCallback`, for every prior camera
state and every mouse position (over the reals), the pitch satisfies
`-89 <= pitch <= 89`; and on the first mouse event (`firstMouse = true`) the
computed offsets are zero, so yaw and a pitch already within `[-89, 89]` are
left unchanged and `firstMouse` becomes false. -/
theorem C23_mouse_pitch_clamped (ops : FloatOps ℝ) (s : MouseState ℝ) (xpos ypos : ℝ) :
    -89 ≤ (UMousePositionCallback ops s xpos ypos).pitch ∧
      (UMousePositionCallback ops s xpos ypos).pitch ≤ 89 ∧
      (UMousePositionCallback ops s xpos ypos).firstMouse = false ∧
      (UMousePositionCallback ops s xpos ypos).lastX = xpos ∧
      (UMousePositionCallback ops s xpos ypos).lastY = ypos ∧
      (s.firstMouse = true →
        (UMousePositionCallback ops s xpos ypos).yaw = s.yaw ∧
        (-89 ≤ s.pitch → s.pitch ≤ 89 →
          (UMousePositionCallback ops s xpos ypos).pitch = s.pitch)) := by
  refine ⟨?_, ?_, ?_, rfl, rfl, ?_⟩
  · simp only [UMousePositionCallback]
    split_ifs <;> linarith
  · simp only [UMousePositionCallback]
    split_ifs <;> linarith
  · simp only [UMousePositionCallback]
    cases s.firstMouse <;> rfl
  · intro hfirst
    simp only [UMousePositionCallback, hfirst, if_true, sub_self, zero_mul, add_zero,
      true_and]
    intro hlo hhi
    rw [if_neg (not_lt.mpr hhi), if_neg (not_lt.mpr hlo)]

/-- Witness of C23: the first mouse event of the program, from the initial
globals (`yaw = -90`, `pitch = 0`, last position the window centre). -/
theorem C23_mouse_pitch_clamped_witness :
    (true = true) ∧ (-89 : ℝ) ≤ 0 ∧ (0 : ℝ) ≤ 89 ∧
      (UMousePositionCallback (FloatOps.mk Real.pi Real.cos Real.sin Real.sqrt)
        ⟨true, 400, 300, -90, 0, (0, 0, -1)⟩ 123 456).yaw = -90 ∧
      (UMousePositionCallback (FloatOps.mk Real.pi Real.cos Real.sin Real.sqrt)
        ⟨true, 400, 300, -90, 0, (0, 0, -1)⟩ 123 456).pitch = 0 :=
  ⟨rfl, by norm_num, by norm_num,
    ((C23_mouse_pitch_clamped (FloatOps.mk Real.pi Real.cos Real.sin Real.sqrt) ⟨true, 400, 300, -90, 0, (0, 0, -1)⟩ 123 456).2.2.2.2.2
      rfl).1,
    ((C23_mouse_pitch_clamped (FloatOps.mk Real.pi Real.cos Real.sin Real.sqrt) ⟨true, 400, 300, -90, 0, (0, 0, -1)⟩ 123 456).2.2.2.2.2
      rfl).2 (by norm_num) (by norm_num)⟩

/-! ## Image flip -/

/-- Inside the `int` range, 32-bit arithmetic is exact. -/
theorem wrapInt32_of_range (x : Int) (hlo : -2147483648 ≤ x) (hhi : x < 2147483648) :
    wrapInt32 x = x := by
  unfold wrapInt32
  omega

/-- A natural number below `2^31` is its own 32-bit value. -/
theorem wrapInt32_natCast (n : Nat) (h : n < 2147483648) : wrapInt32 (n : Int) = (n : Int) :=
  wrapInt32_of_range _ (by omega) (by omega)

/-- A read at a non-negative index is a list lookup. -/
theorem readAt_natCast {β : Type} (image : List β) (n : Nat) :
    readAt image (n : Int) = image[n]? := by
  simp only [readAt, Int.toNat_ofNat, if_pos (Int.ofNat_nonneg n)]

/-- Lookup after two stores. -/
theorem getElem?_set_set {β : Type} (image : List β) (i1 i2 : Nat) (a b : β)
    (h1 : i1 < image.length) (h2 : i2 < image.length) (q : Nat) :
    ((image.set i1 b).set i2 a)[q]? =
      if q = i2 then some a else if q = i1 then some b else image[q]? := by
  rw [List.getElem?_set, List.getElem?_set, List.length_set]
  by_cases c2 : i2 = q
  · rw [if_pos c2, if_pos h2, if_pos c2.symm]
  · rw [if_neg c2, if_neg (Ne.symm c2)]
    by_cases c1 : i1 = q
    · rw [if_pos c1, if_pos h1, if_pos c1.symm]
    · rw [if_neg c1, if_neg (Ne.symm c1)]

/-- The inner loop exchanges the `n` entries from `i1` with the `n` entries
from `i2`, when the two runs do not overlap and lie inside a buffer of fewer
than `2^31` entries. -/
theorem flipRow_spec {β : Type} (n : Nat) :
    ∀ (image : List β) (i1 i2 : Nat), i1 + n ≤ i2 → i2 + n ≤ image.length →
      image.length < 2147483648 →
      ∃ out, flipRow image (i1 : Int) (i2 : Int) n = some out ∧
        out.length = image.length ∧
        ∀ p, out[p]? =
          if i1 ≤ p ∧ p < i1 + n then image[p + (i2 - i1)]?
          else if i2 ≤ p ∧ p < i2 + n then image[p - (i2 - i1)]?
          else image[p]? := by
  induction n with
  | zero =>
    intro image i1 i2 _ _ _
    refine ⟨image, rfl, rfl, fun p => ?_⟩
    rw [if_neg (by omega), if_neg (by omega)]
  | succ n ih =>
    intro image i1 i2 h12 hlen hfit
    have ha : image[i1]? = some (image.get ⟨i1, by omega⟩) :=
      List.getElem?_eq_getElem (by omega)
    have hb : image[i2]? = some (image.get ⟨i2, by omega⟩) :=
      List.getElem?_eq_getElem (by omega)
    have hw1 : wrapInt32 ((i1 : Int) + 1) = ((i1 + 1 : Nat) : Int) := by
      rw [← wrapInt32_natCast (i1 + 1) (by omega)]
      rfl
    have hw2 : wrapInt32 ((i2 : Int) + 1) = ((i2 + 1 : Nat) : Int) := by
      rw [← wrapInt32_natCast (i2 + 1) (by omega)]
      rfl
    obtain ⟨out, hout, hlenout, hspec⟩ :=
      ih ((image.set i1 (image.get ⟨i2, by omega⟩)).set i2 (image.get ⟨i1, by omega⟩))
        (i1 + 1) (i2 + 1) (by omega) (by simp only [List.length_set]; omega)
        (by simp only [List.length_set]; exact hfit)
    refine ⟨out, ?_, ?_, fun p => ?_⟩
    · simp only [flipRow, readAt_natCast, ha, hb, Int.toNat_ofNat, hw1, hw2]
      exact hout
    · rw [hlenout, List.length_set, List.length_set]
    · have hset : ∀ q, ((image.set i1 (image.get ⟨i2, by omega⟩)).set i2
          (image.get ⟨i1, by omega⟩))[q]? =
            if q = i2 then image[i1]? else if q = i1 then image[i2]? else image[q]? := by
        intro q
        rw [ha, hb]
        exact getElem?_set_set image i1 i2 _ _ (by omega) (by omega) q
      have hd : i2 + 1 - (i1 + 1) = i2 - i1 := by omega
      rw [hspec p, hd]
      by_cases c1 : i1 + 1 ≤ p ∧ p < i1 + 1 + n
      · rw [if_pos c1, if_pos (by omega), hset, if_neg (by omega), if_neg (by omega)]
      · rw [if_neg c1]
        by_cases c2 : i2 + 1 ≤ p ∧ p < i2 + 1 + n
        · rw [if_pos c2, if_neg (by omega), if_pos (by omega), hset, if_neg (by omega),
            if_neg (by omega)]
        · rw [if_neg c2, hset]
          by_cases c3 : p = i2
          · rw [if_pos c3, if_neg (by omega), if_pos (by omega),
              show p - (i2 - i1) = i1 by omega]
          · rw [if_neg c3]
            by_cases c4 : p = i1
            · rw [if_pos c4, if_pos (by omega), show p + (i2 - i1) = i2 by omega]
            · rw [if_neg c4, if_neg (by omega), if_neg (by omega)]

/-- Rows below row `a` end before row `a` starts. -/
theorem row_step (j a R : Nat) (h : j < a) : j * R + R ≤ a * R := by
  have hmul : (j + 1) * R ≤ a * R := Nat.mul_le_mul_right R h
  rw [Nat.succ_mul] at hmul
  exact hmul

/-- The inner loop, started at the first entries of rows `a < b`, exchanges
these two rows and leaves the others. -/
theorem flipRow_rows {β : Type} (image : List β) (R h a b : Nat) (hab : a < b) (hb : b < h)
    (hlen : image.length = h * R) (hfit : h * R < 2147483648) :
    ∃ out, flipRow image ((a * R : Nat) : Int) ((b * R : Nat) : Int) R = some out ∧
      out.length = image.length ∧
      ∀ j k, j < h → k < R →
        out[j * R + k]? = image[(if j = a then b else if j = b then a else j) * R + k]? := by
  have hab1 := row_step a b R hab
  have hbh := row_step b h R hb
  obtain ⟨out, hout, hlenout, hspec⟩ :=
    flipRow_spec R image (a * R) (b * R) hab1 (by rw [hlen]; exact hbh)
      (by rw [hlen]; exact hfit)
  refine ⟨out, hout, hlenout, fun j k _ hk => ?_⟩
  rw [hspec]
  rcases Nat.lt_trichotomy j a with hja | hja | hja
  · have h1 := row_step j a R hja
    have hrow : (if j = a then b else if j = b then a else j) = j := by
      rw [if_neg (by omega), if_neg (by omega)]
    have c1 : ¬ (a * R ≤ j * R + k ∧ j * R + k < a * R + R) := by omega
    have c2 : ¬ (b * R ≤ j * R + k ∧ j * R + k < b * R + R) := by omega
    rw [hrow, if_neg c1, if_neg c2]
  · subst hja
    have hrow : (if j = j then b else if j = b then j else j) = b := if_pos rfl
    have c1 : j * R ≤ j * R + k ∧ j * R + k < j * R + R := by omega
    rw [hrow, if_pos c1]
    congr 1
    omega
  · have h1 := row_step a j R hja
    have c1 : ¬ (a * R ≤ j * R + k ∧ j * R + k < a * R + R) := by omega
    rw [if_neg c1]
    rcases Nat.lt_trichotomy j b with hjb | hjb | hjb
    · have h2 := row_step j b R hjb
      have hrow : (if j = a then b else if j = b then a else j) = j := by
        rw [if_neg (by omega), if_neg (by omega)]
      have c2 : ¬ (b * R ≤ j * R + k ∧ j * R + k < b * R + R) := by omega
      rw [hrow, if_neg c2]
    · subst hjb
      have hrow : (if j = a then j else if j = j then a else j) = a := by
        rw [if_neg (by omega), if_pos rfl]
      have c2 : j * R ≤ j * R + k ∧ j * R + k < j * R + R := by omega
      rw [hrow, if_pos c2]
      congr 1
      omega
    · have h2 := row_step b j R hjb
      have hrow : (if j = a then b else if j = b then a else j) = j := by
        rw [if_neg (by omega), if_neg (by omega)]
      have c2 : ¬ (b * R ≤ j * R + k ∧ j * R + k < b * R + R) := by omega
      rw [hrow, if_neg c2]

/-- Exchanging rows `m` and `height - 1 - m` after the first `m` pairs have
been exchanged gives the first `m + 1` pairs exchanged. -/
theorem flip_row_index (height m j : Nat) (hm : m + 1 ≤ height / 2) (hj : j < height) :
    (if (if j = m then height - 1 - m else if j = height - 1 - m then m else j) < m ∨
          height - m ≤ (if j = m then height - 1 - m else if j = height - 1 - m then m else j)
      then height - 1 - (if j = m then height - 1 - m else if j = height - 1 - m then m else j)
      else (if j = m then height - 1 - m else if j = height - 1 - m then m else j)) =
    (if j < m + 1 ∨ height - (m + 1) ≤ j then height - 1 - j else j) := by
  split_ifs <;> omega

/-- The `int` product `x * width * channels` is exact when `x * (width *
channels)` stays below `2^31`. -/
theorem flip_index_exact (x width channels : Nat)
    (hfit : x * (width * channels) < 2147483648) :
    wrapInt32 (wrapInt32 ((x : Int) * (width : Int)) * (channels : Int)) =
      ((x * (width * channels) : Nat) : Int) := by
  rcases Nat.eq_zero_or_pos channels with hc | hc
  · subst hc
    simp only [Nat.cast_zero, Int.mul_zero, Nat.mul_zero]
    rfl
  · have hxw : x * width ≤ x * (width * channels) := by
      rw [← Nat.mul_assoc]
      exact Nat.le_mul_of_pos_right _ hc
    rw [← Nat.cast_mul, wrapInt32_natCast (x * width) (by omega), ← Nat.cast_mul,
      Nat.mul_assoc, wrapInt32_natCast _ hfit]

/-- The `int` difference `height - 1 - j` is exact for `j < height < 2^31`. -/
theorem flip_mirror_exact (height j : Nat) (hj : j < height) (hh : height < 2147483648) :
    wrapInt32 (wrapInt32 ((height : Int) - 1) - (j : Int)) = ((height - 1 - j : Nat) : Int) := by
  rw [wrapInt32_of_range ((height : Int) - 1) (by omega) (by omega),
    wrapInt32_of_range ((height : Int) - 1 - (j : Int)) (by omega) (by omega)]
  omega

/-- One more pass of a loop over `0 .. m`. -/
theorem foldlM_range_succ_some {β : Type} (f : List β → Nat → Option (List β))
    (x y z : List β) (m : Nat) (h1 : (List.range m).foldlM f x = some y)
    (h2 : f y m = some z) : (List.range (m + 1)).foldlM f x = some z := by
  rw [List.range_succ, List.foldlM_append, h1]
  simp only [Option.bind_eq_bind, Option.some_bind, List.foldlM_cons, List.foldlM_nil, h2]
  rfl

/-- The inner loop depends only on the values of its start indices and count. -/
theorem flipRow_congr {β : Type} (image : List β) (a a2 b b2 : Int) (n n2 : Nat)
    (ha : a = a2) (hb : b = b2) (hn : n = n2) :
    flipRow image a b n = flipRow image a2 b2 n2 := by
  subst ha hb hn
  rfl

/-- The `int` index `(height - 1 - j) * width * channels` is exact when the
mirrored row starts below `2^31`. -/
theorem flip_index2_exact (height j width channels : Nat) (hj : j < height)
    (hh : height < 2147483648)
    (hfit : (height - 1 - j) * (width * channels) < 2147483648) :
    wrapInt32 (wrapInt32 (wrapInt32 (wrapInt32 ((height : Int) - 1) - (j : Int)) *
      (width : Int)) * (channels : Int)) =
      (((height - 1 - j) * (width * channels) : Nat) : Int) :=
  (congrArg (fun t => wrapInt32 (wrapInt32 (t * (width : Int)) * (channels : Int)))
    (flip_mirror_exact height j hj hh)).trans
    (flip_index_exact (height - 1 - j) width channels hfit)

/-- The `int` count `width * channels` is exact below `2^31`. -/
theorem flip_count_exact (width channels : Nat) (hfit : width * channels < 2147483648) :
    (wrapInt32 ((width : Int) * (channels : Int))).toNat = width * channels := by
  rw [← Nat.cast_mul, wrapInt32_natCast (width * channels) hfit, Int.toNat_ofNat]

/-- After `m` passes of the outer loop the first `m` rows are exchanged with
the last `m` rows, pairwise, and the rows in between are untouched; no `int`
overflows while the buffer has fewer than `2^31` bytes. -/
theorem flipLoop_spec {β : Type} (image : List β) (width height channels : Nat)
    (hh : height < 2147483648) (hfit : height * (width * channels) < 2147483648)
    (hlen : image.length = height * (width * channels)) (m : Nat) (hm : m ≤ height / 2) :
    ∃ out,
      (List.range m).foldlM
          (fun image (j : Nat) =>
            flipRow image
              (wrapInt32 (wrapInt32 ((j : Int) * (width : Int)) * (channels : Int)))
              (wrapInt32 (wrapInt32 (wrapInt32 (wrapInt32 ((height : Int) - 1) - (j : Int)) *
                (width : Int)) * (channels : Int)))
              (wrapInt32 ((width : Int) * (channels : Int))).toNat) image = some out ∧
        out.length = image.length ∧
        ∀ j k, j < height → k < width * channels →
          out[j * (width * channels) + k]? =
            image[(if j < m ∨ height - m ≤ j then height - 1 - j else j) *
              (width * channels) + k]? := by
  induction m with
  | zero =>
    refine ⟨image, rfl, rfl, fun j k hj _ => ?_⟩
    rw [if_neg (by omega)]
  | succ m ih =>
    obtain ⟨out, hfold, hlenout, hinv⟩ := ih (by omega)
    obtain ⟨out2, hrow, hlenout2, hrows⟩ :=
      flipRow_rows out (width * channels) height m (height - 1 - m) (by omega) (by omega)
        (hlenout.trans hlen) hfit
    have hrow1 := row_step m height (width * channels) (by omega)
    have hrow2 := row_step (height - 1 - m) height (width * channels) (by omega)
    have hrow0 := row_step 0 height (width * channels) (by omega)
    have hfit1 : m * (width * channels) < 2147483648 := by omega
    have hfit2 : (height - 1 - m) * (width * channels) < 2147483648 := by omega
    have hfit0 : width * channels < 2147483648 := by omega
    have hmh : m < height := by omega
    have hsw : ∀ j, j < height →
        (if j = m then height - 1 - m else if j = height - 1 - m then m else j) < height := by
      intro j hj
      split_ifs <;> omega
    refine ⟨out2, foldlM_range_succ_some _ image out out2 m hfold ?_, hlenout2.trans hlenout,
      fun j k hj hk => ?_⟩
    · exact (flipRow_congr out _ _ _ _ _ _ (flip_index_exact m width channels hfit1)
        (flip_index2_exact height m width channels hmh hh hfit2)
        (flip_count_exact width channels hfit0)).trans hrow
    · rw [hrows j k hj hk, hinv _ k (hsw j hj) hk, flip_row_index height m j hm hj]

/-- For `int` dimensions whose product is below `2^31`, the flip returns a
buffer of the same length in which row `j` holds the original row
`height - 1 - j`. -/
theorem flipImageVertically_spec {β : Type} (image : List β) (width height channels : Nat)
    (hh : height < 2147483648) (hfit : width * height * channels < 2147483648)
    (hlen : image.length = width * height * channels) :
    ∃ out, flipImageVertically image (width : Int) (height : Int) (channels : Int) =
        some out ∧
      out.length = image.length ∧
      ∀ j k, j < height → k < width * channels →
        out[j * (width * channels) + k]? =
          image[(height - 1 - j) * (width * channels) + k]? := by
  have hprod : width * height * channels = height * (width * channels) := by ring
  have hhalf : (Int.tdiv (height : Int) 2).toNat = height / 2 := by
    rw [show (2 : Int) = ((2 : Nat) : Int) from rfl, ← Int.ofNat_tdiv, Int.toNat_ofNat]
  obtain ⟨out, hfold, hlenout, hinv⟩ :=
    flipLoop_spec image width height channels hh (by rw [← hprod]; exact hfit)
      (by rw [hlen, hprod]) (height / 2) (Nat.le_refl _)
  refine ⟨out, ?_, hlenout, fun j k hj hk => ?_⟩
  · unfold flipImageVertically
    rw [hhalf]
    exact hfold
  · rw [hinv j k hj hk]
    have hidx : (if j < height / 2 ∨ height - height / 2 ≤ j then height - 1 - j else j) =
        height - 1 - j := by
      split_ifs <;> omega
    rw [hidx]

/-- The inner loop fails at once when its second read is outside the buffer. -/
theorem flipRow_none_of_second_read {β : Type} (image : List β) (index1 index2 : Int)
    (n : Nat) (h : readAt image index2 = none) :
    flipRow image index1 index2 (n + 1) = none := by
  simp only [flipRow, h]
  cases readAt image index1 <;> rfl

/-- A loop over `0 .. n` whose first pass fails, fails. -/
theorem foldlM_range_first_none {β : Type} (f : List β → Nat → Option (List β))
    (x : List β) (n : Nat) (h : f x 0 = none) :
    (List.range (n + 1)).foldlM f x = none := by
  rw [List.range_succ_eq_map, List.foldlM_cons, h]
  rfl

/-- The flip fails when the outer loop runs at least once and the second read
of its first pass is outside the buffer. -/
theorem flip_none_of_first_read {β : Type} (image : List β) (width height channels : Int)
    (n c : Nat) (hhalf : (Int.tdiv height 2).toNat = n + 1)
    (hcount : (wrapInt32 (width * channels)).toNat = c + 1)
    (hread : readAt image
      (wrapInt32 (wrapInt32 (wrapInt32 (wrapInt32 (height - 1) - ((0 : Nat) : Int)) * width) *
        channels)) = none) :
    flipImageVertically image width height channels = none := by
  unfold flipImageVertically
  rw [hhalf]
  apply foldlM_range_first_none
  show flipRow _ _ _ (wrapInt32 (width * channels)).toNat = none
  rw [hcount]
  exact flipRow_none_of_second_read _ _ _ _ hread

/-- On a correctly sized buffer of `65536 * 32769` bytes the `int` index
`index2 = 32768 * 65536` of the first pass overflows to `-2^31`, and the first
read through it is outside the buffer. -/
theorem flip_overflow_none :
    flipImageVertically (List.replicate (65536 * 32769 * 1) (0 : Nat)) 65536 32769 1 =
      none := by
  have hidx2 : wrapInt32 (wrapInt32 (wrapInt32 (wrapInt32 ((32769 : Int) - 1) -
      ((0 : Nat) : Int)) * 65536) * 1) = -2147483648 := by decide
  refine flip_none_of_first_read _ 65536 32769 1 16383 65535 (by decide) (by decide) ?_
  rw [hidx2]
  exact if_neg (by decide)

/-- C21, as stated, fails: for `width = 65536`, `height = 32769`,
`channels = 1` and a buffer of exactly `width*height*channels` bytes, the
`int` index `(height - 1 - 0) * width * channels = 2^31` of the first pass
overflows and the call reads outside the buffer instead of returning the
row-reversed image. -/
theorem C21_flip_reverses_rows_counterexample :
    (List.replicate (65536 * 32769 * 1) (0 : Nat)).length = 65536 * 32769 * 1 ∧
      (0 : Int) ≤ 65536 ∧ (0 : Int) ≤ 32769 ∧ (0 : Int) ≤ 1 ∧
      flipImageVertically (List.replicate (65536 * 32769 * 1) (0 : Nat)) 65536 32769 1 =
        none :=
  ⟨List.length_replicate _ _, by decide, by decide, by decide, flip_overflow_none⟩

/-- C21, amended: `flipImageVertically` reverses the row order of the image in
place for all `int` values `width`, `height`, `channels >= 0` whose product
`width*height*channels` is below `2^31`, and every image buffer of that many
bytes: after the call the byte at row `j`, in-row offset `k` (`0 <= j < height`,
`0 <= k < width*channels`) equals the original byte at row `height-1-j`, offset
`k`; in particular for odd `height` the middle row is unchanged, and no byte
outside the buffer is read or written. -/
theorem C21_flip_reverses_rows {β : Type} (image : List β)
    (width height channels j k : Nat) (_hw : width < 2147483648)
    (hh : height < 2147483648) (_hc : channels < 2147483648)
    (hfit : width * height * channels < 2147483648)
    (hlen : image.length = width * height * channels)
    (hj : j < height) (hk : k < width * channels) :
    ∃ out, flipImageVertically image (width : Int) (height : Int) (channels : Int) =
        some out ∧
      out.length = image.length ∧
      out[j * (width * channels) + k]? =
        image[(height - 1 - j) * (width * channels) + k]? ∧
      (height - 1 - j) * (width * channels) + k < image.length ∧
      (height % 2 = 1 →
        out[height / 2 * (width * channels) + k]? =
          image[height / 2 * (width * channels) + k]?) := by
  obtain ⟨out, hflip, hlenout, hspec⟩ :=
    flipImageVertically_spec image width height channels hh hfit hlen
  refine ⟨out, hflip, hlenout, hspec j k hj hk, ?_, fun hodd => ?_⟩
  · have hrow := row_step (height - 1 - j) height (width * channels) (by omega)
    have hlen2 : image.length = height * (width * channels) := by rw [hlen]; ring
    omega
  · have hmid : height - 1 - height / 2 = height / 2 := by omega
    have hmidspec := hspec (height / 2) k (by omega) hk
    rw [hmid] at hmidspec
    exact hmidspec

/-- Witness of the amended C21: a 2 x 3 image with 2 channels, row 0, in-row
offset 1. -/
theorem C21_flip_reverses_rows_witness :
    2 < 2147483648 ∧ 3 < 2147483648 ∧ 2 < 2147483648 ∧ 2 * 3 * 2 < 2147483648 ∧
    [10, 11, 12, 13, 20, 21, 22, 23, 30, 31, 32, 33].length = 2 * 3 * 2 ∧ 0 < 3 ∧
    1 < 2 * 2 ∧
    ∃ out, flipImageVertically [10, 11, 12, 13, 20, 21, 22, 23, 30, 31, 32, 33]
        ((2 : Nat) : Int) ((3 : Nat) : Int) ((2 : Nat) : Int) = some out ∧
      out.length = [10, 11, 12, 13, 20, 21, 22, 23, 30, 31, 32, 33].length ∧
      out[0 * (2 * 2) + 1]? =
        [10, 11, 12, 13, 20, 21, 22, 23, 30, 31, 32, 33][(3 - 1 - 0) * (2 * 2) + 1]? ∧
      (3 - 1 - 0) * (2 * 2) + 1 < [10, 11, 12, 13, 20, 21, 22, 23, 30, 31, 32, 33].length ∧
      (3 % 2 = 1 →
        out[3 / 2 * (2 * 2) + 1]? =
          [10, 11, 12, 13, 20, 21, 22, 23, 30, 31, 32, 33][3 / 2 * (2 * 2) + 1]?) :=
  ⟨by decide, by decide, by decide, by decide, by decide, by decide, by decide,
    C21_flip_reverses_rows [10, 11, 12, 13, 20, 21, 22, 23, 30, 31, 32, 33] 2 3 2 0 1
      (by decide) (by decide) (by decide) (by decide) (by decide) (by decide) (by decide)⟩

/-- C24, as stated, fails: for `width = 65536`, `height = 32769`,
`channels = 1` and a buffer of exactly `width*height*channels` bytes the first
application already reads outside the buffer (the `int` index overflows), so
no second application restores the original. -/
theorem C24_flip_involution_counterexample :
    (List.replicate (65536 * 32769 * 1) (0 : Nat)).length = 65536 * 32769 * 1 ∧
      ¬ ∃ out,
        flipImageVertically (List.replicate (65536 * 32769 * 1) (0 : Nat)) 65536 32769 1 =
            some out ∧
          flipImageVertically out 65536 32769 1 =
            some (List.replicate (65536 * 32769 * 1) (0 : Nat)) := by
  refine ⟨List.length_replicate _ _, ?_⟩
  rintro ⟨out, h1, _⟩
  rw [flip_overflow_none] at h1
  cases h1

/-- C24, amended: `flipImageVertically` is an involution for all `int` values
`width`, `height`, `channels >= 0` whose product `width*height*channels` is
below `2^31`, and every image buffer of that many bytes: applying it twice with
the same dimensions restores the original buffer byte for byte. -/
theorem C24_flip_involution {β : Type} (image : List β) (width height channels : Nat)
    (_hw : width < 2147483648) (hh : height < 2147483648) (_hc : channels < 2147483648)
    (hfit : width * height * channels < 2147483648)
    (hlen : image.length = width * height * channels) :
    ∃ out, flipImageVertically image (width : Int) (height : Int) (channels : Int) =
        some out ∧
      flipImageVertically out (width : Int) (height : Int) (channels : Int) =
        some image := by
  obtain ⟨out, hflip, hlenout, hspec⟩ :=
    flipImageVertically_spec image width height channels hh hfit hlen
  obtain ⟨out2, hflip2, hlenout2, hspec2⟩ :=
    flipImageVertically_spec out width height channels hh hfit (hlenout.trans hlen)
  have hlen2 : image.length = height * (width * channels) := by rw [hlen]; ring
  have heq : out2 = image := by
    apply List.ext_getElem?
    intro p
    by_cases hp : p < image.length
    · have hR : 0 < width * channels := by
        rcases Nat.eq_zero_or_pos (width * channels) with h0 | h0
        · rw [hlen2, h0, Nat.mul_zero] at hp
          omega
        · exact h0
      have hrow : p / (width * channels) < height := by
        rw [Nat.div_lt_iff_lt_mul hR, ← hlen2]
        exact hp
      have hcol : p % (width * channels) < width * channels := Nat.mod_lt _ hR
      have hp2 : p / (width * channels) * (width * channels) + p % (width * channels) = p :=
        Nat.div_add_mod' p (width * channels)
      have hmirror : ∀ q, q < height →
          height - 1 - q < height ∧ height - 1 - (height - 1 - q) = q :=
        fun q hq => by omega
      have hback := (hmirror _ hrow).2
      have h1 := hspec2 (p / (width * channels)) (p % (width * channels)) hrow hcol
      have h2 := hspec (height - 1 - p / (width * channels)) (p % (width * channels))
        (hmirror _ hrow).1 hcol
      rw [hback] at h2
      rw [hp2] at h1 h2
      rw [h1, h2]
    · rw [List.getElem?_eq_none (by omega), List.getElem?_eq_none (by omega)]
  exact ⟨out, hflip, heq ▸ hflip2⟩

/-- Witness of the amended C24: a 2 x 3 image with 2 channels. -/
theorem C24_flip_involution_witness :
    2 < 2147483648 ∧ 3 < 2147483648 ∧ 2 < 2147483648 ∧ 2 * 3 * 2 < 2147483648 ∧
    [10, 11, 12, 13, 20, 21, 22, 23, 30, 31, 32, 33].length = 2 * 3 * 2 ∧
    ∃ out, flipImageVertically [10, 11, 12, 13, 20, 21, 22, 23, 30, 31, 32, 33]
        ((2 : Nat) : Int) ((3 : Nat) : Int) ((2 : Nat) : Int) = some out ∧
      flipImageVertically out ((2 : Nat) : Int) ((3 : Nat) : Int) ((2 : Nat) : Int) =
        some [10, 11, 12, 13, 20, 21, 22, 23, 30, 31, 32, 33] :=
  ⟨by decide, by decide, by decide, by decide, by decide,
    C24_flip_involution [10, 11, 12, 13, 20, 21, 22, 23, 30, 31, 32, 33] 2 3 2
      (by decide) (by decide) (by decide) (by decide) (by decide)⟩

/-! ## Cylinder: triangles of the caps -/

/-- Entry `6 * segments + 6 * i + r` of the cylinder index vector lies in the
cap part. -/
theorem cylinder_getElem?_cap (segments i r : Nat) (hi : i < segments) (hr : r < 6) :
    (UCreateCylinder.indices segments)[6 * segments + 6 * i + r]? =
      (UCreateCylinder.capIndices segments i)[r]? := by
  have hside : (((List.range segments).map UCreateCylinder.sideIndices).flatten).length =
      6 * segments := by
    rw [length_flatten_chunks UCreateCylinder.sideIndices 6 (fun _ => rfl),
      List.length_range]
  rw [cylinder_indices_eq, List.getElem?_append_right (by rw [hside]; omega), hside,
    show 6 * segments + 6 * i + r - 6 * segments = 6 * i + r by omega]
  exact getElem?_range_chunks (UCreateCylinder.capIndices segments) 6 (fun _ => rfl)
    segments i r hi hr

/-- The two cap triangles of segment `i` are `(top i, top (i+1), centre top)`
and `(bottom i, centre bottom, bottom (i+1))`. -/
theorem cylinder_cap_triangles {α : Type} [Field α] (ops : FloatOps α)
    (segments : Nat) (radius height : α) (i : Nat) (hi : i < segments) :
    ∃ t0 t1 ct b0 cb b1 : Vertex α,
      triangleAt (UCreateCylinder.vertices ops segments radius height)
          (UCreateCylinder.indices segments) (2 * segments + 2 * i) = some (t0, t1, ct) ∧
      triangleAt (UCreateCylinder.vertices ops segments radius height)
          (UCreateCylinder.indices segments) (2 * segments + 2 * i + 1) =
        some (b0, cb, b1) ∧
      t0.position =
        (radius * ops.cos ((i : α) * (2 * ops.pi / (segments : α))), height / 2,
          radius * ops.sin ((i : α) * (2 * ops.pi / (segments : α)))) ∧
      t1.position =
        (radius * ops.cos (((i + 1 : Nat) : α) * (2 * ops.pi / (segments : α))),
          height / 2,
          radius * ops.sin (((i + 1 : Nat) : α) * (2 * ops.pi / (segments : α)))) ∧
      ct.position = (0, height / 2, 0) ∧
      b0.position =
        (radius * ops.cos ((i : α) * (2 * ops.pi / (segments : α))), -height / 2,
          radius * ops.sin ((i : α) * (2 * ops.pi / (segments : α)))) ∧
      cb.position = (0, -height / 2, 0) ∧
      b1.position =
        (radius * ops.cos (((i + 1 : Nat) : α) * (2 * ops.pi / (segments : α))),
          -height / 2,
          radius * ops.sin (((i + 1 : Nat) : α) * (2 * ops.pi / (segments : α)))) := by
  have ht0 := cylinder_vertexAt_top ops segments radius height i (by omega)
  have hb0 := cylinder_vertexAt_bottom ops segments radius height i (by omega)
  have hb1 := cylinder_vertexAt_bottom ops segments radius height (i + 1) (by omega)
  have ht1 := cylinder_vertexAt_top ops segments radius height (i + 1) (by omega)
  have hct := cylinder_vertexAt_centerTop ops segments radius height
  have hcb := cylinder_vertexAt_centerBottom ops segments radius height
  rw [Nat.mul_comm 2 i] at ht0 hb0
  rw [Nat.mul_comm 2 (i + 1)] at ht1 hb1
  have hidx : ∀ r, r < 6 → ∀ k, UCreateCylinder.capIndices segments i = k →
      (UCreateCylinder.indices segments)[6 * segments + 6 * i + r]? = k[r]? :=
    fun r hr k hk => hk ▸ cylinder_getElem?_cap segments i r hi hr
  have tri1 := triangleAt_of_vertices (UCreateCylinder.vertices ops segments radius height)
    (UCreateCylinder.indices segments) (2 * segments + 2 * i) (i * 2) ((i + 1) * 2)
    (UCreateCylinder.centerTopIndex segments) _ _ _
    (by rw [show 3 * (2 * segments + 2 * i) + 0 = 6 * segments + 6 * i + 0 by omega,
          hidx 0 (by decide) _ rfl]; rfl)
    (by rw [show 3 * (2 * segments + 2 * i) + 1 = 6 * segments + 6 * i + 1 by omega,
          hidx 1 (by decide) _ rfl]; rfl)
    (by rw [show 3 * (2 * segments + 2 * i) + 2 = 6 * segments + 6 * i + 2 by omega,
          hidx 2 (by decide) _ rfl]; rfl)
    ht0 ht1 hct
  have tri2 := triangleAt_of_vertices (UCreateCylinder.vertices ops segments radius height)
    (UCreateCylinder.indices segments) (2 * segments + 2 * i + 1) (i * 2 + 1)
    (UCreateCylinder.centerBottomIndex segments) ((i + 1) * 2 + 1) _ _ _
    (by rw [show 3 * (2 * segments + 2 * i + 1) + 0 = 6 * segments + 6 * i + 3 by omega,
          hidx 3 (by decide) _ rfl]; rfl)
    (by rw [show 3 * (2 * segments + 2 * i + 1) + 1 = 6 * segments + 6 * i + 4 by omega,
          hidx 4 (by decide) _ rfl]; rfl)
    (by rw [show 3 * (2 * segments + 2 * i + 1) + 2 = 6 * segments + 6 * i + 5 by omega,
          hidx 5 (by decide) _ rfl]; rfl)
    hb0 hcb hb1
  exact ⟨_, _, _, _, _, _, tri1, tri2, rfl, rfl, rfl, rfl, rfl, rfl⟩

/-- Face normal of the top-cap triangle `(top a, top b, centre)`. -/
theorem top_cap_faceNormal (r h a b : ℝ) :
    faceNormal (r * Real.cos a, h / 2, r * Real.sin a) (r * Real.cos b, h / 2, r * Real.sin b)
        (0, h / 2, 0) =
      (0, -(r ^ 2 * Real.sin (b - a)), 0) := by
  simp only [faceNormal, cross, vsub, Real.sin_sub]
  refine Prod.ext ?_ (Prod.ext ?_ ?_)
  · show (h / 2 - h / 2) * (0 - r * Real.sin a) -
        (r * Real.sin b - r * Real.sin a) * (h / 2 - h / 2) = 0
    ring
  · show (r * Real.sin b - r * Real.sin a) * (0 - r * Real.cos a) -
        (r * Real.cos b - r * Real.cos a) * (0 - r * Real.sin a) =
      -(r ^ 2 * (Real.sin b * Real.cos a - Real.cos b * Real.sin a))
    ring
  · show (r * Real.cos b - r * Real.cos a) * (h / 2 - h / 2) -
        (h / 2 - h / 2) * (0 - r * Real.cos a) = 0
    ring

/-- Face normal of the bottom-cap triangle `(bottom a, centre, bottom b)`. -/
theorem bottom_cap_faceNormal (r h a b : ℝ) :
    faceNormal (r * Real.cos a, -h / 2, r * Real.sin a) (0, -h / 2, 0)
        (r * Real.cos b, -h / 2, r * Real.sin b) =
      (0, r ^ 2 * Real.sin (b - a), 0) := by
  simp only [faceNormal, cross, vsub, Real.sin_sub]
  refine Prod.ext ?_ (Prod.ext ?_ ?_)
  · show (-h / 2 - -h / 2) * (r * Real.sin b - r * Real.sin a) -
        (0 - r * Real.sin a) * (-h / 2 - -h / 2) = 0
    ring
  · show (0 - r * Real.sin a) * (r * Real.cos b - r * Real.cos a) -
        (0 - r * Real.cos a) * (r * Real.sin b - r * Real.sin a) =
      r ^ 2 * (Real.sin b * Real.cos a - Real.cos b * Real.sin a)
    ring
  · show (0 - r * Real.cos a) * (-h / 2 - -h / 2) -
        (-h / 2 - -h / 2) * (r * Real.cos b - r * Real.cos a) = 0
    ring

/-- The sine of `2π / n` is positive for `n >= 3`. -/
theorem sin_two_pi_div_pos (n : Nat) (hn : 3 ≤ n) : 0 < Real.sin (2 * Real.pi / (n : ℝ)) := by
  have hn0 : (0 : ℝ) < (n : ℝ) := Nat.cast_pos.mpr (by omega)
  have hn3 : (3 : ℝ) ≤ (n : ℝ) := by exact_mod_cast hn
  apply Real.sin_pos_of_pos_of_lt_pi (div_pos (by positivity) hn0)
  rw [div_lt_iff₀ hn0]
  nlinarith [Real.pi_pos]

/-- The zero vector has zero dot product with every vector. -/
theorem dot_zero_left (v : ℝ × ℝ × ℝ) : dot (0, 0, 0) v = 0 := by
  simp only [dot, zero_mul, add_zero]

/-- C25: the cylinder's cap triangles have the same handedness relative to the
solid as its side-wall triangles: for every `segments >= 3`, `radius > 0`,
`height > 0` and every segment `i` (over the reals), the right-hand-rule normal
of the top-cap triangle `(top1, top2, centerTop)` is
`(0, -radius^2*sin(2pi/segments), 0)`, pointing in `-y`, and that of the
bottom-cap triangle `(bottom1, centerBottom, bottom2)` points in `+y`, so both
point into the cylinder, as do the side-wall triangle normals (negative dot
product with the outward radial direction); no cylinder triangle is
degenerate. -/
theorem C25_cylinder_cap_handedness (segments : Nat) (radius height : ℝ) (i : Nat)
    (h : 3 ≤ segments) (hr : 0 < radius) (hh : 0 < height) (hi : i < segments) :
    ∃ t0 t1 ct b0 cb b1 s0 sb0 sb1 s1 : Vertex ℝ,
      triangleAt (UCreateCylinder.vertices (FloatOps.mk Real.pi Real.cos Real.sin Real.sqrt) segments radius height)
          (UCreateCylinder.indices segments) (2 * segments + 2 * i) = some (t0, t1, ct) ∧
      triangleAt (UCreateCylinder.vertices (FloatOps.mk Real.pi Real.cos Real.sin Real.sqrt) segments radius height)
          (UCreateCylinder.indices segments) (2 * segments + 2 * i + 1) = some (b0, cb, b1) ∧
      triangleAt (UCreateCylinder.vertices (FloatOps.mk Real.pi Real.cos Real.sin Real.sqrt) segments radius height)
          (UCreateCylinder.indices segments) (2 * i) = some (s0, sb0, sb1) ∧
      triangleAt (UCreateCylinder.vertices (FloatOps.mk Real.pi Real.cos Real.sin Real.sqrt) segments radius height)
          (UCreateCylinder.indices segments) (2 * i + 1) = some (s0, sb1, s1) ∧
      faceNormal t0.position t1.position ct.position =
        (0, -(radius ^ 2 * Real.sin (2 * Real.pi / (segments : ℝ))), 0) ∧
      faceNormal b0.position cb.position b1.position =
        (0, radius ^ 2 * Real.sin (2 * Real.pi / (segments : ℝ)), 0) ∧
      0 < radius ^ 2 * Real.sin (2 * Real.pi / (segments : ℝ)) ∧
      dot (faceNormal t0.position t1.position ct.position) (0, 1, 0) < 0 ∧
      dot (faceNormal b0.position cb.position b1.position) (0, -1, 0) < 0 ∧
      dot (faceNormal s0.position sb0.position sb1.position)
          (Real.cos (((i : ℝ) + 1 / 2) * (2 * Real.pi / (segments : ℝ))), 0,
            Real.sin (((i : ℝ) + 1 / 2) * (2 * Real.pi / (segments : ℝ)))) < 0 ∧
      dot (faceNormal s0.position sb1.position s1.position)
          (Real.cos (((i : ℝ) + 1 / 2) * (2 * Real.pi / (segments : ℝ))), 0,
            Real.sin (((i : ℝ) + 1 / 2) * (2 * Real.pi / (segments : ℝ)))) < 0 ∧
      faceNormal t0.position t1.position ct.position ≠ (0, 0, 0) ∧
      faceNormal b0.position cb.position b1.position ≠ (0, 0, 0) ∧
      faceNormal s0.position sb0.position sb1.position ≠ (0, 0, 0) ∧
      faceNormal s0.position sb1.position s1.position ≠ (0, 0, 0) := by
  obtain ⟨t0, t1, ct, b0, cb, b1, tri1, tri2, ht0, ht1, hct, hb0, hcb, hb1⟩ :=
    cylinder_cap_triangles (FloatOps.mk Real.pi Real.cos Real.sin Real.sqrt) segments radius height i hi
  obtain ⟨s0, sb0, sb1, s1, tri3, tri4, hdot1, hdot2⟩ :=
    cylinder_side_normals_dot segments radius height i hi
  have hn0 : (segments : ℝ) ≠ 0 := Nat.cast_ne_zero.mpr (by omega)
  have hstep : ((i + 1 : Nat) : ℝ) * (2 * Real.pi / (segments : ℝ)) -
      (i : ℝ) * (2 * Real.pi / (segments : ℝ)) = 2 * Real.pi / (segments : ℝ) := by
    push_cast
    ring
  have htop : faceNormal t0.position t1.position ct.position =
      (0, -(radius ^ 2 * Real.sin (2 * Real.pi / (segments : ℝ))), 0) := by
    rw [ht0, ht1, hct, top_cap_faceNormal, hstep]
  have hbottom : faceNormal b0.position cb.position b1.position =
      (0, radius ^ 2 * Real.sin (2 * Real.pi / (segments : ℝ)), 0) := by
    rw [hb0, hcb, hb1, bottom_cap_faceNormal, hstep]
  have hsin := sin_two_pi_div_pos segments h
  have hcap : 0 < radius ^ 2 * Real.sin (2 * Real.pi / (segments : ℝ)) := by positivity
  have hside : -(2 * radius * height * Real.sin (Real.pi / (segments : ℝ))) < 0 := by
    have hs := sin_pi_div_pos segments (by omega)
    have hpos : 0 < 2 * radius * height * Real.sin (Real.pi / (segments : ℝ)) := by
      positivity
    linarith
  refine ⟨t0, t1, ct, b0, cb, b1, s0, sb0, sb1, s1, tri1, tri2, tri3, tri4, htop, hbottom,
    hcap, ?_, ?_, ?_, ?_, ?_, ?_, ?_, ?_⟩
  · rw [htop]
    simp only [dot, zero_mul, mul_zero, mul_one, zero_add, add_zero]
    linarith
  · rw [hbottom]
    simp only [dot, zero_mul, mul_zero, mul_neg, mul_one, zero_add, add_zero]
    linarith
  · rw [hdot1]
    exact hside
  · rw [hdot2]
    exact hside
  · rw [htop]
    intro heq
    have hy := congrArg (fun p : ℝ × ℝ × ℝ => p.2.1) heq
    simp only at hy
    linarith
  · rw [hbottom]
    intro heq
    have hy := congrArg (fun p : ℝ × ℝ × ℝ => p.2.1) heq
    simp only at hy
    linarith
  · intro heq
    rw [heq, dot_zero_left] at hdot1
    linarith
  · intro heq
    rw [heq, dot_zero_left] at hdot2
    linarith

/-- Witness of C25: segment 5 of the shipped cylinder. -/
theorem C25_cylinder_cap_handedness_witness :
    3 ≤ 36 ∧ (0 : ℝ) < 1 ∧ (0 : ℝ) < 2 ∧ 5 < 36 ∧
    ∃ t0 t1 ct b0 cb b1 s0 sb0 sb1 s1 : Vertex ℝ,
      triangleAt (UCreateCylinder.vertices (FloatOps.mk Real.pi Real.cos Real.sin Real.sqrt) 36 1 2)
          (UCreateCylinder.indices 36) (2 * 36 + 2 * 5) = some (t0, t1, ct) ∧
      triangleAt (UCreateCylinder.vertices (FloatOps.mk Real.pi Real.cos Real.sin Real.sqrt) 36 1 2)
          (UCreateCylinder.indices 36) (2 * 36 + 2 * 5 + 1) = some (b0, cb, b1) ∧
      triangleAt (UCreateCylinder.vertices (FloatOps.mk Real.pi Real.cos Real.sin Real.sqrt) 36 1 2)
          (UCreateCylinder.indices 36) (2 * 5) = some (s0, sb0, sb1) ∧
      triangleAt (UCreateCylinder.vertices (FloatOps.mk Real.pi Real.cos Real.sin Real.sqrt) 36 1 2)
          (UCreateCylinder.indices 36) (2 * 5 + 1) = some (s0, sb1, s1) ∧
      faceNormal t0.position t1.position ct.position =
        (0, -(1 ^ 2 * Real.sin (2 * Real.pi / ((36 : Nat) : ℝ))), 0) ∧
      faceNormal b0.position cb.position b1.position =
        (0, 1 ^ 2 * Real.sin (2 * Real.pi / ((36 : Nat) : ℝ)), 0) ∧
      0 < 1 ^ 2 * Real.sin (2 * Real.pi / ((36 : Nat) : ℝ)) ∧
      dot (faceNormal t0.position t1.position ct.position) (0, 1, 0) < 0 ∧
      dot (faceNormal b0.position cb.position b1.position) (0, -1, 0) < 0 ∧
      dot (faceNormal s0.position sb0.position sb1.position)
          (Real.cos ((((5 : Nat) : ℝ) + 1 / 2) * (2 * Real.pi / ((36 : Nat) : ℝ))), 0,
            Real.sin ((((5 : Nat) : ℝ) + 1 / 2) * (2 * Real.pi / ((36 : Nat) : ℝ)))) < 0 ∧
      dot (faceNormal s0.position sb1.position s1.position)
          (Real.cos ((((5 : Nat) : ℝ) + 1 / 2) * (2 * Real.pi / ((36 : Nat) : ℝ))), 0,
            Real.sin ((((5 : Nat) : ℝ) + 1 / 2) * (2 * Real.pi / ((36 : Nat) : ℝ)))) < 0 ∧
      faceNormal t0.position t1.position ct.position ≠ (0, 0, 0) ∧
      faceNormal b0.position cb.position b1.position ≠ (0, 0, 0) ∧
      faceNormal s0.position sb0.position sb1.position ≠ (0, 0, 0) ∧
      faceNormal s0.position sb1.position s1.position ≠ (0, 0, 0) :=
  ⟨by decide, by norm_num, by norm_num, by decide,
    C25_cylinder_cap_handedness 36 1 2 5 (by decide) (by norm_num) (by norm_num)
      (by decide)⟩

end Mesh
